import Mathlib

/-!
Cartometric analysis core of libalgo

A verification development over a shallow embedding of

* `source/algorithms/transformation/HelmertTransformation2D.hpp`
* `source/algorithms/geneticalgorithms/DifferentialEvolution.hpp`
* `source/algorithms/nonlinearleastsquares/FAnalyzeProjV4.h`

The C++ code is templated over its number type (`typename Point1::Type`, `T`).
The embedding keeps that parameter: every definition is stated over an arbitrary
linearly ordered field `K` and is executable at `K = ℚ`.  Results therefore
describe the code in exact arithmetic; rounding of `double` is outside the model.
Containers are lists, `c[i]` is `List.getD` (reads outside a container are
undefined in the source and excluded by hypotheses), `throw` is `Except.error`.
-/

open Finset

/-! ## 2D Helmert transformation -/

namespace HelmertTransformation2D

/-- Planar point: the `getX()`, `getY()` part of the point classes. -/
structure Point (K : Type) where
  x : K
  y : K
deriving DecidableEq

/-- Key of the 2D Helmert transformation (`TTransformationKeyHelmert2D`). -/
structure TTransformationKeyHelmert2D (K : Type) where
  x_mass_local : K
  y_mass_local : K
  x_mass_global : K
  y_mass_global : K
  c1 : K
  c2 : K
  J : K
  k : K
deriving DecidableEq

/-- Exceptions thrown by the transformation. -/
inductive Error where
  | ErrorBadData
  | ErrorMathZeroDevision
deriving DecidableEq

/-- Accumulators of the first loop of `getTransformKey`. -/
structure Sums (K : Type) where
  sumx_local : K
  sumy_local : K
  sumx_global : K
  sumy_global : K
  sum_weights : K

/-- Accumulators of the second loop of `getTransformKey`. -/
structure Coeffs (K : Type) where
  J : K
  k1 : K
  k2 : K

variable {K : Type} [LinearOrderedField K]

/-- Element access `points [i]`. -/
def pt (points : List (Point K)) (i : Nat) : Point K := points.getD i ⟨0, 0⟩

/-- Element access `weights[i]`. -/
def wt (weights : List K) (i : Nat) : K := weights.getD i 0

/-- Body of the loop "Compute sums of coordinates, weights". -/
def sumsStep (global_points local_points : List (Point K)) (weights : List K)
    (s : Sums K) (i : Nat) : Sums K :=
  { sumx_local := s.sumx_local + wt weights i * (pt local_points i).x
    sumy_local := s.sumy_local + wt weights i * (pt local_points i).y
    sumx_global := s.sumx_global + wt weights i * (pt global_points i).x
    sumy_global := s.sumy_global + wt weights i * (pt global_points i).y
    sum_weights := s.sum_weights + wt weights i }

/-- Body of the loop "Process all points": reduction to the centers of mass and
update of `J`, `k1`, `k2`. -/
def coeffsStep (global_points local_points : List (Point K)) (weights : List K)
    (x_mass_local y_mass_local x_mass_global y_mass_global : K)
    (c : Coeffs K) (i : Nat) : Coeffs K :=
  let x_red_local := (pt local_points i).x - x_mass_local
  let y_red_local := (pt local_points i).y - y_mass_local
  let xred_global := (pt global_points i).x - x_mass_global
  let yred_global := (pt global_points i).y - y_mass_global
  { J := c.J + wt weights i * (x_red_local * x_red_local + y_red_local * y_red_local)
    k1 := c.k1 + wt weights i * (xred_global * x_red_local + yred_global * y_red_local)
    k2 := c.k2 + wt weights i * (yred_global * x_red_local - xred_global * y_red_local) }

/-- Weighted overload of `HelmertTransformation2D::getTransformKey`. -/
def getTransformKeyW (global_points local_points : List (Point K)) (weights : List K) :
    Except Error (TTransformationKeyHelmert2D K) :=
  let n_global := global_points.length
  let n_local := local_points.length
  if n_global < 2 ∨ n_local < 2 then Except.error Error.ErrorBadData
  else if n_global > n_local then Except.error Error.ErrorBadData
  else
    let s := (List.range n_global).foldl (sumsStep global_points local_points weights)
      ⟨0, 0, 0, 0, 0⟩
    let x_mass_local := s.sumx_local / s.sum_weights
    let y_mass_local := s.sumy_local / s.sum_weights
    let x_mass_global := s.sumx_global / s.sum_weights
    let y_mass_global := s.sumy_global / s.sum_weights
    let c := (List.range n_global).foldl
      (coeffsStep global_points local_points weights
        x_mass_local y_mass_local x_mass_global y_mass_global) ⟨0, 0, 0⟩
    if c.J = 0 then Except.error Error.ErrorMathZeroDevision
    else Except.ok
      { x_mass_local := x_mass_local
        y_mass_local := y_mass_local
        x_mass_global := x_mass_global
        y_mass_global := y_mass_global
        c1 := c.k1 / c.J
        c2 := c.k2 / c.J
        J := c.J
        k := s.sum_weights }

/-- Non weighted overload of `getTransformKey`: `weights ( global_points.size(), 1.0 )`. -/
def getTransformKey (global_points local_points : List (Point K)) :
    Except Error (TTransformationKeyHelmert2D K) :=
  getTransformKeyW global_points local_points (List.replicate global_points.length 1)

/-- Body of the loop of `transform`: reduce, transform, `push_back`. -/
def transformStep (local_points : List (Point K)) (key_helmert : TTransformationKeyHelmert2D K)
    (transformed_points : List (Point K)) (i : Nat) : List (Point K) :=
  let x_red_local := (pt local_points i).x - key_helmert.x_mass_local
  let y_red_local := (pt local_points i).y - key_helmert.y_mass_local
  let x_transform := key_helmert.c1 * x_red_local - key_helmert.c2 * y_red_local
    + key_helmert.x_mass_global
  let y_transform := key_helmert.c2 * x_red_local + key_helmert.c1 * y_red_local
    + key_helmert.y_mass_global
  transformed_points ++ [⟨x_transform, y_transform⟩]

/-- The function `HelmertTransformation2D::transform`: the list `transformed_points`
is an in-out argument and has to be empty on entry. -/
def transform (_global_points local_points transformed_points : List (Point K))
    (key_helmert : TTransformationKeyHelmert2D K) : Except Error (List (Point K)) :=
  if transformed_points.length ≠ 0 then Except.error Error.ErrorBadData
  else
    Except.ok ((List.range local_points.length).foldl
      (transformStep local_points key_helmert) transformed_points)

/-! ### Closed forms named by the specification -/

/-- Sum of the first `n` weights. -/
def weightSum (w : List K) (n : Nat) : K := ∑ i in range n, wt w i

/-- The `w`-weighted centroid abscissa of the first `n` points. -/
def centroidX (p : List (Point K)) (w : List K) (n : Nat) : K :=
  (∑ i in range n, wt w i * (pt p i).x) / weightSum w n

/-- The `w`-weighted centroid ordinate of the first `n` points. -/
def centroidY (p : List (Point K)) (w : List K) (n : Nat) : K :=
  (∑ i in range n, wt w i * (pt p i).y) / weightSum w n

/-- Abscissa of point `i` reduced to the weighted centroid. -/
def redX (p : List (Point K)) (w : List K) (n i : Nat) : K := (pt p i).x - centroidX p w n

/-- Ordinate of point `i` reduced to the weighted centroid. -/
def redY (p : List (Point K)) (w : List K) (n i : Nat) : K := (pt p i).y - centroidY p w n

/-- Closed form `J = Σ wᵢ (xᵢ² + yᵢ²)` over the reduced local coordinates. -/
def specJ (l : List (Point K)) (w : List K) (n : Nat) : K :=
  ∑ i in range n, wt w i * (redX l w n i ^ 2 + redY l w n i ^ 2)

/-- Closed form `Σ wᵢ (x'ᵢ·xᵢ + y'ᵢ·yᵢ)`, primed = global reduced. -/
def specK1 (g l : List (Point K)) (w : List K) (n : Nat) : K :=
  ∑ i in range n, wt w i * (redX g w n i * redX l w n i + redY g w n i * redY l w n i)

/-- Closed form `Σ wᵢ (y'ᵢ·xᵢ − x'ᵢ·yᵢ)`, primed = global reduced. -/
def specK2 (g l : List (Point K)) (w : List K) (n : Nat) : K :=
  ∑ i in range n, wt w i * (redY g w n i * redX l w n i - redX g w n i * redY l w n i)

/-- The key the specification describes for the first `n` points. -/
def specKey (g l : List (Point K)) (w : List K) (n : Nat) : TTransformationKeyHelmert2D K :=
  { x_mass_local := centroidX l w n
    y_mass_local := centroidY l w n
    x_mass_global := centroidX g w n
    y_mass_global := centroidY g w n
    c1 := specK1 g l w n / specJ l w n
    c2 := specK2 g l w n / specJ l w n
    J := specJ l w n
    k := weightSum w n }

/-- Weighted squared misfit of the similarity `(x, y) ↦ (a x − b y + tx, b x + a y + ty)`
applied to the local points, against the global points. -/
def misfit (g l : List (Point K)) (w : List K) (n : Nat) (a b tx ty : K) : K :=
  ∑ i in range n, wt w i *
    ((a * (pt l i).x - b * (pt l i).y + tx - (pt g i).x) ^ 2
      + (b * (pt l i).x + a * (pt l i).y + ty - (pt g i).y) ^ 2)

/-- Weighted squared distance between a list of transformed points and the global points. -/
def residualSq (g t : List (Point K)) (w : List K) (n : Nat) : K :=
  ∑ i in range n, wt w i * (((pt t i).x - (pt g i).x) ^ 2 + ((pt t i).y - (pt g i).y) ^ 2)

/-- Weighted sum of squares of the reduced global coordinates. -/
def specE (g : List (Point K)) (w : List K) (n : Nat) : K :=
  ∑ i in range n, wt w i * (redX g w n i ^ 2 + redY g w n i ^ 2)

/-- Image of a local point under the similarity of a key. -/
def applyKey (key : TTransformationKeyHelmert2D K) (p : Point K) : Point K :=
  ⟨key.c1 * (p.x - key.x_mass_local) - key.c2 * (p.y - key.y_mass_local) + key.x_mass_global,
   key.c2 * (p.x - key.x_mass_local) + key.c1 * (p.y - key.y_mass_local) + key.y_mass_global⟩

/-- Abscissa of the (non weighted) centroid of a list of points. -/
def meanX (p : List (Point K)) : K := (∑ i in range p.length, (pt p i).x) / p.length

/-- Ordinate of the (non weighted) centroid of a list of points. -/
def meanY (p : List (Point K)) : K := (∑ i in range p.length, (pt p i).y) / p.length

end HelmertTransformation2D

/-! ## Differential evolution -/

namespace DifferentialEvolution

/-- Exceptions that leave `diffEvolution`: the two thrown by its own tests, and an `Error`
thrown by a statement that stands outside any `try` (the adaptive control, a mutation
strategy, an assignment of a matrix), which is passed on to the caller. -/
inductive Error where
  | ErrorMathMatrixDifferentSize
  | ErrorBadData
  | ErrorOutsideTry
deriving DecidableEq

/-- What the statements of the loop body before `crossover` do for one individual.  The
adaptive control and the mutation strategy return the mutant `U` and the ratio `CR`; or a
loop `do ... while` of the strategy, which draws indices with `rand()` until they differ
from each other and from `i`, never exits (with fewer individuals than indices to draw it
cannot exit); or an operation of the matrix library throws an `Error`. -/
inductive Mutation (K : Type) where
  | returned (U : List K) (CR : K)
  | neverExits
  | thrown

variable {K : Type} [LinearOrderedField K]

/-- Body of the loop of `crossover`.  The state is the vector `V` and the counter
`total_swap`, an `unsigned short` (16 bit). -/
def crossoverStep (U : List K) (CR : K) (r_val : Nat → K) (st : List K × Nat) (j : Nat) :
    List K × Nat :=
  if r_val j < CR then (st.1.set j (U.getD j 0), (st.2 + 1) % 65536) else st

/-- The function `DifferentialEvolution::crossover`.  `r_val j` is the number
`rand() / (RAND_MAX + 1)` drawn in iteration `j`, `rnd` the value of the last `rand()`. -/
def crossover (U : List K) (CR : K) (dim : Nat) (V : List K) (r_val : Nat → K) (rnd : Nat) :
    List K :=
  let st := (List.range dim).foldl (crossoverStep U CR r_val) (V, 0)
  if st.2 = 0 then st.1.set (rnd % dim) (U.getD (rnd % dim) 0) else st.1

/-- The `while` loop of `reflection` for coordinate `j`; `none` when the loop is still
running after `fuel` tests of its condition. -/
def reflectWhile (XMIN XMAX : List K) (j : Nat) : Nat → List K → Option (List K)
  | 0, _ => none
  | fuel + 1, V =>
    if V.getD j 0 < XMIN.getD j 0 ∨ V.getD j 0 > XMAX.getD j 0 then
      if XMIN.getD j 0 = XMAX.getD j 0 then
        reflectWhile XMIN XMAX j fuel (V.set j (XMIN.getD j 0))
      else if V.getD j 0 > XMAX.getD j 0 then
        reflectWhile XMIN XMAX j fuel (V.set j (2 * XMAX.getD j 0 - V.getD j 0))
      else if V.getD j 0 < XMIN.getD j 0 then
        reflectWhile XMIN XMAX j fuel (V.set j (2 * XMIN.getD j 0 - V.getD j 0))
      else reflectWhile XMIN XMAX j fuel V
    else some V

/-- The function `DifferentialEvolution::reflection`: the `for` loop over the coordinates. -/
def reflection (fuel : Nat) (XMIN XMAX : List K) (dim : Nat) (V : List K) : Option (List K) :=
  (List.range dim).foldl (fun acc j => acc.bind (reflectWhile XMIN XMAX j fuel)) (some V)

/-- Modelled from the spec: `MatrixOperations::min` of a column matrix, the smallest item
(the matrix library is not part of the sources). -/
def matMin (P_V : List K) : K := P_V.tail.foldl min (P_V.headD 0)

/-- Modelled from the spec: `MatrixOperations::max` of a column matrix, the largest item. -/
def matMax (P_V : List K) : K := P_V.tail.foldl max (P_V.headD 0)

/-- Modelled from the spec: the row index that `MatrixOperations::min` reports together
with the minimum, taken as the first row holding it. -/
def matMinIndex (P_V : List K) : Nat := P_V.indexOf (matMin P_V)

/-- A loop `do ( i1 = rand() % population_size ); while ( ... )` of a mutation strategy:
indices are drawn until one differs from all indices of `taken`.  `rand k` is the `k`-th
value of `rand()`; the result is the index together with the number of the next value, and
`none` when the loop is still running after `fuel` draws. -/
def drawIndex (rand : Nat → Nat) (population_size : Nat) (taken : List Nat) :
    Nat → Nat → Option (Nat × Nat)
  | 0, _ => none
  | fuel + 1, k =>
    if rand k % population_size ∈ taken then drawIndex rand population_size taken fuel (k + 1)
    else some (rand k % population_size, k + 1)

/-- The three loops of `mutationStrategyDERand1` that draw `i1`, `i2`, `i3`, different from
each other and from `i`. -/
def drawDERand1 (rand : Nat → Nat) (population_size i fuel : Nat) : Option (Nat × Nat × Nat) :=
  (drawIndex rand population_size [i] fuel 0).bind fun d1 =>
    (drawIndex rand population_size [d1.1, i] fuel d1.2).bind fun d2 =>
      (drawIndex rand population_size [d2.1, d1.1, i] fuel d2.2).map fun d3 =>
        (d1.1, d2.1, d3.1)

/-- Everything a run takes from outside.  The functor `function` with the matrices `W`,
`Y`, `RES` it works on is a transition of an environment `σ`; it receives its argument by
reference, so it yields the argument as it left it, and the cost `RES' * W * RES`, or `none`
when an `Error` is thrown.  `r_init`, `r_val`, `rnd` are the numbers produced by `rand()`
for the initial population and for `crossover`.  `mutation gener i P_A P_V` is what the
adaptive control and the mutation strategy do for individual `i` of a generation; they
depend on `rand()` and on the matrix library, which is not part of the sources.
`averageReturns gener Q_A` and `argumentReturns row` tell whether the assignments
`XAVER = sumCols ( P_A ) * 1.0 / population_size` and `X = P_A.row ( row_index_min )`,
which stand outside any `try`, return (`true`) or throw. -/
structure Oracle (K σ : Type) where
  function : σ → List K → σ × List K × Option K
  r_init : Nat → Nat → K
  mutation : Nat → Nat → List (List K) → List K → Mutation K
  r_val : Nat → Nat → Nat → K
  rnd : Nat → Nat → Nat
  averageReturns : Nat → List (List K) → Bool
  argumentReturns : List K → Bool

/-- Variables of `diffEvolution` that live across the generations (the output `XAVER` and
the printing are left out). -/
structure State (K σ : Type) where
  env : σ
  P_A : List (List K)
  P_V : List K
  Q_A : List (List K)
  Q_V : List K
  min_res : K
  min_res_old_100 : K
  min_res_old : K
  max_res : K
  aver_res : K
  gener : Nat
  row_index_min : Nat

variable {σ : Type}

/-- Body of the loop of `createInitialPopulation` for individual `i`; on an error of the
objective the cost is set to `0`. -/
def initialStep (o : Oracle K σ) (XMIN XMAX : List K) (dim : Nat)
    (st : σ × List (List K) × List K) (i : Nat) : σ × List (List K) × List K :=
  let row := (List.range dim).map
    (fun j => XMIN.getD j 0 + (XMAX.getD j 0 - XMIN.getD j 0) * o.r_init i j)
  let res := o.function st.1 row
  (res.1, st.2.1.set i row, st.2.2.set i (match res.2.2 with | some c => c | none => 0))

/-- The function `createInitialPopulation`, called on `P_A (population_size, dim)` and
`P_V (population_size, 1)`. -/
def createInitialPopulation (o : Oracle K σ) (env : σ) (XMIN XMAX : List K)
    (population_size dim : Nat) : σ × List (List K) × List K :=
  (List.range population_size).foldl (initialStep o XMIN XMAX dim)
    (env, List.replicate population_size (List.replicate dim 0),
      List.replicate population_size 0)

/-- Sequencing of two parts of a run.  `none` is a part that does not return (a loop that
never exits, or one that is still running when the fuel is used up); an `Error` of the
first part leaves the run. -/
def andThen {α β : Type} (a : Option (Except Error α)) (f : α → Option (Except Error β)) :
    Option (Except Error β) :=
  match a with
  | some (Except.ok x) => f x
  | some (Except.error e) => some (Except.error e)
  | none => none

/-- The vector handed to the objective for individual `i`: after the adaptive control and
the mutation strategy, the row `P_A.row(i)` after `crossover` with the mutant and
`reflection` into the search space. -/
def trialVector (fuel : Nat) (o : Oracle K σ) (XMIN XMAX : List K) (dim : Nat)
    (gener : Nat) (P_A : List (List K)) (P_V : List K) (i : Nat) :
    Option (Except Error (List K)) :=
  match o.mutation gener i P_A P_V with
  | Mutation.returned U CR =>
    (reflection fuel XMIN XMAX dim
      (crossover U CR dim (P_A.getD i []) (o.r_val gener i) (o.rnd gener i))).map Except.ok
  | Mutation.neverExits => none
  | Mutation.thrown => some (Except.error Error.ErrorOutsideTry)

/-- The part of the loop body after `reflection`: cost of the trial vector `V`
(`MAX_FLOAT` on an error) and the replacement rule on `Q`. -/
def replacement (o : Oracle K σ) (MAX_FLOAT : K) (st : State K σ) (i : Nat) (V : List K) :
    State K σ :=
  let res := o.function st.env V
  let function_val_y := match res.2.2 with
    | some c => c
    | none => MAX_FLOAT
  if function_val_y ≤ st.P_V.getD i 0 then
    { st with
      env := res.1, Q_A := st.Q_A.set i res.2.1, Q_V := st.Q_V.set i function_val_y }
  else { st with env := res.1 }

/-- Body of the loop over the individuals: trial vector, then `replacement`. -/
def individualStep (fuel : Nat) (o : Oracle K σ) (MAX_FLOAT : K) (XMIN XMAX : List K)
    (dim : Nat) (acc : Option (Except Error (State K σ))) (i : Nat) :
    Option (Except Error (State K σ)) :=
  andThen acc fun st =>
    andThen (trialVector fuel o XMIN XMAX dim st.gener st.P_A st.P_V i) fun V =>
      some (Except.ok (replacement o MAX_FLOAT st i V))

/-- One pass of the `while` loop up to `gener++`: all individuals, `P = Q`, the assignment
to `XAVER`, statistics. -/
def generation (fuel : Nat) (o : Oracle K σ) (MAX_FLOAT : K) (XMIN XMAX : List K)
    (population_size dim : Nat) (st : State K σ) : Option (Except Error (State K σ)) :=
  andThen ((List.range population_size).foldl (individualStep fuel o MAX_FLOAT XMIN XMAX dim)
    (some (Except.ok st))) fun st =>
    if o.averageReturns st.gener st.Q_A then
      some (Except.ok
        { st with
          P_A := st.Q_A
          P_V := st.Q_V
          min_res_old := st.min_res
          max_res := matMax st.Q_V
          min_res := matMin st.Q_V
          row_index_min := matMinIndex st.Q_V
          aver_res := st.Q_V.sum / population_size
          gener := st.gener + 1 })
    else some (Except.error Error.ErrorOutsideTry)

/-- The terminal condition tested after `gener++`. -/
def terminal (epsilon : K) (st : State K σ) : Prop :=
  st.max_res - st.min_res < epsilon * max 1 st.min_res ∨
    (st.gener % 100 = 0 ∧ |st.min_res - st.min_res_old_100| < epsilon * max 1 st.min_res)

instance (epsilon : K) (st : State K σ) : Decidable (terminal epsilon st) := by
  unfold terminal
  infer_instance

/-- The loop `while (gener < max_gener)`, with `remaining = max_gener - gener`. -/
def mainLoop (fuel : Nat) (o : Oracle K σ) (MAX_FLOAT : K) (XMIN XMAX : List K)
    (population_size dim : Nat) (epsilon : K) :
    Nat → State K σ → Option (Except Error (State K σ))
  | 0, st => some (Except.ok st)
  | remaining + 1, st =>
    andThen (generation fuel o MAX_FLOAT XMIN XMAX population_size dim st) fun st =>
      if terminal epsilon st then some (Except.ok st)
      else
        mainLoop fuel o MAX_FLOAT XMIN XMAX population_size dim epsilon remaining
          (if st.gener % 100 = 0 then { st with min_res_old_100 := st.min_res } else st)

/-- What `diffEvolution` hands back: the returned cost, the argument `X` and the state
of the population behind them. -/
structure Result (K σ : Type) where
  cost : K
  X : List K
  final : State K σ

/-- The state before the first generation; `aver_res` and `max_res` are arguments passed
by reference. -/
def initialState (o : Oracle K σ) (env : σ) (XMIN XMAX : List K)
    (population_size dim : Nat) (aver_res max_res : K) : State K σ :=
  let init := createInitialPopulation o env XMIN XMAX population_size dim
  { env := init.1
    P_A := init.2.1
    P_V := init.2.2
    Q_A := init.2.1
    Q_V := init.2.2
    min_res := matMin init.2.2
    min_res_old_100 := matMin init.2.2
    min_res_old := matMin init.2.2
    max_res := max_res
    aver_res := aver_res
    gener := 0
    row_index_min := 0 }

/-- The function `DifferentialEvolution::diffEvolution`.  `XMIN`, `XMAX` are row matrices,
`dim = XMIN.cols()`; `population_size < dim + 1` is a test on `unsigned int`.  The outer
`Option` is `none` when the call does not return: a loop of a mutation strategy never exits,
or a `reflection` loop ran out of fuel. -/
def diffEvolution (fuel : Nat) (o : Oracle K σ) (env : σ) (MAX_FLOAT : K) (XMIN XMAX : List K)
    (population_size : Nat) (epsilon : K) (max_gener : Nat) (aver_res max_res : K) :
    Option (Except Error (Result K σ)) :=
  let dim := XMIN.length
  if XMIN.length ≠ XMAX.length then some (Except.error Error.ErrorMathMatrixDifferentSize)
  else if population_size < (dim + 1) % 4294967296 then some (Except.error Error.ErrorBadData)
  else if ∃ i, i < dim ∧ XMIN.getD i 0 > XMAX.getD i 0 then
    some (Except.error Error.ErrorBadData)
  else
    andThen (mainLoop fuel o MAX_FLOAT XMIN XMAX population_size dim epsilon max_gener
      (initialState o env XMIN XMAX population_size dim aver_res max_res)) fun st =>
      if o.argumentReturns (st.P_A.getD st.row_index_min []) then
        some (Except.ok
          { cost := st.min_res, X := st.P_A.getD st.row_index_min [], final := st })
      else some (Except.error Error.ErrorOutsideTry)

/-! ### Notions used to state the results -/

/-- A computation with fuel returns `a` for every sufficiently large amount of fuel. -/
def Converges {α : Type} (f : Nat → Option α) (a : α) : Prop :=
  ∃ N, ∀ fuel, N ≤ fuel → f fuel = some a

/-- The first `dim` coordinates of `V` lie between the bounds. -/
def InBox (XMIN XMAX : List K) (dim : Nat) (V : List K) : Prop :=
  ∀ j, j < dim → XMIN.getD j 0 ≤ V.getD j 0 ∧ V.getD j 0 ≤ XMAX.getD j 0

/-- The same run with an objective that records every argument it is called with. -/
def logged (o : Oracle K σ) : Oracle K (σ × List (List K)) :=
  { function := fun s V => (((o.function s.1 V).1, s.2 ++ [V]), (o.function s.1 V).2)
    r_init := o.r_init
    mutation := o.mutation
    r_val := o.r_val
    rnd := o.rnd
    averageReturns := o.averageReturns
    argumentReturns := o.argumentReturns }

/-- The cost that the loop body assigns to a trial vector `V`: the value of the
objective, `MAX_FLOAT` when the evaluation throws. -/
def trialCost (o : Oracle K σ) (MAX_FLOAT : K) (env : σ) (V : List K) : K :=
  match (o.function env V).2.2 with
  | some c => c
  | none => MAX_FLOAT

/-- The objective leaves the number of columns of its argument as it is. -/
def KeepsLength (o : Oracle K σ) : Prop :=
  ∀ (s : σ) (V : List K), (o.function s V).2.1.length = V.length

/-- Every call of the adaptive control and of the mutation strategy returns, and so do the
assignments to `XAVER` and to `X`. -/
def StepsReturn (o : Oracle K σ) : Prop :=
  (∀ gener i P_A P_V, ∃ U CR, o.mutation gener i P_A P_V = Mutation.returned U CR) ∧
    (∀ gener Q_A, o.averageReturns gener Q_A = true) ∧ ∀ row, o.argumentReturns row = true

/-- Shape of the population matrices: `P_A`, `Q_A` are `population_size × dim`, `P_V`, `Q_V`
are `population_size × 1`, and no item of `Q_V` exceeds the one of `P_V`. -/
def Shaped (population_size dim : Nat) (st : State K σ) : Prop :=
  st.P_A.length = population_size ∧ st.Q_A.length = population_size ∧
    st.P_V.length = population_size ∧ st.Q_V.length = population_size ∧
    (∀ i, i < population_size → (st.P_A.getD i []).length = dim) ∧
    (∀ i, i < population_size → (st.Q_A.getD i []).length = dim) ∧
    (∀ i, st.Q_V.getD i 0 ≤ st.P_V.getD i 0)

/-! ### Example data -/

/-- An objective with the cost `(x − 1/3)²` on one-item vectors and the initial random
numbers `1/2, 1/3, 1/4`; the environment is trivial, no error is thrown, and every mutation
step and every assignment returns. -/
def exampleOracle : Oracle ℚ Unit :=
  { function := fun s V => (s, V, some ((V.getD 0 0 - 1 / 3) ^ 2))
    r_init := fun i _ => 1 / ((i : ℚ) + 2)
    mutation := fun _ _ _ P_V => Mutation.returned P_V 0
    r_val := fun _ _ _ => 0
    rnd := fun _ _ => 0
    averageReturns := fun _ _ => true
    argumentReturns := fun _ => true }

/-- An objective that throws an error on one-item vectors with `x > 2/5` and has the cost
`x² + 1` otherwise, with the initial random numbers `1/2, 1/3`. -/
def exampleThrowing : Oracle ℚ Unit :=
  { function := fun s V =>
      (s, V, if V.getD 0 0 > 2 / 5 then none else some (V.getD 0 0 ^ 2 + 1))
    r_init := fun i _ => 1 / ((i : ℚ) + 2)
    mutation := fun _ _ _ P_V => Mutation.returned P_V 0
    r_val := fun _ _ _ => 0
    rnd := fun _ _ => 0
    averageReturns := fun _ _ => true
    argumentReturns := fun _ => true }

end DifferentialEvolution

/-! ## Residual functor of the cartometric analysis -/

namespace FAnalyzeProjV4

open HelmertTransformation2D (Point pt getTransformKey getTransformKeyW)

/-- Aspect of the projection (`TProjectionAspect`). -/
inductive TProjectionAspect where
  | NormalAspect
  | TransverseAspect
  | ObliqueAspect
deriving DecidableEq

/-- An interval of values (`TMinMax`). -/
structure TMinMax (K : Type) where
  min_val : K
  max_val : K

/-- The part of `Projection` that the functor reads and writes: the declared intervals and
the properties set through `setR`, `setCartPole`, `setLat0`, `setLon0`, `setDx`, `setDy`,
`setC`. -/
structure Projection (K : Type) where
  lat0_interval : TMinMax K
  latp_interval : TMinMax K
  lonp_interval : TMinMax K
  R : K
  latp : K
  lonp : K
  lat0 : K
  lon0 : K
  dx : K
  dy : K
  c : K

/-- What the `try` block of the projection loop leaves in `x`, `y` for one point: both
coordinates, or an error before `x` was assigned, or an error in the equation of `y`. -/
inductive Outcome (K : Type) where
  | ok (x y : K)
  | failedBeforeX
  | failedAtY (x : K)

/-- Accumulators of the loop "Computer centers of mass for both systems". -/
structure Mass (K : Type) where
  n_points : Nat
  x_mass_test : K
  y_mass_test : K
  x_mass_reference : K
  y_mass_reference : K

/-- Accumulators of the loop "Compute scale using the least squares adjustment". -/
structure Scale (K : Type) where
  sum_xy_1 : K
  sum_xy_2 : K
  sum_xx_yy : K

/-- What the last part of the functor computes: the residuals `V`, the ratios `q1`, `q2`
as used for `V`, and the shifts handed to the sample. -/
structure Residuals (K : Type) where
  V : List K
  q1 : K
  q2 : K
  dx : K
  dy : K

/-- The arguments passed by reference after a call, and the residual part, or the error
thrown by `getTransformKey` (which leaves `V`, `q1`, `q2` as they were). -/
structure Output (K : Type) where
  X : List K
  W : Nat → Nat → K
  proj : Projection K
  nl_projected_temp : List (Point K)
  residuals : Except HelmertTransformation2D.Error (Residuals K)

variable {K : Type} [LinearOrderedField K]

/-- Modelled from the spec: the constant `MAX_LAT = 90` (its header is not part of the
sources). -/
def MAX_LAT : K := 90

/-- Modelled from the spec: the constant `MAX_LON = 180` (its header is not part of the
sources). -/
def MAX_LON : K := 180

/-- The library function `fmod`: `x - n * y` with `n` the quotient `x / y` rounded towards
zero. -/
def fmod [FloorRing K] (x y : K) : K :=
  x - y * ((if 0 ≤ x / y then ⌊x / y⌋ else ⌈x / y⌉ : ℤ) : K)

/-- Item `X(k, 0)` of a column matrix. -/
def item (X : List K) (k : Nat) : K := X.getD k 0

/-- Assignment `W(r, c) = v`. -/
def setW (W : Nat → Nat → K) (r c : Nat) (v : K) : Nat → Nat → K :=
  fun r' c' => if r' = r ∧ c' = c then v else W r' c'

/-- The branch `aspect == NormalAspect` of the head of `operator ()`. -/
def sanitizeNormal [FloorRing K] (lat0_min lat0_max : K) (X : List K) : List K :=
  let X := if |item X 2| > MAX_LAT then X.set 2 (fmod (item X 2) 90) else X
  let X := if |item X 3| > MAX_LON then X.set 3 (fmod (item X 3) 180) else X
  let X := if item X 2 < lat0_min then X.set 2 lat0_min else X
  let X := if item X 2 > lat0_max then X.set 2 lat0_max else X
  X

/-- The branch `aspect == TransverseAspect`. -/
def sanitizeTransverse [FloorRing K] (lat0_min lat0_max : K) (X : List K) : List K :=
  let X := if |item X 1| > MAX_LON then X.set 1 (fmod (item X 1) 180) else X
  let X := if |item X 2| > MAX_LAT then X.set 2 (fmod (item X 2) 90) else X
  let X := if item X 2 < lat0_min then X.set 2 lat0_min else X
  let X := if item X 2 > lat0_max then X.set 2 lat0_max else X
  let X := if |item X 3| > MAX_LON then X.set 3 (fmod (item X 1) 180) else X
  X

/-- The branch `aspect == ObliqueAspect`. -/
def sanitizeOblique [FloorRing K] (lat0_min lat0_max : K) (X : List K) : List K :=
  let X := if |item X 0| > MAX_LAT then X.set 0 (fmod (item X 0) 90) else X
  let X := if |item X 1| > MAX_LON then X.set 1 (fmod (item X 1) 180) else X
  let X := if |item X 2| > MAX_LAT then X.set 2 (fmod (item X 2) 90) else X
  let X := if item X 2 < lat0_min ∨ item X 2 > lat0_max
    then X.set 2 (0.5 * (lat0_min + lat0_max)) else X
  let X := if |item X 0 - MAX_LAT| < 1.0 then X.set 1 0.0 else X
  let X := if |item X 0 - MAX_LAT| < 1 then (X.set 0 90.0).set 1 0.0 else X
  let X := if |item X 3| > MAX_LON then X.set 3 (fmod (item X 1) 180) else X
  let X := X.set 3 0
  X

/-- The head of `operator ()`: the values of `X` are brought back to their intervals,
depending on the aspect. -/
def sanitize [FloorRing K] (aspect : TProjectionAspect) (lat0_min lat0_max : K) (X : List K) :
    List K :=
  match aspect with
  | TProjectionAspect.NormalAspect => sanitizeNormal lat0_min lat0_max X
  | TProjectionAspect.TransverseAspect => sanitizeTransverse lat0_min lat0_max X
  | TProjectionAspect.ObliqueAspect => sanitizeOblique lat0_min lat0_max X

/-- "Set properties to the projection". -/
def setProperties (proj : Projection K) (R_def : K) (X : List K) : Projection K :=
  { proj with
    R := R_def
    latp := item X 0
    lonp := item X 1
    lat0 := item X 2
    lon0 := item X 3
    dx := 0.0
    dy := 0.0
    c := item X 4 }

/-- State of the loop that changes the weights after the analysis of the sample: `W`,
`index_point` (an `int`) and `index_k_best_points`. -/
structure WeightLoop (K : Type) where
  W : Nat → Nat → K
  index_point : Int
  index_k_best_points : Nat

/-- Body of the loop "Change weights in W matrix". -/
def weightStep (non_singular_points_indices k_best_points_indices : List Nat)
    (n_points : Nat) (st : WeightLoop K) (i : Nat) : WeightLoop K :=
  if (i : Int) = st.index_point then
    let W := setW (setW st.W i i 1.0) (i + n_points) (i + n_points) 1.0
    if st.index_k_best_points < k_best_points_indices.length then
      { W := W
        index_point := (non_singular_points_indices.getD
          (k_best_points_indices.getD st.index_k_best_points 0) 0 : Nat)
        index_k_best_points := st.index_k_best_points + 1 }
    else { st with W := W }
  else { st with W := setW (setW st.W i i 0.0) (i + n_points) (i + n_points) 0.0 }

/-- The update of `W` in the branch `compute_analysis`: with a non empty list of k-best
points the points of the list get the weight `1`, the other ones `0`.  The two lists are
the ones of the sample after `computeAnalysisForOneSample`, `n_points` is
`pl_reference.size()`. -/
def updateWeights (non_singular_points_indices k_best_points_indices : List Nat)
    (n_points : Nat) (W : Nat → Nat → K) : Nat → Nat → K :=
  if 0 < k_best_points_indices.length then
    ((List.range n_points).foldl
      (weightStep non_singular_points_indices k_best_points_indices n_points)
      { W := W
        index_point := (non_singular_points_indices.getD
          (k_best_points_indices.getD 0 0) 0 : Nat)
        index_k_best_points := 1 }).W
  else W

/-- Body of the projection loop: on an error the point is disabled, and a point with the
coordinates reached so far is added in any case. -/
def projectStep (m : Nat) (evaluate : Nat → Outcome K)
    (st : (Nat → Nat → K) × List (Point K)) (i : Nat) : (Nat → Nat → K) × List (Point K) :=
  match evaluate i with
  | Outcome.ok x y => (st.1, st.2 ++ [⟨x, y⟩])
  | Outcome.failedBeforeX => (setW (setW st.1 i i 0) (i + m) (i + m) 0, st.2 ++ [⟨0.0, 0.0⟩])
  | Outcome.failedAtY x => (setW (setW st.1 i i 0) (i + m) (i + m) 0, st.2 ++ [⟨x, 0.0⟩])

/-- The projection loop "Compute coordinate differences (residuals): items of V matrix". -/
def projectLoop (m : Nat) (evaluate : Nat → Outcome K) (W : Nat → Nat → K) :
    (Nat → Nat → K) × List (Point K) :=
  (List.range m).foldl (projectStep m evaluate) (W, [])

/-- Body of the loop over the centers of mass: only points with `W(i, i) != 0.0`. -/
def massStep (nl_test nl_projected_temp : List (Point K)) (W : Nat → Nat → K)
    (s : Mass K) (i : Nat) : Mass K :=
  if W i i ≠ 0.0 then
    { n_points := s.n_points + 1
      x_mass_test := s.x_mass_test + (pt nl_test i).x
      y_mass_test := s.y_mass_test + (pt nl_test i).y
      x_mass_reference := s.x_mass_reference + (pt nl_projected_temp i).x
      y_mass_reference := s.y_mass_reference + (pt nl_projected_temp i).y }
  else s

/-- Body of the loop over the sums of the least squares adjustment. -/
def scaleStep (nl_test nl_projected_temp : List (Point K)) (W : Nat → Nat → K)
    (x_mass_test y_mass_test x_mass_reference y_mass_reference : K) (s : Scale K) (i : Nat) :
    Scale K :=
  { sum_xy_1 := s.sum_xy_1
      + ((pt nl_test i).x - x_mass_test) * W i i * ((pt nl_projected_temp i).x - x_mass_reference)
      + ((pt nl_test i).y - y_mass_test) * W i i * ((pt nl_projected_temp i).y - y_mass_reference)
    sum_xy_2 := s.sum_xy_2
      + ((pt nl_test i).y - y_mass_test) * W i i * ((pt nl_projected_temp i).x - x_mass_reference)
      - ((pt nl_test i).x - x_mass_test) * W i i * ((pt nl_projected_temp i).y - y_mass_reference)
    sum_xx_yy := s.sum_xx_yy
      + ((pt nl_projected_temp i).x - x_mass_reference) * W i i
        * ((pt nl_projected_temp i).x - x_mass_reference)
      + ((pt nl_projected_temp i).y - y_mass_reference) * W i i
        * ((pt nl_projected_temp i).y - y_mass_reference) }

/-- Body of the loop over the residuals: only points with `W(i, i) != 0.0`. -/
def residualStep (m : Nat) (nl_test nl_projected_temp : List (Point K)) (W : Nat → Nat → K)
    (q1 q2 x_mass_test y_mass_test x_mass_reference y_mass_reference : K)
    (V : List K) (i : Nat) : List K :=
  if W i i ≠ 0.0 then
    (V.set i (q1 * ((pt nl_projected_temp i).x - x_mass_reference)
        - q2 * ((pt nl_projected_temp i).y - y_mass_reference)
        - ((pt nl_test i).x - x_mass_test))).set (i + m)
      (q2 * ((pt nl_projected_temp i).x - x_mass_reference)
        + q1 * ((pt nl_projected_temp i).y - y_mass_reference)
        - ((pt nl_test i).y - y_mass_test))
  else V

/-- The part of `operator ()` after the call of `getTransformKey`, up to the shifts
`dx`, `dy`.  The rotation and the scaling of `R_def`, `q1`, `q2` that follow need `atan2`
and `sqrt` and are left out. -/
def computeResiduals (nl_test nl_projected_temp : List (Point K)) (W : Nat → Nat → K)
    (V : List K) : Residuals K :=
  let m := nl_test.length
  let s := (List.range m).foldl (massStep nl_test nl_projected_temp W) ⟨0, 0.0, 0.0, 0.0, 0.0⟩
  let n_points := s.n_points
  let x_mass_test := s.x_mass_test / n_points
  let y_mass_test := s.y_mass_test / n_points
  let x_mass_reference := s.x_mass_reference / n_points
  let y_mass_reference := s.y_mass_reference / n_points
  let c := (List.range n_points).foldl
    (scaleStep nl_test nl_projected_temp W x_mass_test y_mass_test x_mass_reference
      y_mass_reference) ⟨0, 0, 0⟩
  let q1 := c.sum_xy_1 / c.sum_xx_yy
  let q2 := c.sum_xy_2 / c.sum_xx_yy
  { V := (List.range m).foldl
      (residualStep m nl_test nl_projected_temp W q1 q2 x_mass_test y_mass_test
        x_mass_reference y_mass_reference) V
    q1 := q1
    q2 := q2
    dx := x_mass_test - x_mass_reference * q1 + y_mass_reference * q2
    dy := y_mass_test - x_mass_reference * q2 - y_mass_reference * q1 }

/-- The function `FAnalyzeProjV4::operator ()`.  `evaluate X i` stands for the conversion
of reference point `i` to the oblique position and the evaluation of both equations under
the parameters `X`; `sample_indices` are the lists of non singular and of k-best points
that the sample holds after `computeAnalysisForOneSample`; `n_reference` is
`pl_reference.size()`. -/
def operator [FloorRing K] (aspect : TProjectionAspect) (nl_test : List (Point K))
    (n_reference : Nat) (proj : Projection K) (R_def : K)
    (evaluate : List K → Nat → Outcome K) (sample_indices : List Nat × List Nat)
    (X V : List K) (W : Nat → Nat → K) (compute_analysis : Bool) : Output K :=
  let m := nl_test.length
  let X := sanitize aspect proj.lat0_interval.min_val proj.lat0_interval.max_val X
  let proj := setProperties proj R_def X
  let W := if compute_analysis
    then updateWeights sample_indices.1 sample_indices.2 n_reference W else W
  let p := projectLoop m (evaluate X) W
  { X := X
    W := p.1
    proj := proj
    nl_projected_temp := p.2
    residuals := (getTransformKey nl_test p.2).map (fun _ => computeResiduals nl_test p.2 p.1 V) }

/-! ### Notions used to state the results -/

/-- The evaluation of a point threw an error. -/
def Outcome.isFailure : Outcome K → Bool
  | Outcome.ok _ _ => false
  | Outcome.failedBeforeX => true
  | Outcome.failedAtY _ => true

/-- The weights that enter the projection loop. -/
def weightsBeforeProjection (sample_indices : List Nat × List Nat) (n_reference : Nat)
    (W : Nat → Nat → K) (compute_analysis : Bool) : Nat → Nat → K :=
  if compute_analysis then updateWeights sample_indices.1 sample_indices.2 n_reference W else W

/-- Point `k` is one of the k-best points: `k = ns[kb[j]]` for some `j`. -/
def kBestPoint (non_singular_points_indices k_best_points_indices : List Nat) (k : Nat) : Prop :=
  ∃ j, j < k_best_points_indices.length ∧
    non_singular_points_indices.getD (k_best_points_indices.getD j 0) 0 = k

/-! ### Example data -/

/-- Four observed points. -/
def exampleTest : List (Point ℚ) := [⟨0, 0⟩, ⟨1, 0⟩, ⟨0, 1⟩, ⟨3, 4⟩]

/-- An evaluator that fails on the first reference point and projects the other three. -/
def exampleEvaluate : Nat → Outcome ℚ
  | 0 => Outcome.failedBeforeX
  | 1 => Outcome.ok 1 0
  | 2 => Outcome.ok 0 2
  | _ => Outcome.ok 2 5

/-- A projection whose declared intervals are the full ranges of latitude and longitude. -/
def exampleProjection : Projection ℚ :=
  { lat0_interval := ⟨-90, 90⟩
    latp_interval := ⟨-90, 90⟩
    lonp_interval := ⟨-180, 180⟩
    R := 1, latp := 90, lonp := 0, lat0 := 0, lon0 := 0, dx := 0, dy := 0, c := 0 }

/-- The unit matrix as weight matrix. -/
def unitWeights : Nat → Nat → ℚ := fun r c => if r = c then 1 else 0

/-- A projection whose declared interval of `lat0` is `[0, 80]`. -/
def exampleNarrow : Projection ℚ :=
  { lat0_interval := ⟨0, 80⟩
    latp_interval := ⟨-90, 90⟩
    lonp_interval := ⟨-180, 180⟩
    R := 1, latp := 90, lonp := 0, lat0 := 0, lon0 := 0, dx := 0, dy := 0, c := 0 }

end FAnalyzeProjV4

/-! ## Cartometric analysis: singular points, ranking, drivers -/

namespace CartAnalysis

open HelmertTransformation2D (Point)
open FAnalyzeProjV4 (Projection)

/-- Geographic point: the `getLat()`, `getLon()` part of `Point3DGeographic`. -/
structure Point3DGeographic (K : Type) where
  lat : K
  lon : K
deriving DecidableEq

/-- The three containers that `removeSingularPoints` appends to. -/
structure Destination (K : Type) where
  nl_destination : List (Point K)
  pl_destination : List (Point3DGeographic K)
  non_singular_point_pairs : List (K × Nat)

/-- The switches of `TAnalysisParameters::TAnalysisType`. -/
structure TAnalysisType where
  a_cnd : Bool
  a_homt : Bool
  a_helt : Bool
  a_gn_tf : Bool
  a_vd_tf : Bool
deriving DecidableEq

/-- The part of `Sample` used by the ranking and by the drivers: the five ratios, their
positions and the flag of a sample of an analyzed projection. -/
structure Sample (K : Type) where
  cross_nearest_neighbour_distance_ratio : K
  homothetic_transformation_ratio : K
  helmert_transformation_ratio : K
  gn_turning_function_ratio : K
  voronoi_cell_turning_function_ratio : K
  cross_nearest_neighbour_distance_ratio_position : Int
  homothetic_transformation_ratio_position : Int
  helmert_transformation_ratio_position : Int
  gn_turning_function_ratio_position : Int
  voronoi_cell_turning_function_ratio_position : Int
  analyzed_projection_sample : Bool
deriving DecidableEq

/-- What a call of `computeAnalysisForOneSample` leaves behind: it throws, or it returns
having raised `created_samples` by `created` (`0` when the heuristic throws the sample
away, `1`, or `2` with a rotated sample) and filled the sample. -/
inductive OneSample (K : Type) where
  | thrown
  | returned (created : Nat) (sample : Sample K)

/-- Ways in which a driver fragment ends without a result: an element access outside the
list, and the exception thrown when no analyzed projection was used. -/
inductive Failure where
  | ElementOutsideList
  | ErrorBadData
deriving DecidableEq

/-- The sample list and the counters of the grid search driver. -/
structure Driver (K : Type) where
  sl : List (Sample K)
  total_created_and_analyzed_samples_projection : Nat
  total_created_or_thrown_samples : Nat

/-- What a call of `CartTransformation::latLonToX` or `latLonToY` does: it returns a
coordinate, throws an `ErrorMath`, or throws another `Error`. -/
inductive Evaluation (K : Type) where
  | value (v : K)
  | errorMath
  | error

/-- Variables of the loop over the two attempts `j = 0, 1`: the temporary point, `x`, `y`,
and whether `break` was reached. -/
structure Attempt (K : Type) where
  p_oblique_temp : Point3DGeographic K
  x : K
  y : K
  finished : Bool

variable {K : Type} [LinearOrderedField K]

/-! ### Singular points -/

/-- Modelled from the spec: `operator !=` of `Point3DGeographic` (the class is not part of
the sources); two geographic points are equal when latitude and longitude agree. -/
def differs (p q : Point3DGeographic K) : Prop := p ≠ q

instance (p q : Point3DGeographic K) : Decidable (differs p q) := by
  unfold differs
  infer_instance

/-- Condition of `removeSingularPoints` under which point `p` is copied; `cart_pole` is
`proj->getCartPole()`. -/
def isCopied (cart_pole p : Point3DGeographic K) : Prop :=
  differs p cart_pole ∧
    ((cart_pole.lon ≥ 0 ∧ p.lon ≠ cart_pole.lon - 180.0) ∨
      (cart_pole.lon < 0 ∧ p.lon ≠ cart_pole.lon + 180.0))

instance (cart_pole p : Point3DGeographic K) : Decidable (isCopied cart_pole p) := by
  unfold isCopied
  infer_instance

/-- Element access `nl_source [i]`. -/
def node (nl_source : List (Point K)) (i : Nat) : Point K := nl_source.getD i ⟨0, 0⟩

/-- Element access `pl_source [i]`. -/
def geo (pl_source : List (Point3DGeographic K)) (i : Nat) : Point3DGeographic K :=
  pl_source.getD i ⟨0, 0⟩

/-- Body of the loop of `removeSingularPoints`. -/
def removeStep (nl_source : List (Point K)) (pl_source : List (Point3DGeographic K))
    (cart_pole : Point3DGeographic K) (d : Destination K) (i : Nat) : Destination K :=
  if isCopied cart_pole (geo pl_source i) then
    { nl_destination := d.nl_destination ++ [node nl_source i]
      pl_destination := d.pl_destination ++ [geo pl_source i]
      non_singular_point_pairs := d.non_singular_point_pairs ++ [((i : K) + 1.0, i)] }
  else d

/-- The copying overload of `CartAnalysis::removeSingularPoints`; the three destination
containers are arguments passed by reference. -/
def removeSingularPoints (nl_source : List (Point K)) (pl_source : List (Point3DGeographic K))
    (cart_pole : Point3DGeographic K) (d : Destination K) : Destination K :=
  (List.range nl_source.length).foldl (removeStep nl_source pl_source cart_pole) d

/-! ### Positions of sorted samples -/

/-- The block that `setPositionForSortedSamples` repeats for every criterion: the new
position of `sl [i]` from the ratios and positions of `sl [i - 1]` and `sl [i]`. -/
def newPosition (ARGUMENT_ROUND_ERROR prev_ratio cur_ratio : K) (prev_position cur_position : Int) :
    Int :=
  if |cur_ratio - prev_ratio| > ARGUMENT_ROUND_ERROR then
    if prev_position < 0 then 1
    else if prev_position > 0 then
      if cur_position > 0 then prev_position + 1 else cur_position
    else cur_position
  else prev_position

/-- Assignment to `sl [i]` computed from `sl [i - 1]` and `sl [i]`. -/
def updateAt (sl : List (Sample K)) (i : Nat) (f : Sample K → Sample K → Sample K) :
    List (Sample K) :=
  match sl[i - 1]?, sl[i]? with
  | some prev, some cur => sl.set i (f prev cur)
  | _, _ => sl

/-- Body of the loop of `setPositionForSortedSamples`: three `if` statements, the third one
with the turning function criteria in its `else if` branches. -/
def positionStep (analysis_type : TAnalysisType) (ARGUMENT_ROUND_ERROR : K)
    (sl : List (Sample K)) (i : Nat) : List (Sample K) :=
  let sl := if analysis_type.a_cnd then
      updateAt sl i (fun prev cur =>
        { cur with cross_nearest_neighbour_distance_ratio_position :=
            (newPosition ARGUMENT_ROUND_ERROR prev.cross_nearest_neighbour_distance_ratio
              cur.cross_nearest_neighbour_distance_ratio
              prev.cross_nearest_neighbour_distance_ratio_position
              cur.cross_nearest_neighbour_distance_ratio_position) })
    else sl
  let sl := if analysis_type.a_homt then
      updateAt sl i (fun prev cur =>
        { cur with homothetic_transformation_ratio_position :=
            (newPosition ARGUMENT_ROUND_ERROR prev.homothetic_transformation_ratio
              cur.homothetic_transformation_ratio
              prev.homothetic_transformation_ratio_position
              cur.homothetic_transformation_ratio_position) })
    else sl
  if analysis_type.a_helt then
    updateAt sl i (fun prev cur =>
      { cur with helmert_transformation_ratio_position :=
          (newPosition ARGUMENT_ROUND_ERROR prev.helmert_transformation_ratio
            cur.helmert_transformation_ratio
            prev.helmert_transformation_ratio_position
            cur.helmert_transformation_ratio_position) })
  else if analysis_type.a_gn_tf then
    updateAt sl i (fun prev cur =>
      { cur with gn_turning_function_ratio_position :=
          (newPosition ARGUMENT_ROUND_ERROR prev.gn_turning_function_ratio
            cur.gn_turning_function_ratio
            prev.gn_turning_function_ratio_position
            cur.gn_turning_function_ratio_position) })
  else if analysis_type.a_vd_tf then
    updateAt sl i (fun prev cur =>
      { cur with voronoi_cell_turning_function_ratio_position :=
          (newPosition ARGUMENT_ROUND_ERROR prev.voronoi_cell_turning_function_ratio
            cur.voronoi_cell_turning_function_ratio
            prev.voronoi_cell_turning_function_ratio_position
            cur.voronoi_cell_turning_function_ratio_position) })
  else sl

/-- The function `CartAnalysis::setPositionForSortedSamples`: the loop runs over
`i = 1, ..., n - 1`.  The constant `ARGUMENT_ROUND_ERROR` is declared outside the sources
and is an argument here. -/
def setPositionForSortedSamples (analysis_type : TAnalysisType) (ARGUMENT_ROUND_ERROR : K)
    (sl : List (Sample K)) : List (Sample K) :=
  (List.range (sl.length - 1)).foldl
    (fun sl k => positionStep analysis_type ARGUMENT_ROUND_ERROR sl (k + 1)) sl

/-! ### Drivers -/

/-- Assignment `sl [sl.size() - 1].setAnalyzedProjectionSample ( true )`; with an empty
list the index is outside the list. -/
def flagLast (sl : List (Sample K)) : Except Failure (List (Sample K)) :=
  match sl.getLast? with
  | some s => Except.ok (sl.set (sl.length - 1) { s with analyzed_projection_sample := true })
  | none => Except.error Failure.ElementOutsideList

/-- Grid search driver, one analyzed projection of the command line: the sample is added
when the counter is not zero after the call, and the last sample of the list is flagged
when the counter is positive.  `analysis i` stands for the call of
`computeAnalysisForOneSample` for analyzed projection `i`. -/
def analyzedStepGS (analysis : Nat → OneSample K)
    (acc : Except Failure (List (Sample K) × Nat)) (i : Nat) :
    Except Failure (List (Sample K) × Nat) :=
  acc.bind fun st =>
    let r : List (Sample K) × Nat := match analysis i with
      | OneSample.returned created sample =>
        (if st.2 + created ≠ 0 then st.1 ++ [sample] else st.1, st.2 + created)
      | OneSample.thrown => st
    if r.2 > 0 then (flagLast r.1).map (fun sl => (sl, r.2)) else Except.ok r

/-- Simplex driver, one analyzed projection of the command line (the drivers with the
differential evolution and with the least squares have the same statements): the sample is
not added to the list, and the last sample of the list is flagged when the counter is
positive. -/
def analyzedStepSim (analysis : Nat → OneSample K)
    (acc : Except Failure (List (Sample K) × Nat)) (i : Nat) :
    Except Failure (List (Sample K) × Nat) :=
  acc.bind fun st =>
    let r : List (Sample K) × Nat := match analysis i with
      | OneSample.returned created _ => (st.1, st.2 + created)
      | OneSample.thrown => st
    if r.2 > 0 then (flagLast r.1).map (fun sl => (sl, r.2)) else Except.ok r

/-- The part "Create sample for analyzed projection from command line" of a driver, over
`n` analyzed projections, with the loop body `step` of the driver. -/
def analyzedProjections
    (step : Except Failure (List (Sample K) × Nat) → Nat → Except Failure (List (Sample K) × Nat))
    (n : Nat) (sl : List (Sample K)) : Except Failure (List (Sample K) × Nat) :=
  if n > 0 then
    ((List.range n).foldl step (Except.ok (sl, 0))).bind fun st =>
      if st.2 = 0 then Except.error Failure.ErrorBadData else Except.ok st
  else Except.ok (sl, 0)

/-- Grid search driver, body of the loop "Process all found positions" from "Compute
analysis" on: `created_samples` starts at `0`, the sample is added when
`total_created_and_analyzed_samples_projection` is not zero, then the counters are raised.
`analysis i` stands for the call of `computeAnalysisForOneSample` for position `i`. -/
def positionStepGS (analysis : Nat → OneSample K) (st : Driver K) (i : Nat) : Driver K :=
  let created_samples := match analysis i with
    | OneSample.returned created _ => created
    | OneSample.thrown => 0
  let sl := match analysis i with
    | OneSample.returned _ sample =>
      if st.total_created_and_analyzed_samples_projection ≠ 0 then st.sl ++ [sample] else st.sl
    | OneSample.thrown => st.sl
  if created_samples = 0 then
    { sl := sl
      total_created_and_analyzed_samples_projection :=
        st.total_created_and_analyzed_samples_projection
      total_created_or_thrown_samples := st.total_created_or_thrown_samples + 1 }
  else
    { sl := sl
      total_created_and_analyzed_samples_projection :=
        st.total_created_and_analyzed_samples_projection + created_samples
      total_created_or_thrown_samples := st.total_created_or_thrown_samples + created_samples }

/-- Grid search driver, one projection of the list: the counter of the projection is set
to `0`, then all `n` pole positions are processed. -/
def projectionGS (analysis : Nat → OneSample K) (n : Nat) (st : Driver K) : Driver K :=
  (List.range n).foldl (positionStepGS analysis)
    { st with total_created_and_analyzed_samples_projection := 0 }

/-- Simplex and least squares drivers, one run of the optimizer for an aspect: the
properties of the projection are stored, the optimizer runs (`optimizer` is what it leaves
in the projection), and the properties are set again. -/
def optimizerRunSim (optimizer : Projection K → Projection K) (proj : Projection K) :
    Projection K :=
  let cart_pole := (proj.latp, proj.lonp)
  let lat0 := proj.lat0
  let lon0 := proj.lon0
  let dx := proj.dx
  let dy := proj.dy
  let proj := optimizer proj
  let proj := { proj with latp := cart_pole.1, lonp := cart_pole.2 }
  let proj := { proj with lat0 := lat0 }
  let proj := { proj with lat0 := lon0 }
  let proj := { proj with dx := dx }
  let proj := { proj with dy := dy }
  proj

/-- Differential evolution driver, the runs of the optimizer for an aspect: the pole,
`lat0` and `lon0` are stored, the optimizer runs, and the properties are set again. -/
def optimizerRunDE (optimizer : Projection K → Projection K) (proj : Projection K) :
    Projection K :=
  let cart_pole := (proj.latp, proj.lonp)
  let lat0 := proj.lat0
  let lon0 := proj.lon0
  let proj := optimizer proj
  let proj := { proj with latp := cart_pole.1, lonp := cart_pole.2 }
  let proj := { proj with lat0 := lat0 }
  let proj := { proj with lat0 := lon0 }
  proj

/-! ### Notions used to state the results -/

/-- A geographic point is singular when it equals the cartographic pole or when
`|lon − lonp| = 180`. -/
def isSingular (cart_pole p : Point3DGeographic K) : Prop :=
  p = cart_pole ∨ |p.lon - cart_pole.lon| = 180

/-- The criteria of the ranking. -/
inductive Criterion where
  | cnd
  | homt
  | helt
  | gn_tf
  | vd_tf
deriving DecidableEq

/-- The analysis type with a single criterion switched on, as `sortSamplesByComputedRatios`
passes it. -/
def Criterion.only : Criterion → TAnalysisType
  | Criterion.cnd => ⟨true, false, false, false, false⟩
  | Criterion.homt => ⟨false, true, false, false, false⟩
  | Criterion.helt => ⟨false, false, true, false, false⟩
  | Criterion.gn_tf => ⟨false, false, false, true, false⟩
  | Criterion.vd_tf => ⟨false, false, false, false, true⟩

/-- The ratio of a sample for a criterion. -/
def Criterion.ratio (c : Criterion) (s : Sample K) : K :=
  match c with
  | Criterion.cnd => s.cross_nearest_neighbour_distance_ratio
  | Criterion.homt => s.homothetic_transformation_ratio
  | Criterion.helt => s.helmert_transformation_ratio
  | Criterion.gn_tf => s.gn_turning_function_ratio
  | Criterion.vd_tf => s.voronoi_cell_turning_function_ratio

/-- The position of a sample for a criterion. -/
def Criterion.position (c : Criterion) (s : Sample K) : Int :=
  match c with
  | Criterion.cnd => s.cross_nearest_neighbour_distance_ratio_position
  | Criterion.homt => s.homothetic_transformation_ratio_position
  | Criterion.helt => s.helmert_transformation_ratio_position
  | Criterion.gn_tf => s.gn_turning_function_ratio_position
  | Criterion.vd_tf => s.voronoi_cell_turning_function_ratio_position

/-- A sample with a new position for a criterion. -/
def Criterion.setPosition (c : Criterion) (s : Sample K) (p : Int) : Sample K :=
  match c with
  | Criterion.cnd => { s with cross_nearest_neighbour_distance_ratio_position := p }
  | Criterion.homt => { s with homothetic_transformation_ratio_position := p }
  | Criterion.helt => { s with helmert_transformation_ratio_position := p }
  | Criterion.gn_tf => { s with gn_turning_function_ratio_position := p }
  | Criterion.vd_tf => { s with voronoi_cell_turning_function_ratio_position := p }

/-- Number of places `j < i` of the list at which the ratio of sample `j + 1` differs from
the one of sample `j` by more than `ARGUMENT_ROUND_ERROR`. -/
def changes (c : Criterion) (ARGUMENT_ROUND_ERROR : K) (sl : List (Sample K)) (i : Nat) : Nat :=
  ((List.range i).filter (fun j =>
    match sl[j]?, sl[j + 1]? with
    | some a, some b => decide (|c.ratio b - c.ratio a| > ARGUMENT_ROUND_ERROR)
    | _, _ => false)).length

/-- Number of samples of the list whose ratio is strictly smaller than the one of `s`. -/
def smallerCount (c : Criterion) (sl : List (Sample K)) (s : Sample K) : Nat :=
  (sl.filter (fun t => decide (c.ratio t < c.ratio s))).length

/-- A sample whose five ratios are `v`, with all positions `1` and without the flag. -/
def exampleSample (v : ℚ) : Sample ℚ :=
  { cross_nearest_neighbour_distance_ratio := v
    homothetic_transformation_ratio := v
    helmert_transformation_ratio := v
    gn_turning_function_ratio := v
    voronoi_cell_turning_function_ratio := v
    cross_nearest_neighbour_distance_ratio_position := 1
    homothetic_transformation_ratio_position := 1
    helmert_transformation_ratio_position := 1
    gn_turning_function_ratio_position := 1
    voronoi_cell_turning_function_ratio_position := 1
    analyzed_projection_sample := false }

/-- A projection with `lat0 = 10` and `lon0 = 20`. -/
def exampleStored : Projection ℚ :=
  { lat0_interval := ⟨-90, 90⟩
    latp_interval := ⟨-90, 90⟩
    lonp_interval := ⟨-180, 180⟩
    R := 1, latp := 90, lonp := 0, lat0 := 10, lon0 := 20, dx := 0, dy := 0, c := 0 }

/-! ### Projected points of a sample -/

/-- The handler `catch ( ErrorMath <T> &error )` of an attempt: the error is thrown again
when the latitude is that of the pole, otherwise the temporary point is moved.
`Except.error ()` stands for an exception that leaves the loop. -/
def moveOrThrow (GRATICULE_ANGLE_SHIFT lat_trans lon_trans : K) (a : Attempt K) :
    Except Unit (Attempt K) :=
  if |lat_trans| = FAnalyzeProjV4.MAX_LAT then Except.error ()
  else
    Except.ok { a with
      p_oblique_temp := ⟨lat_trans + GRATICULE_ANGLE_SHIFT, lon_trans + GRATICULE_ANGLE_SHIFT⟩ }

/-- One pass of the loop `for ( unsigned int j = 0; j < 2; j ++ )`: both coordinates are
evaluated and the loop is left by `break`, or the handler runs. -/
def attemptStep (latLonToX latLonToY : Point3DGeographic K → Evaluation K)
    (GRATICULE_ANGLE_SHIFT lat_trans lon_trans : K) (st : Except Unit (Attempt K)) (_j : Nat) :
    Except Unit (Attempt K) :=
  st.bind fun a =>
    if a.finished then Except.ok a
    else
      match latLonToX a.p_oblique_temp with
      | Evaluation.value x =>
        match latLonToY a.p_oblique_temp with
        | Evaluation.value y => Except.ok { a with x := x, y := y, finished := true }
        | Evaluation.errorMath =>
          moveOrThrow GRATICULE_ANGLE_SHIFT lat_trans lon_trans { a with x := x }
        | Evaluation.error => Except.error ()
      | Evaluation.errorMath => moveOrThrow GRATICULE_ANGLE_SHIFT lat_trans lon_trans a
      | Evaluation.error => Except.error ()

/-- The statements of `computeAnalysisForOneSample` from "Create temporary point" to
"Create new point" for a point with the transformed coordinates `lat_trans`, `lon_trans`:
the projected point that is created, or `none` when an exception leaves the statements (it
is caught by the handler of the loop over the points and no point is added).  The Tissot
indicatrix attached to the point is left out. -/
def projectedPoint (latLonToX latLonToY : Point3DGeographic K → Evaluation K)
    (GRATICULE_ANGLE_SHIFT lat_trans lon_trans : K) : Option (Point K) :=
  match (List.range 2).foldl
      (attemptStep latLonToX latLonToY GRATICULE_ANGLE_SHIFT lat_trans lon_trans)
      (Except.ok ⟨⟨lat_trans, lon_trans⟩, 0.0, 0.0, false⟩) with
  | Except.ok a => some ⟨a.x, a.y⟩
  | Except.error _ => none

/-- The loop "Compute coordinates of all geographic points points in sample's projection
and add to the list" over `n_nsing` points; `transformed i` are the coordinates
`lat_trans`, `lon_trans` of point `i`, or `none` when their computation throws. -/
def projectedPoints (latLonToX latLonToY : Point3DGeographic K → Evaluation K)
    (GRATICULE_ANGLE_SHIFT : K) (transformed : Nat → Option (K × K)) (n_nsing : Nat) :
    List (Point K) :=
  (List.range n_nsing).foldl
    (fun nl_projected i =>
      match (transformed i).bind
          (fun t => projectedPoint latLonToX latLonToY GRATICULE_ANGLE_SHIFT t.1 t.2) with
      | some p => nl_projected ++ [p]
      | none => nl_projected)
    []

/-! ### Rotation test of the heuristic -/

/-- The conversion `( short )` of a floating point number: the fractional part is
discarded (numbers outside the range of `short` do not occur for angles). -/
def toShort [FloorRing K] (x : K) : Int := if 0 ≤ x then ⌊x⌋ else ⌈x⌉

/-- The test "Sample is too rotated" of `checkSample`, for the rotation `rot_angle` in
degrees (computed with `atan2` from the key of the Helmert transformation): when it holds,
`checkSample` returns `false`.  `REM_DIV_ROT_ANGLE` is declared outside the sources. -/
def tooRotated [FloorRing K] (REM_DIV_ROT_ANGLE rot_angle : K) : Prop :=
  (((toShort (|rot_angle| + 3.0 * REM_DIV_ROT_ANGLE)).tmod 90 : Int) : K) >
    6.0 * REM_DIV_ROT_ANGLE

instance [FloorRing K] (REM_DIV_ROT_ANGLE rot_angle : K) :
    Decidable (tooRotated REM_DIV_ROT_ANGLE rot_angle) := by
  unfold tooRotated
  infer_instance

/-- Deviation of `|rot_angle|` modulo `90` from `0`:
`min(|rot| mod 90, 90 − (|rot| mod 90))`. -/
def rotationDeviation [FloorRing K] (rot_angle : K) : K :=
  min (FAnalyzeProjV4.fmod |rot_angle| 90) (90 - FAnalyzeProjV4.fmod |rot_angle| 90)

end CartAnalysis

/-! ## Theorems -/

namespace HelmertTransformation2D

variable {K : Type} [LinearOrderedField K]

/-! ### Loop lemmas -/

theorem sums_foldl (g l : List (Point K)) (w : List K) (n : Nat) :
    (List.range n).foldl (sumsStep g l w) ⟨0, 0, 0, 0, 0⟩ =
      { sumx_local := ∑ i in range n, wt w i * (pt l i).x
        sumy_local := ∑ i in range n, wt w i * (pt l i).y
        sumx_global := ∑ i in range n, wt w i * (pt g i).x
        sumy_global := ∑ i in range n, wt w i * (pt g i).y
        sum_weights := ∑ i in range n, wt w i } := by
  induction n with
  | zero => simp
  | succ n ih =>
    rw [List.range_succ, List.foldl_append, ih]
    simp [sumsStep, Finset.sum_range_succ]

theorem coeffs_foldl (g l : List (Point K)) (w : List K) (xl yl xg yg : K) (n : Nat) :
    (List.range n).foldl (coeffsStep g l w xl yl xg yg) ⟨0, 0, 0⟩ =
      { J := ∑ i in range n, wt w i * (((pt l i).x - xl) ^ 2 + ((pt l i).y - yl) ^ 2)
        k1 := ∑ i in range n, wt w i *
          (((pt g i).x - xg) * ((pt l i).x - xl) + ((pt g i).y - yg) * ((pt l i).y - yl))
        k2 := ∑ i in range n, wt w i *
          (((pt g i).y - yg) * ((pt l i).x - xl) - ((pt g i).x - xg) * ((pt l i).y - yl)) } := by
  induction n with
  | zero => simp
  | succ n ih =>
    rw [List.range_succ, List.foldl_append, ih]
    simp [coeffsStep, Finset.sum_range_succ, sq]

theorem transform_foldl (l : List (Point K)) (key : TTransformationKeyHelmert2D K)
    (acc : List (Point K)) (n : Nat) :
    (List.range n).foldl (transformStep l key) acc =
      acc ++ (List.range n).map (fun i =>
        (⟨key.c1 * ((pt l i).x - key.x_mass_local) - key.c2 * ((pt l i).y - key.y_mass_local)
            + key.x_mass_global,
          key.c2 * ((pt l i).x - key.x_mass_local) + key.c1 * ((pt l i).y - key.y_mass_local)
            + key.y_mass_global⟩ : Point K)) := by
  induction n with
  | zero => simp
  | succ n ih =>
    rw [List.range_succ, List.foldl_append, ih]
    simp [transformStep]

theorem getTransformKeyW_eq (g l : List (Point K)) (w : List K)
    (hn : 2 ≤ g.length) (hl : g.length ≤ l.length) :
    getTransformKeyW g l w =
      if specJ l w g.length = 0 then Except.error Error.ErrorMathZeroDevision
      else Except.ok (specKey g l w g.length) := by
  have h1 : ¬ (g.length < 2 ∨ l.length < 2) := by omega
  have h2 : ¬ (g.length > l.length) := by omega
  simp only [getTransformKeyW, h1, h2, if_false, sums_foldl, coeffs_foldl]
  rfl

/-- C1: the weighted `getTransformKey`, for `n_local ≥ n_global ≥ 2`, a weight vector
covering the global points with non-zero sum and `J ≠ 0`, returns the key made of the
weighted centroids, `k = Σ w`, `J = Σ wᵢ (xlᵢ² + ylᵢ²)`, `c1 = Σ wᵢ (xgᵢ xlᵢ + ygᵢ ylᵢ) / J`
and `c2 = Σ wᵢ (ygᵢ xlᵢ − xgᵢ ylᵢ) / J` over the centroid-reduced coordinates. -/
theorem getTransformKeyW_closed_form (g l : List (Point K)) (w : List K)
    (hn : 2 ≤ g.length) (hl : g.length ≤ l.length) (_hw : g.length ≤ w.length)
    (_hk : weightSum w g.length ≠ 0) (hJ : specJ l w g.length ≠ 0) :
    getTransformKeyW g l w = Except.ok
      { x_mass_local := centroidX l w g.length
        y_mass_local := centroidY l w g.length
        x_mass_global := centroidX g w g.length
        y_mass_global := centroidY g w g.length
        c1 := (∑ i in range g.length, wt w i *
            (redX g w g.length i * redX l w g.length i
              + redY g w g.length i * redY l w g.length i)) / specJ l w g.length
        c2 := (∑ i in range g.length, wt w i *
            (redY g w g.length i * redX l w g.length i
              - redX g w g.length i * redY l w g.length i)) / specJ l w g.length
        J := ∑ i in range g.length, wt w i *
            (redX l w g.length i ^ 2 + redY l w g.length i ^ 2)
        k := ∑ i in range g.length, wt w i } := by
  rw [getTransformKeyW_eq g l w hn hl, if_neg hJ]
  rfl

/-! ### Algebra of the weighted sums -/

theorem wt_replicate_one (n i : Nat) (hi : i < n) : wt (List.replicate n (1 : K)) i = 1 := by
  simp [wt, List.getD_eq_getElem?_getD, List.getElem?_replicate, hi]

theorem weightSum_replicate_one (n : Nat) : weightSum (List.replicate n (1 : K)) n = n := by
  unfold weightSum
  rw [Finset.sum_congr rfl (fun i hi => wt_replicate_one n i (Finset.mem_range.mp hi))]
  simp

theorem sum_redX_eq_zero (p : List (Point K)) (w : List K) (n : Nat)
    (hk : weightSum w n ≠ 0) : ∑ i in range n, wt w i * redX p w n i = 0 := by
  simp only [redX, mul_sub, Finset.sum_sub_distrib, ← Finset.sum_mul, centroidX]
  rw [← weightSum, mul_div_cancel₀ _ hk, sub_self]

theorem sum_redY_eq_zero (p : List (Point K)) (w : List K) (n : Nat)
    (hk : weightSum w n ≠ 0) : ∑ i in range n, wt w i * redY p w n i = 0 := by
  simp only [redY, mul_sub, Finset.sum_sub_distrib, ← Finset.sum_mul, centroidY]
  rw [← weightSum, mul_div_cancel₀ _ hk, sub_self]

/-- Expansion of the weighted misfit of a similarity written in reduced coordinates. -/
theorem misfit_expand (n : Nat) (w x y X Y : Nat → K) (a b u v : K) :
    ∑ i in range n, w i * ((a * x i - b * y i - X i + u) ^ 2
        + (b * x i + a * y i - Y i + v) ^ 2)
      = (a ^ 2 + b ^ 2) * ∑ i in range n, w i * (x i ^ 2 + y i ^ 2)
        - 2 * a * ∑ i in range n, w i * (X i * x i + Y i * y i)
        - 2 * b * ∑ i in range n, w i * (Y i * x i - X i * y i)
        + ∑ i in range n, w i * (X i ^ 2 + Y i ^ 2)
        + 2 * u * (a * ∑ i in range n, w i * x i - b * ∑ i in range n, w i * y i
            - ∑ i in range n, w i * X i)
        + 2 * v * (b * ∑ i in range n, w i * x i + a * ∑ i in range n, w i * y i
            - ∑ i in range n, w i * Y i)
        + (u ^ 2 + v ^ 2) * ∑ i in range n, w i := by
  simp only [Finset.mul_sum, ← Finset.sum_add_distrib, ← Finset.sum_sub_distrib]
  apply Finset.sum_congr rfl
  intro i _
  ring

/-- The misfit of an arbitrary similarity, through the sums of the key. -/
theorem misfit_eq (g l : List (Point K)) (w : List K) (n : Nat) (a b tx ty : K)
    (hk : weightSum w n ≠ 0) :
    misfit g l w n a b tx ty =
      (a ^ 2 + b ^ 2) * specJ l w n - 2 * a * specK1 g l w n - 2 * b * specK2 g l w n
        + specE g w n
        + ((a * centroidX l w n - b * centroidY l w n + tx - centroidX g w n) ^ 2
          + (b * centroidX l w n + a * centroidY l w n + ty - centroidY g w n) ^ 2)
          * weightSum w n := by
  have h := misfit_expand n (wt w) (redX l w n) (redY l w n) (redX g w n) (redY g w n) a b
    (a * centroidX l w n - b * centroidY l w n + tx - centroidX g w n)
    (b * centroidX l w n + a * centroidY l w n + ty - centroidY g w n)
  rw [sum_redX_eq_zero l w n hk, sum_redY_eq_zero l w n hk, sum_redX_eq_zero g w n hk,
    sum_redY_eq_zero g w n hk] at h
  unfold misfit
  rw [specJ, specK1, specK2, specE, weightSum]
  rw [show (∑ i in range n, wt w i *
      ((a * (pt l i).x - b * (pt l i).y + tx - (pt g i).x) ^ 2
        + (b * (pt l i).x + a * (pt l i).y + ty - (pt g i).y) ^ 2))
      = ∑ i in range n, wt w i *
      ((a * redX l w n i - b * redY l w n i - redX g w n i
          + (a * centroidX l w n - b * centroidY l w n + tx - centroidX g w n)) ^ 2
        + (b * redX l w n i + a * redY l w n i - redY g w n i
          + (b * centroidX l w n + a * centroidY l w n + ty - centroidY g w n)) ^ 2) from
    Finset.sum_congr rfl (fun i _ => by simp only [redX, redY]; ring)]
  rw [h]
  ring

/-- The misfit of the similarity stored in the key of the specification. -/
theorem misfit_specKey (g l : List (Point K)) (w : List K) (n : Nat)
    (hk : weightSum w n ≠ 0) (hJ : specJ l w n ≠ 0) :
    misfit g l w n (specKey g l w n).c1 (specKey g l w n).c2
        (centroidX g w n - (specKey g l w n).c1 * centroidX l w n
          + (specKey g l w n).c2 * centroidY l w n)
        (centroidY g w n - (specKey g l w n).c2 * centroidX l w n
          - (specKey g l w n).c1 * centroidY l w n)
      = specE g w n - (specK1 g l w n ^ 2 + specK2 g l w n ^ 2) / specJ l w n := by
  rw [misfit_eq g l w n _ _ _ _ hk]
  simp only [specKey]
  field_simp
  ring

/-- Least squares: no similarity has a smaller weighted misfit than the one of the key. -/
theorem misfit_specKey_le (g l : List (Point K)) (w : List K) (n : Nat) (a b tx ty : K)
    (hk : 0 < weightSum w n) (hJ : 0 < specJ l w n) :
    specE g w n - (specK1 g l w n ^ 2 + specK2 g l w n ^ 2) / specJ l w n
      ≤ misfit g l w n a b tx ty := by
  rw [misfit_eq g l w n a b tx ty hk.ne']
  have key : (a ^ 2 + b ^ 2) * specJ l w n - 2 * a * specK1 g l w n - 2 * b * specK2 g l w n
      + (specK1 g l w n ^ 2 + specK2 g l w n ^ 2) / specJ l w n
      = specJ l w n * ((a - specK1 g l w n / specJ l w n) ^ 2
          + (b - specK2 g l w n / specJ l w n) ^ 2) := by
    field_simp
    ring
  have h1 : 0 ≤ specJ l w n * ((a - specK1 g l w n / specJ l w n) ^ 2
          + (b - specK2 g l w n / specJ l w n) ^ 2) := by positivity
  have h2 : 0 ≤ ((a * centroidX l w n - b * centroidY l w n + tx - centroidX g w n) ^ 2
          + (b * centroidX l w n + a * centroidY l w n + ty - centroidY g w n) ^ 2)
          * weightSum w n := by positivity
  linarith

/-! ### The output of `transform` -/

theorem transform_eq (g l : List (Point K)) (key : TTransformationKeyHelmert2D K) :
    transform g l [] key = Except.ok ((List.range l.length).map (fun i => applyKey key (pt l i))) := by
  simp [transform, transform_foldl, applyKey]

theorem pt_map_range (f : Nat → Point K) (n i : Nat) (hi : i < n) :
    pt ((List.range n).map f) i = f i := by
  simp [pt, List.getD_eq_getElem?_getD, List.getElem?_map, List.getElem?_range hi]

theorem map_pt_range (l : List (Point K)) : (List.range l.length).map (fun i => pt l i) = l := by
  apply List.ext_getElem
  · simp
  · intro i h1 h2
    simp [pt, List.getD_eq_getElem?_getD, List.getElem?_eq_getElem h2]

theorem residualSq_transform (g l : List (Point K)) (w : List K) (n : Nat) (hn : n ≤ l.length)
    (key : TTransformationKeyHelmert2D K) :
    residualSq g ((List.range l.length).map (fun i => applyKey key (pt l i))) w n =
      misfit g l w n key.c1 key.c2
        (key.x_mass_global - key.c1 * key.x_mass_local + key.c2 * key.y_mass_local)
        (key.y_mass_global - key.c2 * key.x_mass_local - key.c1 * key.y_mass_local) := by
  unfold residualSq misfit
  apply Finset.sum_congr rfl
  intro i hi
  rw [pt_map_range _ _ _ (lt_of_lt_of_le (Finset.mem_range.mp hi) hn)]
  simp only [applyKey]
  ring

/-! ### Non weighted key: when `J` vanishes -/

theorem specJ_replicate_one (l : List (Point K)) (n : Nat) :
    specJ l (List.replicate n 1) n =
      ∑ i in range n, (redX l (List.replicate n 1) n i ^ 2
        + redY l (List.replicate n 1) n i ^ 2) := by
  unfold specJ
  apply Finset.sum_congr rfl
  intro i hi
  rw [wt_replicate_one n i (Finset.mem_range.mp hi), one_mul]

theorem specJ_replicate_one_nonneg (l : List (Point K)) (n : Nat) :
    0 ≤ specJ l (List.replicate n 1) n := by
  rw [specJ_replicate_one]
  apply Finset.sum_nonneg
  intro i _
  positivity

theorem centroidX_replicate_one (l : List (Point K)) (n : Nat) :
    centroidX l (List.replicate n 1) n = (∑ i in range n, (pt l i).x) / n := by
  unfold centroidX
  rw [weightSum_replicate_one]
  congr 1
  apply Finset.sum_congr rfl
  intro i hi
  rw [wt_replicate_one n i (Finset.mem_range.mp hi), one_mul]

theorem centroidY_replicate_one (l : List (Point K)) (n : Nat) :
    centroidY l (List.replicate n 1) n = (∑ i in range n, (pt l i).y) / n := by
  unfold centroidY
  rw [weightSum_replicate_one]
  congr 1
  apply Finset.sum_congr rfl
  intro i hi
  rw [wt_replicate_one n i (Finset.mem_range.mp hi), one_mul]

/-- In the non weighted case `J = 0` exactly when the first `n` local points coincide. -/
theorem specJ_replicate_one_eq_zero_iff (l : List (Point K)) (n : Nat) (hn : 0 < n) :
    specJ l (List.replicate n 1) n = 0 ↔ ∀ i j, i < n → j < n → pt l i = pt l j := by
  rw [specJ_replicate_one]
  constructor
  · intro h i j hi hj
    rw [Finset.sum_eq_zero_iff_of_nonneg (fun i _ => by positivity)] at h
    have hi0 := h i (Finset.mem_range.mpr hi)
    have hj0 := h j (Finset.mem_range.mpr hj)
    have e1 : redX l (List.replicate n 1) n i = 0 := by
      have := sq_nonneg (redY l (List.replicate n 1) n i)
      have h2 := sq_nonneg (redX l (List.replicate n 1) n i)
      exact pow_eq_zero_iff (two_ne_zero) |>.mp (by linarith)
    have e2 : redY l (List.replicate n 1) n i = 0 := by
      have := sq_nonneg (redY l (List.replicate n 1) n i)
      have h2 := sq_nonneg (redX l (List.replicate n 1) n i)
      exact pow_eq_zero_iff (two_ne_zero) |>.mp (by linarith)
    have e3 : redX l (List.replicate n 1) n j = 0 := by
      have := sq_nonneg (redY l (List.replicate n 1) n j)
      have h2 := sq_nonneg (redX l (List.replicate n 1) n j)
      exact pow_eq_zero_iff (two_ne_zero) |>.mp (by linarith)
    have e4 : redY l (List.replicate n 1) n j = 0 := by
      have := sq_nonneg (redY l (List.replicate n 1) n j)
      have h2 := sq_nonneg (redX l (List.replicate n 1) n j)
      exact pow_eq_zero_iff (two_ne_zero) |>.mp (by linarith)
    simp only [redX, redY] at e1 e2 e3 e4
    have hx : (pt l i).x = (pt l j).x := by linarith
    have hy : (pt l i).y = (pt l j).y := by linarith
    cases hp : pt l i
    cases hq : pt l j
    rw [hp, hq] at hx hy
    simp only at hx hy
    rw [hx, hy]
  · intro h
    have hx : ∀ i, i ∈ range n → (pt l i).x = (pt l 0).x := fun i hi => by
      rw [h i 0 (Finset.mem_range.mp hi) hn]
    have hy : ∀ i, i ∈ range n → (pt l i).y = (pt l 0).y := fun i hi => by
      rw [h i 0 (Finset.mem_range.mp hi) hn]
    have hn0 : (n : K) ≠ 0 := Nat.cast_ne_zero.mpr hn.ne'
    have cx : centroidX l (List.replicate n 1) n = (pt l 0).x := by
      rw [centroidX_replicate_one, Finset.sum_congr rfl hx]
      simp [hn0]
    have cy : centroidY l (List.replicate n 1) n = (pt l 0).y := by
      rw [centroidY_replicate_one, Finset.sum_congr rfl hy]
      simp [hn0]
    apply Finset.sum_eq_zero
    intro i hi
    simp [redX, redY, cx, cy, hx i hi, hy i hi]

/-! ### Contract of the Helmert key -/

/-- C2: the key is the least squares fit.  For equally long lists (`n ≥ 2`), weights with
positive sum and `J > 0` the call of `getTransformKey` succeeds, `transform` returns a
list, and its weighted squared misfit is not larger than the one of any similarity
`(x, y) ↦ (a x − b y + tx, b x + a y + ty)`; the signs of the single weights play no
role. -/
theorem helmert_key_best_fit (g l : List (Point K)) (w : List K)
    (hlen : l.length = g.length) (hn : 2 ≤ g.length) (_hw : g.length ≤ w.length)
    (hk : 0 < weightSum w g.length) (hJ : 0 < specJ l w g.length) :
    ∃ key T, getTransformKeyW g l w = Except.ok key ∧ transform g l [] key = Except.ok T ∧
      ∀ a b tx ty : K, residualSq g T w g.length ≤ misfit g l w g.length a b tx ty := by
  refine ⟨specKey g l w g.length, _, ?_, transform_eq g l _, ?_⟩
  · rw [getTransformKeyW_eq g l w hn hlen.ge, if_neg hJ.ne']
  · intro a b tx ty
    rw [residualSq_transform g l w g.length hlen.ge]
    have h := misfit_specKey g l w g.length hk.ne' hJ.ne'
    simp only [specKey] at h ⊢
    rw [h]
    exact misfit_specKey_le g l w g.length a b tx ty hk hJ

theorem helmert_key_best_fit_witness :
    ∃ key T, getTransformKeyW (K := ℚ) [⟨0, 0⟩, ⟨2, 0⟩, ⟨0, 3⟩] [⟨0, 0⟩, ⟨1, 0⟩, ⟨0, 1⟩] [1, 2, 1]
        = Except.ok key ∧
      transform [⟨0, 0⟩, ⟨2, 0⟩, ⟨0, 3⟩] [⟨0, 0⟩, ⟨1, 0⟩, ⟨0, 1⟩] [] key = Except.ok T ∧
      ∀ a b tx ty : ℚ, residualSq [⟨0, 0⟩, ⟨2, 0⟩, ⟨0, 3⟩] T [1, 2, 1] 3
        ≤ misfit [⟨0, 0⟩, ⟨2, 0⟩, ⟨0, 3⟩] [⟨0, 0⟩, ⟨1, 0⟩, ⟨0, 1⟩] [1, 2, 1] 3 a b tx ty :=
  helmert_key_best_fit [⟨0, 0⟩, ⟨2, 0⟩, ⟨0, 3⟩] [⟨0, 0⟩, ⟨1, 0⟩, ⟨0, 1⟩] [1, 2, 1]
    (by simp) (by simp) (by simp)
    (by norm_num [weightSum, wt, Finset.sum_range_succ])
    (by norm_num [specJ, redX, redY, centroidX, centroidY, weightSum, wt, pt,
      Finset.sum_range_succ])

theorem getTransformKeyW_closed_form_witness :
    getTransformKeyW (K := ℚ) [⟨0, 0⟩, ⟨2, 0⟩, ⟨0, 3⟩] [⟨0, 0⟩, ⟨1, 0⟩, ⟨0, 1⟩] [1, 2, 1]
      = Except.ok ⟨1 / 2, 1 / 4, 1, 3 / 4, 17 / 7, -2 / 7, 7 / 4, 4⟩ :=
  (getTransformKeyW_closed_form [⟨0, 0⟩, ⟨2, 0⟩, ⟨0, 3⟩] [⟨0, 0⟩, ⟨1, 0⟩, ⟨0, 1⟩] [1, 2, 1]
    (by simp) (by simp) (by simp)
    (by norm_num [weightSum, wt, Finset.sum_range_succ])
    (by norm_num [specJ, redX, redY, centroidX, centroidY, weightSum, wt, pt,
      Finset.sum_range_succ])).trans
    (by norm_num [specJ, redX, redY, centroidX, centroidY, weightSum, wt, pt,
      Finset.sum_range_succ])

theorem getTransformKey_of_coincide (g l : List (Point K)) (hn : 2 ≤ g.length)
    (hl : g.length ≤ l.length)
    (h : ∀ i j, i < g.length → j < g.length → pt l i = pt l j) :
    getTransformKey g l = Except.error Error.ErrorMathZeroDevision := by
  rw [getTransformKey, getTransformKeyW_eq g l _ hn hl,
    if_pos ((specJ_replicate_one_eq_zero_iff l g.length (by omega)).mpr h)]

theorem getTransformKey_of_not_coincide (g l : List (Point K)) (hn : 2 ≤ g.length)
    (hl : g.length ≤ l.length)
    (h : ¬ ∀ i j, i < g.length → j < g.length → pt l i = pt l j) :
    getTransformKey g l = Except.ok (specKey g l (List.replicate g.length 1) g.length) := by
  rw [getTransformKey, getTransformKeyW_eq g l _ hn hl,
    if_neg (fun h2 => h ((specJ_replicate_one_eq_zero_iff l g.length (by omega)).mp h2))]

/-- C3: similarity round trip.  For a list `P` of at least two points that do not all
coincide the non weighted `getTransformKey (P, P)` returns a key with `c1 = 1`, `c2 = 0`
and `J = Σ |Pᵢ − centroid(P)|²`, and `transform (P, P, key)` returns exactly `P`. -/
theorem helmert_round_trip (P : List (Point K)) (hn : 2 ≤ P.length)
    (hne : ∃ i j, i < P.length ∧ j < P.length ∧ pt P i ≠ pt P j) :
    ∃ key, getTransformKey P P = Except.ok key ∧ key.c1 = 1 ∧ key.c2 = 0 ∧
      key.J = ∑ i in range P.length,
        (((pt P i).x - meanX P) ^ 2 + ((pt P i).y - meanY P) ^ 2) ∧
      transform P P [] key = Except.ok P := by
  have hJ : specJ P (List.replicate P.length 1) P.length ≠ 0 := by
    intro h
    obtain ⟨i, j, hi, hj, hij⟩ := hne
    exact hij ((specJ_replicate_one_eq_zero_iff P P.length (by omega)).mp h i j hi hj)
  have hc1 : specK1 P P (List.replicate P.length 1) P.length
      = specJ P (List.replicate P.length 1) P.length := by
    unfold specK1 specJ
    exact Finset.sum_congr rfl (fun i _ => by ring)
  have hc2 : specK2 P P (List.replicate P.length 1) P.length = 0 := by
    unfold specK2
    exact Finset.sum_eq_zero (fun i _ => by ring)
  refine ⟨specKey P P (List.replicate P.length 1) P.length, ?_, ?_, ?_, ?_, ?_⟩
  · rw [getTransformKey, getTransformKeyW_eq P P _ hn le_rfl, if_neg hJ]
  · simp only [specKey, hc1]
    exact div_self hJ
  · simp only [specKey, hc2, zero_div]
  · simp only [specKey]
    rw [specJ_replicate_one]
    simp only [redX, redY, centroidX_replicate_one, centroidY_replicate_one, meanX, meanY]
  · rw [transform_eq]
    have : (fun i => applyKey (specKey P P (List.replicate P.length 1) P.length) (pt P i))
        = fun i => pt P i := by
      funext i
      have e1 : (specKey P P (List.replicate P.length 1) P.length).c1 = 1 := by
        simp only [specKey, hc1]
        exact div_self hJ
      have e2 : (specKey P P (List.replicate P.length 1) P.length).c2 = 0 := by
        simp only [specKey, hc2, zero_div]
      simp only [applyKey, e1, e2]
      simp [specKey]
    rw [this, map_pt_range]

theorem helmert_round_trip_witness :
    ∃ key, getTransformKey (K := ℚ) [⟨0, 0⟩, ⟨2, 0⟩, ⟨0, 3⟩] [⟨0, 0⟩, ⟨2, 0⟩, ⟨0, 3⟩]
        = Except.ok key ∧ key.c1 = 1 ∧ key.c2 = 0 ∧
      key.J = ∑ i in range 3,
        (((pt [⟨0, 0⟩, ⟨2, 0⟩, ⟨0, 3⟩] i).x - meanX [⟨0, 0⟩, ⟨2, 0⟩, ⟨0, 3⟩]) ^ 2
          + ((pt [⟨0, 0⟩, ⟨2, 0⟩, ⟨0, 3⟩] i).y - meanY [⟨0, 0⟩, ⟨2, 0⟩, ⟨0, 3⟩]) ^ 2) ∧
      transform [⟨0, 0⟩, ⟨2, 0⟩, ⟨0, 3⟩] [⟨0, 0⟩, ⟨2, 0⟩, ⟨0, 3⟩] [] key
        = Except.ok [⟨0, 0⟩, ⟨2, 0⟩, ⟨0, 3⟩] :=
  helmert_round_trip [⟨0, 0⟩, ⟨2, 0⟩, ⟨0, 3⟩] (by simp)
    ⟨0, 1, by simp, by simp, by simp [pt]⟩

/-- C4: for the non weighted `getTransformKey` on two equally long lists of `n ≥ 2`
points the call fails with `ErrorMathZeroDevision` if and only if all local points
coincide, and in every other case it returns a key with `J > 0`. -/
theorem getTransformKey_singular_iff (g l : List (Point K)) (hlen : l.length = g.length)
    (hn : 2 ≤ g.length) :
    (getTransformKey g l = Except.error Error.ErrorMathZeroDevision ↔
        ∀ i j, i < l.length → j < l.length → pt l i = pt l j) ∧
      ((¬ ∀ i j, i < l.length → j < l.length → pt l i = pt l j) →
        ∃ key, getTransformKey g l = Except.ok key ∧ 0 < key.J) := by
  rw [hlen]
  constructor
  · constructor
    · intro h
      by_contra hc
      rw [getTransformKey_of_not_coincide g l hn hlen.ge hc] at h
      cases h
    · intro h
      exact getTransformKey_of_coincide g l hn hlen.ge h
  · intro h
    refine ⟨_, getTransformKey_of_not_coincide g l hn hlen.ge h, ?_⟩
    have h0 : specJ l (List.replicate g.length 1) g.length ≠ 0 := fun h2 =>
      h ((specJ_replicate_one_eq_zero_iff l g.length (by omega)).mp h2)
    exact lt_of_le_of_ne (specJ_replicate_one_nonneg l g.length) (Ne.symm h0)

theorem getTransformKey_singular_iff_witness :
    (getTransformKey (K := ℚ) [⟨0, 0⟩, ⟨2, 0⟩] [⟨5, 7⟩, ⟨5, 7⟩]
        = Except.error Error.ErrorMathZeroDevision ↔
        ∀ i j, i < [(⟨5, 7⟩ : Point ℚ), ⟨5, 7⟩].length → j < [(⟨5, 7⟩ : Point ℚ), ⟨5, 7⟩].length →
          pt [(⟨5, 7⟩ : Point ℚ), ⟨5, 7⟩] i = pt [⟨5, 7⟩, ⟨5, 7⟩] j) ∧
      ((¬ ∀ i j, i < [(⟨5, 7⟩ : Point ℚ), ⟨5, 7⟩].length →
          j < [(⟨5, 7⟩ : Point ℚ), ⟨5, 7⟩].length →
          pt [(⟨5, 7⟩ : Point ℚ), ⟨5, 7⟩] i = pt [⟨5, 7⟩, ⟨5, 7⟩] j) →
        ∃ key, getTransformKey (K := ℚ) [⟨0, 0⟩, ⟨2, 0⟩] [⟨5, 7⟩, ⟨5, 7⟩] = Except.ok key ∧
          0 < key.J) :=
  getTransformKey_singular_iff [⟨0, 0⟩, ⟨2, 0⟩] [⟨5, 7⟩, ⟨5, 7⟩] (by simp) (by simp)

/-! ### Rejected input -/

/-- C22, as the code has it: `getTransformKey` throws `ErrorBadData` exactly when one of the
lists has fewer than two points or there are more global than local points
("less local points than global points"). -/
theorem getTransformKeyW_badData_iff (g l : List (Point K)) (w : List K) :
    getTransformKeyW g l w = Except.error Error.ErrorBadData ↔
      (g.length < 2 ∨ l.length < 2 ∨ g.length > l.length) := by
  by_cases h1 : g.length < 2 ∨ l.length < 2
  · have : getTransformKeyW g l w = Except.error Error.ErrorBadData := by
      simp only [getTransformKeyW, h1, if_true]
    simp only [this, true_iff]
    rcases h1 with h | h
    · exact Or.inl h
    · exact Or.inr (Or.inl h)
  · by_cases h2 : g.length > l.length
    · have : getTransformKeyW g l w = Except.error Error.ErrorBadData := by
        simp only [getTransformKeyW, h1, h2, if_true, if_false]
      simp only [this, true_iff]
      exact Or.inr (Or.inr h2)
    · rw [getTransformKeyW_eq g l w (by omega) (by omega)]
      constructor
      · intro h
        split at h <;> cases h
      · intro h
        omega

/-- C22, as stated, fails: two global and three local points (fewer global than local
points) are accepted, and the key is computed from the first two pairs. -/
theorem fewer_global_points_accepted :
    ([⟨0, 0⟩, ⟨2, 0⟩] : List (Point ℚ)).length < ([⟨0, 0⟩, ⟨1, 0⟩, ⟨5, 5⟩] : List (Point ℚ)).length ∧
      getTransformKeyW (K := ℚ) [⟨0, 0⟩, ⟨2, 0⟩] [⟨0, 0⟩, ⟨1, 0⟩, ⟨5, 5⟩] [1, 1] =
        Except.ok ⟨1 / 2, 0, 1, 0, 2, 0, 1 / 2, 2⟩ := by
  refine ⟨by simp, ?_⟩
  rw [getTransformKeyW_eq _ _ _ (by simp) (by simp)]
  norm_num [specKey, specK1, specK2, specJ, redX, redY, centroidX, centroidY, weightSum, wt, pt,
    Finset.sum_range_succ]

/-! ### Centroid of the transformed points -/

/-- C30: the Helmert transformation preserves the weighted centroid.  For two equally long
lists of `n ≥ 2` points and weights with non-zero sum and `J ≠ 0`, `getTransformKey`
returns a key, `transform` with this key returns a list, and the `w`-weighted centroid of
that list is `(x_mass_global, y_mass_global)`, the `w`-weighted centroid of the global
points. -/
theorem helmert_preserves_centroid (g l : List (Point K)) (w : List K)
    (hlen : l.length = g.length) (hn : 2 ≤ g.length) (_hw : g.length ≤ w.length)
    (hk : weightSum w g.length ≠ 0) (hJ : specJ l w g.length ≠ 0) :
    ∃ key t, getTransformKeyW g l w = Except.ok key ∧ transform g l [] key = Except.ok t ∧
      centroidX t w g.length = key.x_mass_global ∧
      centroidY t w g.length = key.y_mass_global ∧
      key.x_mass_global = centroidX g w g.length ∧
      key.y_mass_global = centroidY g w g.length := by
  refine ⟨specKey g l w g.length, _, ?_, transform_eq g l _, ?_, ?_, rfl, rfl⟩
  · rw [getTransformKeyW_eq g l w hn (by omega), if_neg hJ]
  · have hx := sum_redX_eq_zero l w g.length hk
    have hy := sum_redY_eq_zero l w g.length hk
    have hsum : ∑ i in range g.length, wt w i *
        (pt ((List.range l.length).map
          (fun i => applyKey (specKey g l w g.length) (pt l i))) i).x =
        (specKey g l w g.length).c1 * ∑ i in range g.length, wt w i * redX l w g.length i
        - (specKey g l w g.length).c2 * ∑ i in range g.length, wt w i * redY l w g.length i
        + (specKey g l w g.length).x_mass_global * weightSum w g.length := by
      rw [weightSum, Finset.mul_sum, Finset.mul_sum, Finset.mul_sum, ← Finset.sum_sub_distrib,
        ← Finset.sum_add_distrib]
      apply Finset.sum_congr rfl
      intro i hi
      rw [pt_map_range _ _ _ (by rw [hlen]; exact Finset.mem_range.mp hi)]
      simp only [applyKey, redX, redY, specKey]
      ring
    rw [centroidX, hsum, hx, hy]
    field_simp
  · have hx := sum_redX_eq_zero l w g.length hk
    have hy := sum_redY_eq_zero l w g.length hk
    have hsum : ∑ i in range g.length, wt w i *
        (pt ((List.range l.length).map
          (fun i => applyKey (specKey g l w g.length) (pt l i))) i).y =
        (specKey g l w g.length).c2 * ∑ i in range g.length, wt w i * redX l w g.length i
        + (specKey g l w g.length).c1 * ∑ i in range g.length, wt w i * redY l w g.length i
        + (specKey g l w g.length).y_mass_global * weightSum w g.length := by
      rw [weightSum, Finset.mul_sum, Finset.mul_sum, Finset.mul_sum, ← Finset.sum_add_distrib,
        ← Finset.sum_add_distrib]
      apply Finset.sum_congr rfl
      intro i hi
      rw [pt_map_range _ _ _ (by rw [hlen]; exact Finset.mem_range.mp hi)]
      simp only [applyKey, redX, redY, specKey]
      ring
    rw [centroidY, hsum, hx, hy]
    field_simp

theorem helmert_preserves_centroid_witness :
    ∃ key t, getTransformKeyW (K := ℚ) [⟨0, 0⟩, ⟨2, 0⟩, ⟨0, 3⟩] [⟨0, 0⟩, ⟨1, 0⟩, ⟨0, 1⟩]
        [1, 2, 1] = Except.ok key ∧
      transform [⟨0, 0⟩, ⟨2, 0⟩, ⟨0, 3⟩] [⟨0, 0⟩, ⟨1, 0⟩, ⟨0, 1⟩] [] key = Except.ok t ∧
      centroidX t [1, 2, 1] 3 = key.x_mass_global ∧
      centroidY t [1, 2, 1] 3 = key.y_mass_global ∧
      key.x_mass_global = centroidX [⟨0, 0⟩, ⟨2, 0⟩, ⟨0, 3⟩] [1, 2, 1] 3 ∧
      key.y_mass_global = centroidY [⟨0, 0⟩, ⟨2, 0⟩, ⟨0, 3⟩] [1, 2, 1] 3 :=
  helmert_preserves_centroid [⟨0, 0⟩, ⟨2, 0⟩, ⟨0, 3⟩] [⟨0, 0⟩, ⟨1, 0⟩, ⟨0, 1⟩] [1, 2, 1]
    (by simp) (by simp) (by simp)
    (by norm_num [weightSum, wt, Finset.sum_range_succ])
    (by norm_num [specJ, redX, redY, centroidX, centroidY, weightSum, wt, pt,
      Finset.sum_range_succ])

end HelmertTransformation2D

namespace DifferentialEvolution

variable {K : Type} [LinearOrderedField K] {σ : Type}

/-! ### Vectors as lists -/

theorem getD_set (l : List K) (i j : Nat) (a : K) :
    (l.set i a).getD j 0 = if i = j ∧ i < l.length then a else l.getD j 0 := by
  simp only [List.getD_eq_getElem?_getD, List.getElem?_set]
  by_cases h : i = j
  · subst h
    by_cases h2 : i < l.length
    · simp [h2]
    · simp [h2, List.getElem?_eq_none (not_lt.mp h2)]
  · simp [h]

/-! ### Crossover -/

theorem crossover_fold_length (U : List K) (CR : K) (r_val : Nat → K) (V : List K) (n : Nat) :
    ((List.range n).foldl (crossoverStep U CR r_val) (V, 0)).1.length = V.length := by
  induction n with
  | zero => simp
  | succ n ih =>
    rw [List.range_succ, List.foldl_append]
    simp only [List.foldl_cons, List.foldl_nil, crossoverStep]
    split
    · simp [ih]
    · exact ih

theorem crossover_fold_getD (U : List K) (CR : K) (r_val : Nat → K) (V : List K) (n j : Nat) :
    ((List.range n).foldl (crossoverStep U CR r_val) (V, 0)).1.getD j 0 =
      if j < n ∧ r_val j < CR ∧ j < V.length then U.getD j 0 else V.getD j 0 := by
  induction n with
  | zero => simp
  | succ n ih =>
    rw [List.range_succ, List.foldl_append]
    simp only [List.foldl_cons, List.foldl_nil, crossoverStep]
    by_cases hr : r_val n < CR
    · rw [if_pos hr]
      simp only [getD_set, crossover_fold_length, ih]
      by_cases hj : n = j
      · subst hj
        by_cases hl : n < V.length
        · simp [hl, hr]
        · simp [hl]
      · have : j < n + 1 ↔ j < n := by omega
        simp [hj, this]
    · rw [if_neg hr, ih]
      by_cases hj : j = n
      · subst hj
        simp [hr]
      · have : j < n + 1 ↔ j < n := by omega
        simp [this]

theorem crossover_fold_swap (U : List K) (CR : K) (r_val : Nat → K) (V : List K) (n : Nat)
    (h : ((List.range n).foldl (crossoverStep U CR r_val) (V, 0)).2 ≠ 0) :
    ∃ j, j < n ∧ r_val j < CR := by
  induction n with
  | zero => simp at h
  | succ n ih =>
    rw [List.range_succ, List.foldl_append] at h
    simp only [List.foldl_cons, List.foldl_nil, crossoverStep] at h
    by_cases hr : r_val n < CR
    · exact ⟨n, by omega, hr⟩
    · rw [if_neg hr] at h
      obtain ⟨j, hj, hjr⟩ := ih h
      exact ⟨j, by omega, hjr⟩

theorem crossover_length (U : List K) (CR : K) (dim : Nat) (V : List K) (r_val : Nat → K)
    (rnd : Nat) : (crossover U CR dim V r_val rnd).length = V.length := by
  unfold crossover
  simp only
  split
  · simp [crossover_fold_length]
  · exact crossover_fold_length U CR r_val V dim

/-- C6: binomial crossover.  For `dim ≥ 1`, a target `V` with `dim` columns, any ratio `CR`,
mutant `U` and random draws, every coordinate of the result is the one of `V` or the one of
`U`, every coordinate whose draw is below `CR` is the one of `U`, and at least one
coordinate is taken from `U`. -/
theorem crossover_spec (U V : List K) (CR : K) (dim : Nat) (r_val : Nat → K) (rnd : Nat)
    (hdim : 1 ≤ dim) (hV : V.length = dim) :
    (∀ j, j < dim → (crossover U CR dim V r_val rnd).getD j 0 = V.getD j 0 ∨
        (crossover U CR dim V r_val rnd).getD j 0 = U.getD j 0) ∧
      (∀ j, j < dim → r_val j < CR → (crossover U CR dim V r_val rnd).getD j 0 = U.getD j 0) ∧
      ∃ j, j < dim ∧ (crossover U CR dim V r_val rnd).getD j 0 = U.getD j 0 := by
  have hmod : rnd % dim < dim := Nat.mod_lt _ (by omega)
  have key : ∀ j, j < dim → (crossover U CR dim V r_val rnd).getD j 0 =
      if (((List.range dim).foldl (crossoverStep U CR r_val) (V, 0)).2 = 0 ∧ rnd % dim = j)
        ∨ r_val j < CR then U.getD j 0 else V.getD j 0 := by
    intro j hj
    unfold crossover
    simp only
    by_cases h0 : ((List.range dim).foldl (crossoverStep U CR r_val) (V, 0)).2 = 0
    · rw [if_pos h0, getD_set, crossover_fold_length, crossover_fold_getD]
      by_cases hi : rnd % dim = j
      · simp [hi, hV, hj, h0]
      · simp [hi, hV, hj, h0]
    · rw [if_neg h0, crossover_fold_getD]
      simp [hV, hj, h0]
  refine ⟨?_, ?_, ?_⟩
  · intro j hj
    rw [key j hj]
    split
    · exact Or.inr rfl
    · exact Or.inl rfl
  · intro j hj hr
    rw [key j hj, if_pos (Or.inr hr)]
  · by_cases h0 : ((List.range dim).foldl (crossoverStep U CR r_val) (V, 0)).2 = 0
    · exact ⟨rnd % dim, hmod, by rw [key _ hmod, if_pos (Or.inl ⟨h0, rfl⟩)]⟩
    · obtain ⟨j, hj, hr⟩ := crossover_fold_swap U CR r_val V dim h0
      exact ⟨j, hj, by rw [key j hj, if_pos (Or.inr hr)]⟩

theorem crossover_spec_witness :
    (∀ j, j < 2 → (crossover (K := ℚ) [7, 8] (1 / 2) 2 [1, 2] (fun _ => 3 / 4) 5).getD j 0
          = ([1, 2] : List ℚ).getD j 0 ∨
        (crossover (K := ℚ) [7, 8] (1 / 2) 2 [1, 2] (fun _ => 3 / 4) 5).getD j 0
          = ([7, 8] : List ℚ).getD j 0) ∧
      (∀ j, j < 2 → (fun _ => (3 / 4 : ℚ)) j < 1 / 2 →
        (crossover (K := ℚ) [7, 8] (1 / 2) 2 [1, 2] (fun _ => 3 / 4) 5).getD j 0
          = ([7, 8] : List ℚ).getD j 0) ∧
      ∃ j, j < 2 ∧ (crossover (K := ℚ) [7, 8] (1 / 2) 2 [1, 2] (fun _ => 3 / 4) 5).getD j 0
        = ([7, 8] : List ℚ).getD j 0 :=
  crossover_spec [7, 8] [1, 2] (1 / 2) 2 (fun _ => 3 / 4) 5 (by decide) (by simp)

/-! ### Fuel -/

theorem Converges.bind {α β : Type} {f : Nat → Option α} {g : α → Nat → Option β} {a : α}
    {b : β} (hf : Converges f a) (hg : Converges (g a) b) :
    Converges (fun fuel => (f fuel).bind (fun x => g x fuel)) b := by
  obtain ⟨N1, h1⟩ := hf
  obtain ⟨N2, h2⟩ := hg
  refine ⟨max N1 N2, fun fuel hfuel => ?_⟩
  simp only [h1 fuel (le_trans (le_max_left _ _) hfuel), Option.some_bind,
    h2 fuel (le_trans (le_max_right _ _) hfuel)]

theorem Converges.map {α β : Type} {f : Nat → Option α} {a : α} (hf : Converges f a)
    (g : α → β) : Converges (fun fuel => (f fuel).map g) (g a) := by
  obtain ⟨N1, h1⟩ := hf
  exact ⟨N1, fun fuel hfuel => by simp only [h1 fuel hfuel, Option.map_some']⟩

/-! ### Reflection -/

theorem reflectWhile_inside (XMIN XMAX : List K) (j fuel : Nat) (V : List K)
    (h1 : XMIN.getD j 0 ≤ V.getD j 0) (h2 : V.getD j 0 ≤ XMAX.getD j 0) :
    reflectWhile XMIN XMAX j (fuel + 1) V = some V := by
  have : ¬ (V.getD j 0 < XMIN.getD j 0 ∨ V.getD j 0 > XMAX.getD j 0) := by
    rintro (h | h)
    · exact absurd h (not_lt.mpr h1)
    · exact absurd h (not_lt.mpr h2)
  rw [reflectWhile, if_neg this]

theorem reflectWhile_above (XMIN XMAX : List K) (j fuel : Nat) (V : List K)
    (hne : XMIN.getD j 0 ≠ XMAX.getD j 0) (h : XMAX.getD j 0 < V.getD j 0) :
    reflectWhile XMIN XMAX j (fuel + 1) V =
      reflectWhile XMIN XMAX j fuel (V.set j (2 * XMAX.getD j 0 - V.getD j 0)) := by
  rw [reflectWhile, if_pos (Or.inr h), if_neg hne, if_pos h]

theorem reflectWhile_below (XMIN XMAX : List K) (j fuel : Nat) (V : List K)
    (hne : XMIN.getD j 0 ≠ XMAX.getD j 0) (h : V.getD j 0 < XMIN.getD j 0)
    (h2 : V.getD j 0 ≤ XMAX.getD j 0) :
    reflectWhile XMIN XMAX j (fuel + 1) V =
      reflectWhile XMIN XMAX j fuel (V.set j (2 * XMIN.getD j 0 - V.getD j 0)) := by
  rw [reflectWhile, if_pos (Or.inl h), if_neg hne, if_neg (not_lt.mpr h2), if_pos h]

theorem reflectWhile_equal (XMIN XMAX : List K) (j fuel : Nat) (V : List K)
    (he : XMIN.getD j 0 = XMAX.getD j 0) (h : V.getD j 0 ≠ XMIN.getD j 0) :
    reflectWhile XMIN XMAX j (fuel + 1) V =
      reflectWhile XMIN XMAX j fuel (V.set j (XMIN.getD j 0)) := by
  have : V.getD j 0 < XMIN.getD j 0 ∨ V.getD j 0 > XMAX.getD j 0 := by
    rcases lt_or_gt_of_ne h with h | h
    · exact Or.inl h
    · exact Or.inr (he ▸ h)
  rw [reflectWhile, if_pos this, if_pos he]

/-- Result of the loop for one coordinate, with the number of passes bounded by `n`. -/
theorem reflectWhile_bounded (XMIN XMAX : List K) (j : Nat)
    (hlt : XMIN.getD j 0 < XMAX.getD j 0) (n : Nat) :
    ∀ V : List K, j < V.length →
      V.getD j 0 - XMAX.getD j 0 ≤ n * (XMAX.getD j 0 - XMIN.getD j 0) →
      XMIN.getD j 0 - V.getD j 0 ≤ n * (XMAX.getD j 0 - XMIN.getD j 0) →
      ∃ V', (∀ fuel, n + 1 ≤ fuel → reflectWhile XMIN XMAX j fuel V = some V') ∧
        V'.length = V.length ∧ (∀ i, i ≠ j → V'.getD i 0 = V.getD i 0) ∧
        XMIN.getD j 0 ≤ V'.getD j 0 ∧ V'.getD j 0 ≤ XMAX.getD j 0 := by
  induction n with
  | zero =>
    intro V _ h1 h2
    simp only [Nat.cast_zero, zero_mul, sub_nonpos] at h1 h2
    refine ⟨V, fun fuel hfuel => ?_, rfl, fun _ _ => rfl, h2, h1⟩
    obtain ⟨f, rfl⟩ : ∃ f, fuel = f + 1 := ⟨fuel - 1, by omega⟩
    exact reflectWhile_inside XMIN XMAX j f V h2 h1
  | succ n ih =>
    intro V hj h1 h2
    push_cast at h1 h2
    by_cases ha : XMAX.getD j 0 < V.getD j 0
    · have hset : (V.set j (2 * XMAX.getD j 0 - V.getD j 0)).getD j 0
          = 2 * XMAX.getD j 0 - V.getD j 0 := by simp [getD_set, hj]
      obtain ⟨V', hV', hlen, hoth, hb⟩ := ih (V.set j (2 * XMAX.getD j 0 - V.getD j 0))
        (by simpa using hj)
        (by rw [hset]; nlinarith [mul_nonneg (Nat.cast_nonneg n : (0 : K) ≤ n) (sub_nonneg.mpr hlt.le)])
        (by rw [hset]; linarith)
      refine ⟨V', fun fuel hfuel => ?_, by simpa using hlen, fun i hi => ?_, hb⟩
      · obtain ⟨f, rfl⟩ : ∃ f, fuel = f + 1 := ⟨fuel - 1, by omega⟩
        rw [reflectWhile_above XMIN XMAX j f V hlt.ne ha]
        exact hV' f (by omega)
      · rw [hoth i hi, getD_set, if_neg (fun h => hi h.1.symm)]
    · by_cases hb : V.getD j 0 < XMIN.getD j 0
      · have hset : (V.set j (2 * XMIN.getD j 0 - V.getD j 0)).getD j 0
            = 2 * XMIN.getD j 0 - V.getD j 0 := by simp [getD_set, hj]
        obtain ⟨V', hV', hlen, hoth, hbd⟩ := ih (V.set j (2 * XMIN.getD j 0 - V.getD j 0))
          (by simpa using hj)
          (by rw [hset]; linarith)
          (by rw [hset]; nlinarith [mul_nonneg (Nat.cast_nonneg n : (0 : K) ≤ n) (sub_nonneg.mpr hlt.le)])
        refine ⟨V', fun fuel hfuel => ?_, by simpa using hlen, fun i hi => ?_, hbd⟩
        · obtain ⟨f, rfl⟩ : ∃ f, fuel = f + 1 := ⟨fuel - 1, by omega⟩
          rw [reflectWhile_below XMIN XMAX j f V hlt.ne hb (not_lt.mp ha)]
          exact hV' f (by omega)
        · rw [hoth i hi, getD_set, if_neg (fun h => hi h.1.symm)]
      · refine ⟨V, fun fuel hfuel => ?_, rfl, fun _ _ => rfl, not_lt.mp hb, not_lt.mp ha⟩
        obtain ⟨f, rfl⟩ : ∃ f, fuel = f + 1 := ⟨fuel - 1, by omega⟩
        exact reflectWhile_inside XMIN XMAX j f V (not_lt.mp hb) (not_lt.mp ha)

/-- The loop for one coordinate terminates inside the bounds. -/
theorem reflectWhile_converges [Archimedean K] (XMIN XMAX : List K) (j : Nat) (V : List K)
    (hj : j < V.length) (hle : XMIN.getD j 0 ≤ XMAX.getD j 0) :
    ∃ V', Converges (fun fuel => reflectWhile XMIN XMAX j fuel V) V' ∧
      V'.length = V.length ∧ (∀ i, i ≠ j → V'.getD i 0 = V.getD i 0) ∧
      XMIN.getD j 0 ≤ V'.getD j 0 ∧ V'.getD j 0 ≤ XMAX.getD j 0 := by
  rcases hle.lt_or_eq with hlt | he
  · have hd : 0 < XMAX.getD j 0 - XMIN.getD j 0 := sub_pos.mpr hlt
    obtain ⟨n, hn⟩ := exists_nat_ge
      (max (V.getD j 0 - XMAX.getD j 0) (XMIN.getD j 0 - V.getD j 0)
        / (XMAX.getD j 0 - XMIN.getD j 0))
    rw [div_le_iff₀ hd] at hn
    obtain ⟨V', hV', hrest⟩ := reflectWhile_bounded XMIN XMAX j hlt n V hj
      (le_trans (le_max_left _ _) hn) (le_trans (le_max_right _ _) hn)
    exact ⟨V', ⟨n + 1, hV'⟩, hrest⟩
  · by_cases hv : V.getD j 0 = XMIN.getD j 0
    · refine ⟨V, ⟨1, fun fuel hfuel => ?_⟩, rfl, fun _ _ => rfl, hv.ge, hv.le.trans he.le⟩
      obtain ⟨f, rfl⟩ : ∃ f, fuel = f + 1 := ⟨fuel - 1, by omega⟩
      exact reflectWhile_inside XMIN XMAX j f V hv.ge (hv.le.trans he.le)
    · have hset : (V.set j (XMIN.getD j 0)).getD j 0 = XMIN.getD j 0 := by
        simp [getD_set, hj]
      refine ⟨V.set j (XMIN.getD j 0), ⟨2, fun fuel hfuel => ?_⟩, by simp,
        fun i hi => by rw [getD_set, if_neg (fun h => hi h.1.symm)], hset.ge, hset.le.trans he.le⟩
      obtain ⟨f, rfl⟩ : ∃ f, fuel = f + 2 := ⟨fuel - 2, by omega⟩
      show reflectWhile XMIN XMAX j (f + 1 + 1) V = _
      rw [reflectWhile_equal XMIN XMAX j (f + 1) V he hv]
      exact reflectWhile_inside XMIN XMAX j f _ hset.ge (hset.le.trans he.le)

theorem reflection_succ (fuel : Nat) (XMIN XMAX : List K) (n : Nat) (V : List K) :
    reflection fuel XMIN XMAX (n + 1) V =
      (reflection fuel XMIN XMAX n V).bind (reflectWhile XMIN XMAX n fuel) := by
  simp [reflection, List.range_succ, List.foldl_append]

/-- The function `reflection` terminates and leaves the vector inside the box. -/
theorem reflection_converges [Archimedean K] (XMIN XMAX : List K) (n : Nat) (V : List K)
    (hn : n ≤ V.length) (hb : ∀ j, j < n → XMIN.getD j 0 ≤ XMAX.getD j 0) :
    ∃ V', Converges (fun fuel => reflection fuel XMIN XMAX n V) V' ∧
      V'.length = V.length ∧ (∀ i, n ≤ i → V'.getD i 0 = V.getD i 0) ∧
      InBox XMIN XMAX n V' := by
  induction n with
  | zero =>
    exact ⟨V, ⟨0, fun _ _ => by simp [reflection]⟩, rfl, fun _ _ => rfl,
      fun j hj => absurd hj (Nat.not_lt_zero j)⟩
  | succ n ih =>
    obtain ⟨V1, hc1, hlen1, hrest1, hbox1⟩ := ih (by omega) (fun j hj => hb j (by omega))
    obtain ⟨V2, hc2, hlen2, hoth2, hlo, hhi⟩ := reflectWhile_converges XMIN XMAX n V1
      (by omega) (hb n (by omega))
    refine ⟨V2, ?_, by omega, fun i hi => ?_, fun j hj => ?_⟩
    · have := Converges.bind (g := fun x fuel => reflectWhile XMIN XMAX n fuel x) hc1 hc2
      obtain ⟨N, hN⟩ := this
      exact ⟨N, fun fuel hfuel => (reflection_succ fuel XMIN XMAX n V).trans (hN fuel hfuel)⟩
    · rw [hoth2 i (by omega), hrest1 i (by omega)]
    · by_cases hjn : j = n
      · subst hjn
        exact ⟨hlo, hhi⟩
      · rw [hoth2 j hjn]
        exact hbox1 j (by omega)

/-! ### Parts of a run -/

theorem andThen_eq_ok {α β : Type} (a : Option (Except Error α))
    (f : α → Option (Except Error β)) (y : β) :
    andThen a f = some (Except.ok y) ↔
      ∃ x, a = some (Except.ok x) ∧ f x = some (Except.ok y) := by
  unfold andThen
  split
  · rename_i x
    constructor
    · intro h
      exact ⟨x, rfl, h⟩
    · rintro ⟨x', hx, h⟩
      cases hx
      exact h
  · simp
  · simp

theorem andThen_ne_error {α β : Type} (a : Option (Except Error α))
    (f : α → Option (Except Error β)) (ha : ∀ e, a ≠ some (Except.error e))
    (hf : ∀ x e, a = some (Except.ok x) → f x ≠ some (Except.error e)) (e : Error) :
    andThen a f ≠ some (Except.error e) := by
  unfold andThen
  split
  · rename_i x
    exact hf x e rfl
  · rename_i e'
    exact absurd rfl (ha e')
  · simp

theorem Converges.andThen {α β : Type} {f : Nat → Option (Except Error α)}
    {g : α → Nat → Option (Except Error β)} {a : α} {b : Except Error β}
    (hf : Converges f (Except.ok a)) (hg : Converges (g a) b) :
    Converges (fun fuel => DifferentialEvolution.andThen (f fuel) (fun x => g x fuel)) b := by
  obtain ⟨N1, h1⟩ := hf
  obtain ⟨N2, h2⟩ := hg
  refine ⟨max N1 N2, fun fuel hfuel => ?_⟩
  simp only [h1 fuel (le_trans (le_max_left _ _) hfuel), DifferentialEvolution.andThen,
    h2 fuel (le_trans (le_max_right _ _) hfuel)]

/-! ### A reflection that returns -/

/-- When the `while` loop of `reflection` for coordinate `j` is left, the coordinate lies
between the bounds and the other coordinates are as before. -/
theorem reflectWhile_returns (XMIN XMAX : List K) (j : Nat) :
    ∀ (fuel : Nat) (V V' : List K), reflectWhile XMIN XMAX j fuel V = some V' →
      V'.length = V.length ∧ (∀ k, k ≠ j → V'.getD k 0 = V.getD k 0) ∧
      XMIN.getD j 0 ≤ V'.getD j 0 ∧ V'.getD j 0 ≤ XMAX.getD j 0 := by
  intro fuel
  induction fuel with
  | zero =>
    intro V V' h
    simp [reflectWhile] at h
  | succ fuel ih =>
    intro V V' h
    rw [reflectWhile] at h
    split_ifs at h with h1 h2 h3 h4
    · obtain ⟨a, b, c, d⟩ := ih _ _ h
      refine ⟨by simpa using a, fun k hk => ?_, c, d⟩
      rw [b k hk, getD_set, if_neg (fun hh => hk hh.1.symm)]
    · obtain ⟨a, b, c, d⟩ := ih _ _ h
      refine ⟨by simpa using a, fun k hk => ?_, c, d⟩
      rw [b k hk, getD_set, if_neg (fun hh => hk hh.1.symm)]
    · obtain ⟨a, b, c, d⟩ := ih _ _ h
      refine ⟨by simpa using a, fun k hk => ?_, c, d⟩
      rw [b k hk, getD_set, if_neg (fun hh => hk hh.1.symm)]
    · exact ih _ _ h
    · cases h
      exact ⟨rfl, fun _ _ => rfl, not_lt.mp (fun hh => h1 (Or.inl hh)),
        not_lt.mp (fun hh => h1 (Or.inr hh))⟩

/-- When `reflection` returns, the vector lies inside the box. -/
theorem reflection_returns (fuel : Nat) (XMIN XMAX : List K) :
    ∀ (n : Nat) (V V' : List K), reflection fuel XMIN XMAX n V = some V' →
      V'.length = V.length ∧ InBox XMIN XMAX n V' := by
  intro n
  induction n with
  | zero =>
    intro V V' h
    simp only [reflection, List.range_zero, List.foldl_nil, Option.some.injEq] at h
    subst h
    exact ⟨rfl, fun j hj => absurd hj (Nat.not_lt_zero j)⟩
  | succ n ih =>
    intro V V' h
    rw [reflection_succ] at h
    obtain ⟨V1, h1, h2⟩ := Option.bind_eq_some.mp h
    obtain ⟨l1, b1⟩ := ih V V1 h1
    obtain ⟨l2, o2, lo, hi⟩ := reflectWhile_returns XMIN XMAX n fuel V1 V' h2
    refine ⟨l2.trans l1, fun j hj => ?_⟩
    by_cases hjn : j = n
    · subst hjn
      exact ⟨lo, hi⟩
    · rw [o2 j hjn]
      exact b1 j (by omega)

/-- A trial vector that is handed to the objective has the columns of the row and lies
inside the box. -/
theorem trialVector_returns (fuel : Nat) (o : Oracle K σ) (XMIN XMAX : List K)
    (dim gener : Nat) (P_A : List (List K)) (P_V : List K) (i : Nat) (T : List K)
    (h : trialVector fuel o XMIN XMAX dim gener P_A P_V i = some (Except.ok T)) :
    T.length = (P_A.getD i []).length ∧ InBox XMIN XMAX dim T := by
  unfold trialVector at h
  split at h
  · obtain ⟨V', hV, hT⟩ := Option.map_eq_some'.mp h
    cases hT
    obtain ⟨l, b⟩ := reflection_returns fuel XMIN XMAX dim _ _ hV
    exact ⟨by rw [l, crossover_length], b⟩
  · cases h
  · cases h

theorem trialVector_converges [Archimedean K] (o : Oracle K σ) (XMIN XMAX : List K)
    (dim gener : Nat) (P_A : List (List K)) (P_V : List K) (i : Nat)
    (hm : ∃ U CR, o.mutation gener i P_A P_V = Mutation.returned U CR)
    (hrow : (P_A.getD i []).length = dim)
    (hb : ∀ j, j < dim → XMIN.getD j 0 ≤ XMAX.getD j 0) :
    ∃ T, Converges (fun fuel => trialVector fuel o XMIN XMAX dim gener P_A P_V i)
      (Except.ok T) := by
  obtain ⟨U, CR, hU⟩ := hm
  obtain ⟨T, hc, _⟩ := reflection_converges XMIN XMAX dim
    (crossover U CR dim (P_A.getD i []) (o.r_val gener i) (o.rnd gener i))
    (by rw [crossover_length, hrow]) hb
  refine ⟨T, ?_⟩
  obtain ⟨N, hN⟩ := hc
  refine ⟨N, fun fuel hfuel => ?_⟩
  have h := hN fuel hfuel
  beta_reduce at h
  simp only [trialVector, hU, h, Option.map_some']

/-! ### Replacement rule -/

theorem replacement_eq (o : Oracle K σ) (MAX_FLOAT : K) (st : State K σ) (i : Nat)
    (V : List K) :
    replacement o MAX_FLOAT st i V =
      if trialCost o MAX_FLOAT st.env V ≤ st.P_V.getD i 0 then
        { st with
          env := (o.function st.env V).1
          Q_A := st.Q_A.set i (o.function st.env V).2.1
          Q_V := st.Q_V.set i (trialCost o MAX_FLOAT st.env V) }
      else { st with env := (o.function st.env V).1 } := rfl

theorem getD_set_rows {α : Type} (l : List (List α)) (i j : Nat) (a : List α) :
    (l.set i a).getD j [] = if i = j ∧ i < l.length then a else l.getD j [] := by
  simp only [List.getD_eq_getElem?_getD, List.getElem?_set]
  by_cases h : i = j
  · subst h
    by_cases h2 : i < l.length
    · simp [h2]
    · simp [h2, List.getElem?_eq_none (not_lt.mp h2)]
  · simp [h]

/-- The loop body keeps `P`, the counters and the shape, and reaches the environment that
the objective produces from the trial vector. -/
theorem replacement_props (o : Oracle K σ) (MAX_FLOAT : K) (population_size dim : Nat)
    (st : State K σ) (i : Nat) (V : List K) (hk : KeepsLength o) (hV : V.length = dim)
    (hs : Shaped population_size dim st) :
    (replacement o MAX_FLOAT st i V).P_A = st.P_A ∧
      (replacement o MAX_FLOAT st i V).P_V = st.P_V ∧
      (replacement o MAX_FLOAT st i V).gener = st.gener ∧
      (replacement o MAX_FLOAT st i V).min_res = st.min_res ∧
      (replacement o MAX_FLOAT st i V).env = (o.function st.env V).1 ∧
      Shaped population_size dim (replacement o MAX_FLOAT st i V) := by
  obtain ⟨h1, h2, h3, h4, h5, h6, h7⟩ := hs
  rw [replacement_eq]
  split
  · rename_i hle
    refine ⟨rfl, rfl, rfl, rfl, rfl, h1, by simpa using h2, h3, by simpa using h4, h5, ?_, ?_⟩
    · intro k hk2
      simp only [getD_set_rows]
      split
      · rw [hk, hV]
      · exact h6 k hk2
    · intro k
      simp only [getD_set]
      split
      · rename_i hik
        rw [← hik.1]
        exact hle
      · exact h7 k
  · exact ⟨rfl, rfl, rfl, rfl, rfl, h1, h2, h3, h4, h5, h6, h7⟩

/-! ### One generation -/

theorem individuals_succ (fuel : Nat) (o : Oracle K σ) (MAX_FLOAT : K) (XMIN XMAX : List K)
    (dim n : Nat) (st : State K σ) :
    (List.range (n + 1)).foldl (individualStep fuel o MAX_FLOAT XMIN XMAX dim)
        (some (Except.ok st)) =
      andThen ((List.range n).foldl (individualStep fuel o MAX_FLOAT XMIN XMAX dim)
        (some (Except.ok st)))
        (fun x => andThen (trialVector fuel o XMIN XMAX dim x.gener x.P_A x.P_V n)
          (fun V => some (Except.ok (replacement o MAX_FLOAT x n V)))) := by
  simp [List.range_succ, List.foldl_append, individualStep]

/-- When the loop over the individuals returns, it has kept `P` and the shape of the
matrices, and every property `E` of the environment that calls of the objective on vectors
inside the box preserve. -/
theorem individuals_returns (fuel : Nat) (o : Oracle K σ) (MAX_FLOAT : K)
    (XMIN XMAX : List K) (population_size dim : Nat) (hk : KeepsLength o) (E : σ → Prop)
    (hE : ∀ s T, E s → T.length = dim → InBox XMIN XMAX dim T → E (o.function s T).1)
    (st : State K σ) (hs : Shaped population_size dim st) (hEs : E st.env) :
    ∀ (n : Nat) (st' : State K σ), n ≤ population_size →
      (List.range n).foldl (individualStep fuel o MAX_FLOAT XMIN XMAX dim)
        (some (Except.ok st)) = some (Except.ok st') →
      st'.P_A = st.P_A ∧ st'.P_V = st.P_V ∧ st'.gener = st.gener ∧
      st'.min_res = st.min_res ∧ Shaped population_size dim st' ∧ E st'.env := by
  intro n
  induction n with
  | zero =>
    intro st' _ h
    simp only [List.range_zero, List.foldl_nil, Option.some.injEq, Except.ok.injEq] at h
    subst h
    exact ⟨rfl, rfl, rfl, rfl, hs, hEs⟩
  | succ n ih =>
    intro st' hn h
    rw [individuals_succ] at h
    obtain ⟨st1, h1, h2⟩ := (andThen_eq_ok _ _ _).mp h
    obtain ⟨T, hT, h3⟩ := (andThen_eq_ok _ _ _).mp h2
    simp only [Option.some.injEq, Except.ok.injEq] at h3
    subst h3
    obtain ⟨hPA, hPV, hg, hm, hs1, hE1⟩ := ih st1 (by omega) h1
    obtain ⟨hlenT, hboxT⟩ := trialVector_returns fuel o XMIN XMAX dim _ _ _ n T hT
    have hlenT2 : T.length = dim := by rw [hlenT, hs1.2.2.2.2.1 n (by omega)]
    obtain ⟨q1, q2, q3, q4, q5, q6⟩ := replacement_props o MAX_FLOAT population_size dim
      st1 n T hk hlenT2 hs1
    refine ⟨q1.trans hPA, q2.trans hPV, q3.trans hg, q4.trans hm, q6, ?_⟩
    rw [q5]
    exact hE st1.env T hE1 hlenT2 hboxT

/-- With a mutation step that returns, the loop over the individuals terminates. -/
theorem individuals_converge [Archimedean K] (o : Oracle K σ) (MAX_FLOAT : K)
    (XMIN XMAX : List K) (population_size dim : Nat) (hk : KeepsLength o)
    (hr : StepsReturn o) (hb : ∀ j, j < dim → XMIN.getD j 0 ≤ XMAX.getD j 0)
    (st : State K σ) (hs : Shaped population_size dim st) (n : Nat)
    (hn : n ≤ population_size) :
    ∃ st', Converges (fun fuel => (List.range n).foldl
        (individualStep fuel o MAX_FLOAT XMIN XMAX dim) (some (Except.ok st)))
        (Except.ok st') := by
  induction n with
  | zero => exact ⟨st, ⟨0, fun _ _ => by simp⟩⟩
  | succ n ih =>
    obtain ⟨st1, hc1⟩ := ih (by omega)
    obtain ⟨N1, hN1⟩ := hc1
    obtain ⟨_, _, _, _, hs1, _⟩ := individuals_returns N1 o MAX_FLOAT XMIN XMAX
      population_size dim hk (fun _ => True) (fun _ _ _ _ _ => trivial) st hs trivial n st1
      (by omega) (hN1 N1 le_rfl)
    obtain ⟨T, hcT⟩ := trialVector_converges o XMIN XMAX dim st1.gener st1.P_A st1.P_V n
      (hr.1 _ _ _ _) (hs1.2.2.2.2.1 n (by omega)) hb
    refine ⟨replacement o MAX_FLOAT st1 n T, ?_⟩
    have hc2 : Converges (fun fuel =>
        DifferentialEvolution.andThen
          (trialVector fuel o XMIN XMAX dim st1.gener st1.P_A st1.P_V n)
          (fun V => (some (Except.ok (replacement o MAX_FLOAT st1 n V)) :
            Option (Except Error (State K σ)))))
        (Except.ok (replacement o MAX_FLOAT st1 n T)) :=
      Converges.andThen (g := fun V _ => some (Except.ok (replacement o MAX_FLOAT st1 n V)))
        hcT ⟨0, fun _ _ => rfl⟩
    obtain ⟨N, hN⟩ := Converges.andThen
      (g := fun x fuel => DifferentialEvolution.andThen
        (trialVector fuel o XMIN XMAX dim x.gener x.P_A x.P_V n)
        (fun V => some (Except.ok (replacement o MAX_FLOAT x n V)))) ⟨N1, hN1⟩ hc2
    exact ⟨N, fun fuel hfuel =>
      (individuals_succ fuel o MAX_FLOAT XMIN XMAX dim n st).trans (hN fuel hfuel)⟩

/-- When a pass of the loop returns, it has kept the shape, no stored cost has grown, and
the stored minimum and its row index are those of the population. -/
theorem generation_returns (fuel : Nat) (o : Oracle K σ) (MAX_FLOAT : K)
    (XMIN XMAX : List K) (population_size dim : Nat) (hk : KeepsLength o) (E : σ → Prop)
    (hE : ∀ s T, E s → T.length = dim → InBox XMIN XMAX dim T → E (o.function s T).1)
    (st st' : State K σ) (hs : Shaped population_size dim st) (hEs : E st.env)
    (h : generation fuel o MAX_FLOAT XMIN XMAX population_size dim st = some (Except.ok st')) :
    Shaped population_size dim st' ∧ E st'.env ∧
      (∀ i, st'.P_V.getD i 0 ≤ st.P_V.getD i 0) ∧ st'.min_res = matMin st'.P_V ∧
      st'.row_index_min = matMinIndex st'.P_V ∧ st'.gener = st.gener + 1 := by
  unfold generation at h
  obtain ⟨st1, h1, h2⟩ := (andThen_eq_ok _ _ _).mp h
  obtain ⟨_, hPV, hg, _, hs1, hE1⟩ := individuals_returns fuel o MAX_FLOAT XMIN XMAX
    population_size dim hk E hE st hs hEs population_size st1 le_rfl h1
  obtain ⟨_, h2', _, h4, _, h6, h7⟩ := hs1
  by_cases hav : o.averageReturns st1.gener st1.Q_A = true
  · rw [if_pos hav] at h2
    simp only [Option.some.injEq, Except.ok.injEq] at h2
    subst h2
    refine ⟨⟨h2', h2', h4, h4, h6, h6, fun _ => le_rfl⟩, hE1, ?_, rfl, rfl, ?_⟩
    · intro i
      rw [← hPV]
      exact h7 i
    · simp [hg]
  · rw [if_neg hav] at h2
    cases h2

theorem generation_converges [Archimedean K] (o : Oracle K σ) (MAX_FLOAT : K)
    (XMIN XMAX : List K) (population_size dim : Nat) (hk : KeepsLength o)
    (hr : StepsReturn o) (hb : ∀ j, j < dim → XMIN.getD j 0 ≤ XMAX.getD j 0)
    (st : State K σ) (hs : Shaped population_size dim st) :
    ∃ st', Converges (fun fuel => generation fuel o MAX_FLOAT XMIN XMAX population_size dim st)
      (Except.ok st') := by
  obtain ⟨st1, N, hN⟩ := individuals_converge o MAX_FLOAT XMIN XMAX population_size dim hk hr
    hb st hs population_size le_rfl
  refine ⟨{ st1 with
      P_A := st1.Q_A
      P_V := st1.Q_V
      min_res_old := st1.min_res
      max_res := matMax st1.Q_V
      min_res := matMin st1.Q_V
      row_index_min := matMinIndex st1.Q_V
      aver_res := st1.Q_V.sum / population_size
      gener := st1.gener + 1 }, N, fun fuel hfuel => ?_⟩
  have h := hN fuel hfuel
  beta_reduce at h
  simp only [generation, h, andThen, hr.2.1, if_true]

/-! ### The main loop -/

/-- When the loop over the generations returns, it has kept the shape, no stored cost has
grown, and the stored minimum is the one of the population. -/
theorem mainLoop_returns (fuel : Nat) (o : Oracle K σ) (MAX_FLOAT : K)
    (XMIN XMAX : List K) (population_size dim : Nat) (epsilon : K) (hk : KeepsLength o)
    (E : σ → Prop)
    (hE : ∀ s T, E s → T.length = dim → InBox XMIN XMAX dim T → E (o.function s T).1)
    (remaining : Nat) :
    ∀ st st' : State K σ, Shaped population_size dim st → E st.env →
      st.min_res = matMin st.P_V →
      mainLoop fuel o MAX_FLOAT XMIN XMAX population_size dim epsilon remaining st =
        some (Except.ok st') →
      Shaped population_size dim st' ∧ E st'.env ∧
        (∀ i, st'.P_V.getD i 0 ≤ st.P_V.getD i 0) ∧ st'.min_res = matMin st'.P_V := by
  induction remaining with
  | zero =>
    intro st st' hs hEs hm h
    simp only [mainLoop, Option.some.injEq, Except.ok.injEq] at h
    subst h
    exact ⟨hs, hEs, fun _ => le_rfl, hm⟩
  | succ remaining ih =>
    intro st st' hs hEs _ h
    rw [mainLoop] at h
    obtain ⟨st1, h1, h2⟩ := (andThen_eq_ok _ _ _).mp h
    obtain ⟨hs1, hE1, hle1, hm1, _, _⟩ := generation_returns fuel o MAX_FLOAT XMIN XMAX
      population_size dim hk E hE st st1 hs hEs h1
    by_cases ht : terminal epsilon st1
    · rw [if_pos ht] at h2
      simp only [Option.some.injEq, Except.ok.injEq] at h2
      subst h2
      exact ⟨hs1, hE1, hle1, hm1⟩
    · rw [if_neg ht] at h2
      obtain ⟨hs2, hE2, hle2, hm2⟩ := ih
        (if st1.gener % 100 = 0 then { st1 with min_res_old_100 := st1.min_res } else st1) st'
        (by split
            · exact hs1
            · exact hs1)
        (by split
            · exact hE1
            · exact hE1)
        (by split
            · exact hm1
            · exact hm1) h2
      refine ⟨hs2, hE2, fun i => le_trans (hle2 i) ?_, hm2⟩
      have : (if st1.gener % 100 = 0 then { st1 with min_res_old_100 := st1.min_res }
          else st1).P_V = st1.P_V := by
        split
        · rfl
        · rfl
      rw [this]
      exact hle1 i

theorem mainLoop_converges [Archimedean K] (o : Oracle K σ) (MAX_FLOAT : K)
    (XMIN XMAX : List K) (population_size dim : Nat) (epsilon : K) (hk : KeepsLength o)
    (hr : StepsReturn o) (hb : ∀ j, j < dim → XMIN.getD j 0 ≤ XMAX.getD j 0)
    (remaining : Nat) :
    ∀ st : State K σ, Shaped population_size dim st →
      ∃ st', Converges (fun fuel => mainLoop fuel o MAX_FLOAT XMIN XMAX population_size dim
        epsilon remaining st) (Except.ok st') := by
  induction remaining with
  | zero =>
    intro st _
    exact ⟨st, ⟨0, fun _ _ => rfl⟩⟩
  | succ remaining ih =>
    intro st hs
    obtain ⟨st1, N1, hN1⟩ := generation_converges o MAX_FLOAT XMIN XMAX population_size dim
      hk hr hb st hs
    obtain ⟨hs1, _⟩ := generation_returns N1 o MAX_FLOAT XMIN XMAX population_size dim hk
      (fun _ => True) (fun _ _ _ _ _ => trivial) st st1 hs trivial (hN1 N1 le_rfl)
    by_cases ht : terminal epsilon st1
    · refine ⟨st1, N1, fun fuel hfuel => ?_⟩
      have h := hN1 fuel hfuel
      beta_reduce at h
      show DifferentialEvolution.andThen
        (generation fuel o MAX_FLOAT XMIN XMAX population_size dim st) _ = _
      rw [h]
      simp only [andThen, if_pos ht]
    · obtain ⟨st2, N2, hN2⟩ := ih
        (if st1.gener % 100 = 0 then { st1 with min_res_old_100 := st1.min_res } else st1)
        (by split
            · exact hs1
            · exact hs1)
      refine ⟨st2, max N1 N2, fun fuel hfuel => ?_⟩
      have h := hN1 fuel (le_trans (le_max_left _ _) hfuel)
      beta_reduce at h
      show DifferentialEvolution.andThen
        (generation fuel o MAX_FLOAT XMIN XMAX population_size dim st) _ = _
      rw [h]
      simp only [andThen, if_neg ht]
      exact hN2 fuel (le_trans (le_max_right _ _) hfuel)

/-! ### Minimum of the costs -/

theorem foldl_min_le (l : List K) (a : K) :
    l.foldl min a ≤ a ∧ ∀ x, x ∈ l → l.foldl min a ≤ x := by
  induction l generalizing a with
  | nil => simp
  | cons b t ih =>
    simp only [List.foldl_cons, List.mem_cons, forall_eq_or_imp]
    obtain ⟨h1, h2⟩ := ih (min a b)
    exact ⟨h1.trans (min_le_left _ _), h1.trans (min_le_right _ _), h2⟩

theorem foldl_min_mem (l : List K) (a : K) : l.foldl min a = a ∨ l.foldl min a ∈ l := by
  induction l generalizing a with
  | nil => simp
  | cons b t ih =>
    simp only [List.foldl_cons, List.mem_cons]
    rcases ih (min a b) with h | h
    · rcases min_choice a b with h2 | h2
      · exact Or.inl (h.trans h2)
      · exact Or.inr (Or.inl (h.trans h2))
    · exact Or.inr (Or.inr h)

theorem matMin_le_getD (P_V : List K) (i : Nat) (hi : i < P_V.length) :
    matMin P_V ≤ P_V.getD i 0 := by
  cases P_V with
  | nil => simp at hi
  | cons a t =>
    simp only [matMin, List.tail_cons, List.headD_cons]
    cases i with
    | zero => simpa using (foldl_min_le t a).1
    | succ i =>
      simp only [List.length_cons, Nat.add_lt_add_iff_right] at hi
      simp only [List.getD_cons_succ]
      apply (foldl_min_le t a).2
      rw [List.getD_eq_getElem _ _ hi]
      exact List.getElem_mem hi

theorem matMin_mem (P_V : List K) (h : 0 < P_V.length) :
    ∃ i, i < P_V.length ∧ matMin P_V = P_V.getD i 0 := by
  cases P_V with
  | nil => simp at h
  | cons a t =>
    simp only [matMin, List.tail_cons, List.headD_cons]
    rcases foldl_min_mem t a with h1 | h1
    · exact ⟨0, by simp, by simpa using h1⟩
    · obtain ⟨i, hi, he⟩ := List.getElem_of_mem h1
      exact ⟨i + 1, by simpa using hi, by
        rw [List.getD_cons_succ, List.getD_eq_getElem _ _ hi, he]⟩

/-- The minimum does not grow when no item grows. -/
theorem matMin_mono (P Q : List K) (hlen : Q.length = P.length)
    (h : ∀ i, Q.getD i 0 ≤ P.getD i 0) : matMin Q ≤ matMin P := by
  by_cases h0 : 0 < P.length
  · obtain ⟨i, hi, he⟩ := matMin_mem P h0
    rw [he]
    exact (matMin_le_getD Q i (by omega)).trans (h i)
  · have hP : P = [] := List.length_eq_zero.mp (by omega)
    have hQ : Q = [] := List.length_eq_zero.mp (by omega)
    rw [hP, hQ]

/-! ### The initial population -/

theorem createInitialPopulation_shape (o : Oracle K σ) (env : σ) (XMIN XMAX : List K)
    (population_size dim : Nat) :
    (createInitialPopulation o env XMIN XMAX population_size dim).2.1.length = population_size ∧
      (createInitialPopulation o env XMIN XMAX population_size dim).2.2.length
        = population_size ∧
      ∀ i, i < population_size →
        ((createInitialPopulation o env XMIN XMAX population_size dim).2.1.getD i []).length
          = dim := by
  unfold createInitialPopulation
  generalize population_size = n at *
  suffices h : ∀ m (st : σ × List (List K) × List K),
      st.2.1.length = n ∧ st.2.2.length = n ∧ (∀ i, i < n → (st.2.1.getD i []).length = dim) →
      ((List.range m).foldl (initialStep o XMIN XMAX dim) st).2.1.length = n ∧
      ((List.range m).foldl (initialStep o XMIN XMAX dim) st).2.2.length = n ∧
      ∀ i, i < n →
        (((List.range m).foldl (initialStep o XMIN XMAX dim) st).2.1.getD i []).length = dim by
    apply h
    refine ⟨by simp, by simp, fun i hi => ?_⟩
    simp [List.getD_eq_getElem?_getD, List.getElem?_replicate, hi]
  intro m
  induction m with
  | zero => intro st h; simpa using h
  | succ m ih =>
    intro st h
    rw [List.range_succ, List.foldl_append]
    obtain ⟨h1, h2, h3⟩ := ih st h
    simp only [List.foldl_cons, List.foldl_nil, initialStep]
    refine ⟨by simpa using h1, by simpa using h2, fun i hi => ?_⟩
    rw [getD_set_rows]
    split
    · simp
    · exact h3 i hi

theorem initialState_shaped (o : Oracle K σ) (env : σ) (XMIN XMAX : List K)
    (population_size dim : Nat) (aver_res max_res : K) :
    Shaped population_size dim
      (initialState o env XMIN XMAX population_size dim aver_res max_res) := by
  obtain ⟨h1, h2, h3⟩ := createInitialPopulation_shape o env XMIN XMAX population_size dim
  exact ⟨h1, h1, h2, h2, h3, h3, fun _ => le_rfl⟩

/-! ### The whole run -/

/-- When `diffEvolution` returns a result, the returned cost is the minimum of the final
costs, no cost of the final population exceeds the initial one, and every property `E` of
the environment that calls of the objective on vectors inside the box preserve holds at the
end if it holds after the initial population. -/
theorem diffEvolution_returns (fuel : Nat) (o : Oracle K σ) (env : σ) (MAX_FLOAT : K)
    (XMIN XMAX : List K) (population_size : Nat) (epsilon : K) (max_gener : Nat)
    (aver_res max_res : K) (hk : KeepsLength o) (E : σ → Prop)
    (hE : ∀ s T, E s → T.length = XMIN.length → InBox XMIN XMAX XMIN.length T →
      E (o.function s T).1)
    (hE0 : E (createInitialPopulation o env XMIN XMAX population_size XMIN.length).1)
    (r : Result K σ)
    (h : diffEvolution fuel o env MAX_FLOAT XMIN XMAX population_size epsilon max_gener
      aver_res max_res = some (Except.ok r)) :
    r.cost = matMin r.final.P_V ∧
      (∀ i, r.final.P_V.getD i 0 ≤
        (createInitialPopulation o env XMIN XMAX population_size XMIN.length).2.2.getD i 0) ∧
      Shaped population_size XMIN.length r.final ∧ E r.final.env := by
  unfold diffEvolution at h
  simp only at h
  split_ifs at h with c1 c2 c3
  · cases h
  · cases h
  · cases h
  obtain ⟨st', h1, h2⟩ := (andThen_eq_ok _ _ _).mp h
  obtain ⟨hs, hE', hle, hm⟩ := mainLoop_returns fuel o MAX_FLOAT XMIN XMAX population_size
    XMIN.length epsilon hk E hE max_gener
    (initialState o env XMIN XMAX population_size XMIN.length aver_res max_res) st'
    (initialState_shaped o env XMIN XMAX population_size XMIN.length aver_res max_res)
    hE0 rfl h1
  by_cases har : o.argumentReturns (st'.P_A.getD st'.row_index_min []) = true
  · rw [if_pos har] at h2
    simp only [Option.some.injEq, Except.ok.injEq] at h2
    subst h2
    exact ⟨hm, hle, hs, hE'⟩
  · rw [if_neg har] at h2
    cases h2

/-- On input that passes the tests at the head of `diffEvolution`, with mutation steps and
assignments that return, the run terminates with a result. -/
theorem diffEvolution_converges [Archimedean K] (o : Oracle K σ) (env : σ) (MAX_FLOAT : K)
    (XMIN XMAX : List K) (population_size : Nat) (epsilon : K) (max_gener : Nat)
    (aver_res max_res : K) (hk : KeepsLength o) (hr : StepsReturn o)
    (hlen : XMIN.length = XMAX.length)
    (hdim : XMIN.length + 1 < 4294967296) (hpop : XMIN.length + 1 ≤ population_size)
    (hb : ∀ j, j < XMIN.length → XMIN.getD j 0 ≤ XMAX.getD j 0) :
    ∃ r, Converges (fun fuel => diffEvolution fuel o env MAX_FLOAT XMIN XMAX population_size
      epsilon max_gener aver_res max_res) (Except.ok r) := by
  obtain ⟨st', N, hN⟩ := mainLoop_converges o MAX_FLOAT XMIN XMAX
    population_size XMIN.length epsilon hk hr hb max_gener
    (initialState o env XMIN XMAX population_size XMIN.length aver_res max_res)
    (initialState_shaped o env XMIN XMAX population_size XMIN.length aver_res max_res)
  refine ⟨⟨st'.min_res, st'.P_A.getD st'.row_index_min [], st'⟩, N, fun fuel hfuel => ?_⟩
  have h1 : ¬ (XMIN.length ≠ XMAX.length) := not_not.mpr hlen
  have h2 : ¬ (population_size < (XMIN.length + 1) % 4294967296) := by
    rw [Nat.mod_eq_of_lt hdim]
    omega
  have h3 : ¬ ∃ i, i < XMIN.length ∧ XMIN.getD i 0 > XMAX.getD i 0 := by
    rintro ⟨i, hi, hgt⟩
    exact absurd hgt (not_lt.mpr (hb i hi))
  have h := hN fuel hfuel
  beta_reduce at h
  simp only [diffEvolution, if_neg h1, if_neg h2, if_neg h3, h, andThen, hr.2.2, if_true]

/-! ### Errors that leave the run -/

theorem exampleOracle_returns : StepsReturn exampleOracle :=
  ⟨fun _ _ _ P_V => ⟨P_V, 0, rfl⟩, fun _ _ => rfl, fun _ => rfl⟩

/-! ### Contract of the operators -/

/-- C5: reflection into the search space.  For bounds with `XMIN(j) ≤ XMAX(j)` for all
`j < dim` the loops of `reflection` terminate on every vector with `dim` columns, the
result satisfies `XMIN(j) ≤ V(j) ≤ XMAX(j)`, and `V(j) = XMIN(j)` where the bounds agree.
Consequently every vector that the loop body hands to the objective lies inside the box:
in every run of `diffEvolution` that returns, with an objective that records its arguments,
the record consists of the initial population followed by trial vectors inside the box.
The run returns on input that passes the tests when every mutation step and every
assignment outside a `try` returns. -/
theorem reflection_into_box [Archimedean K] (XMIN XMAX : List K) (dim : Nat)
    (hb : ∀ j, j < dim → XMIN.getD j 0 ≤ XMAX.getD j 0) :
    (∀ V : List K, dim ≤ V.length →
      ∃ V', Converges (fun fuel => reflection fuel XMIN XMAX dim V) V' ∧
        ∀ j, j < dim → XMIN.getD j 0 ≤ V'.getD j 0 ∧ V'.getD j 0 ≤ XMAX.getD j 0 ∧
          (XMIN.getD j 0 = XMAX.getD j 0 → V'.getD j 0 = XMIN.getD j 0)) ∧
    ∀ (σ : Type) (o : Oracle K σ),
      (∀ (fuel gener : Nat) (P_A : List (List K)) (P_V : List K) (i : Nat) (T : List K),
        trialVector fuel o XMIN XMAX dim gener P_A P_V i = some (Except.ok T) →
          InBox XMIN XMAX dim T) ∧
      ∀ (env : σ) (MAX_FLOAT : K) (population_size : Nat) (epsilon : K) (max_gener : Nat)
        (aver_res max_res : K),
        KeepsLength o → XMIN.length = dim → XMAX.length = dim →
        (∀ fuel r, diffEvolution fuel (logged o) (env, []) MAX_FLOAT XMIN XMAX
            population_size epsilon max_gener aver_res max_res = some (Except.ok r) →
          ∃ trials, r.final.env.2 =
            (createInitialPopulation (logged o) (env, []) XMIN XMAX population_size dim).1.2
              ++ trials ∧
            ∀ T, T ∈ trials → InBox XMIN XMAX dim T) ∧
        (StepsReturn o → dim + 1 < 4294967296 → dim + 1 ≤ population_size →
          ∃ r, Converges (fun fuel => diffEvolution fuel (logged o) (env, []) MAX_FLOAT
            XMIN XMAX population_size epsilon max_gener aver_res max_res) (Except.ok r)) := by
  constructor
  · intro V hV
    obtain ⟨V', hc, _, _, hbox⟩ := reflection_converges XMIN XMAX dim V hV hb
    refine ⟨V', hc, fun j hj => ⟨(hbox j hj).1, (hbox j hj).2, fun he => ?_⟩⟩
    exact le_antisymm ((hbox j hj).2.trans he.ge) (hbox j hj).1
  · intro σ o
    refine ⟨fun fuel gener P_A P_V i T h =>
      (trialVector_returns fuel o XMIN XMAX dim gener P_A P_V i T h).2, ?_⟩
    intro env MAX_FLOAT population_size epsilon max_gener aver_res max_res hk h1 h2
    subst h1
    constructor
    · intro fuel r h
      obtain ⟨_, _, _, trials, ht1, ht2⟩ := diffEvolution_returns fuel (logged o) (env, [])
        MAX_FLOAT XMIN XMAX population_size epsilon max_gener aver_res max_res
        (fun s V => hk s.1 V)
        (fun s => ∃ trials, s.2 =
          (createInitialPopulation (logged o) (env, []) XMIN XMAX population_size
            XMIN.length).1.2 ++ trials ∧ ∀ T, T ∈ trials → InBox XMIN XMAX XMIN.length T)
        (by
          rintro s T ⟨trials, ht1, ht2⟩ _ hT
          refine ⟨trials ++ [T], ?_, ?_⟩
          · show s.2 ++ [T] = _
            rw [ht1, List.append_assoc]
          · intro T' hT'
            rcases List.mem_append.mp hT' with h | h
            · exact ht2 T' h
            · rw [List.mem_singleton.mp h]
              exact hT)
        ⟨[], by simp, by simp⟩ r h
      exact ⟨trials, ht1, ht2⟩
    · intro hr h3 h4
      exact diffEvolution_converges (logged o) (env, []) MAX_FLOAT XMIN XMAX population_size
        epsilon max_gener aver_res max_res (fun s V => hk s.1 V) hr h2.symm h3 h4 hb

theorem reflection_into_box_witness :
    ∃ V', Converges (fun fuel => reflection (K := ℚ) fuel [0, 3] [1, 3] 2 [5 / 2, 7]) V' ∧
      ∀ j, j < 2 → ([0, 3] : List ℚ).getD j 0 ≤ V'.getD j 0 ∧
        V'.getD j 0 ≤ ([1, 3] : List ℚ).getD j 0 ∧
        (([0, 3] : List ℚ).getD j 0 = ([1, 3] : List ℚ).getD j 0 →
          V'.getD j 0 = ([0, 3] : List ℚ).getD j 0) :=
  (reflection_into_box (K := ℚ) [0, 3] [1, 3] 2 (by
    intro j hj
    interval_cases j <;> norm_num)).1 [5 / 2, 7] (by simp)

/-- C7: greedy selection.  The loop body leaves `Q` as it is whenever the cost of the trial
vector exceeds the stored cost `P_V(i)`; a generation that returns has raised neither a
stored cost nor the minimum of the population; and whenever the run returns, the returned
cost is not larger than the minimum cost of the initial population.  On input that passes
the tests the run returns when every mutation step and every assignment outside a `try`
returns. -/
theorem greedy_selection [Archimedean K] (o : Oracle K σ) (env : σ) (MAX_FLOAT : K)
    (XMIN XMAX : List K) (population_size : Nat) (epsilon : K) (max_gener : Nat)
    (aver_res max_res : K) (hk : KeepsLength o) :
    (∀ (st : State K σ) (i : Nat) (V : List K),
      st.P_V.getD i 0 < trialCost o MAX_FLOAT st.env V →
        (replacement o MAX_FLOAT st i V).Q_A = st.Q_A ∧
        (replacement o MAX_FLOAT st i V).Q_V = st.Q_V) ∧
    (∀ (fuel : Nat) (st st' : State K σ), Shaped population_size XMIN.length st →
      generation fuel o MAX_FLOAT XMIN XMAX population_size XMIN.length st =
        some (Except.ok st') →
      Shaped population_size XMIN.length st' ∧
        (∀ i, st'.P_V.getD i 0 ≤ st.P_V.getD i 0) ∧ matMin st'.P_V ≤ matMin st.P_V) ∧
    (∀ (fuel : Nat) (r : Result K σ),
      diffEvolution fuel o env MAX_FLOAT XMIN XMAX population_size epsilon max_gener
        aver_res max_res = some (Except.ok r) →
      r.cost ≤ matMin
        (createInitialPopulation o env XMIN XMAX population_size XMIN.length).2.2) ∧
    (StepsReturn o → XMIN.length = XMAX.length → XMIN.length + 1 < 4294967296 →
      XMIN.length + 1 ≤ population_size →
      (∀ j, j < XMIN.length → XMIN.getD j 0 ≤ XMAX.getD j 0) →
      ∃ r, Converges (fun fuel => diffEvolution fuel o env MAX_FLOAT XMIN XMAX
          population_size epsilon max_gener aver_res max_res) (Except.ok r) ∧
        r.cost ≤ matMin
          (createInitialPopulation o env XMIN XMAX population_size XMIN.length).2.2) := by
  have hret : ∀ (fuel : Nat) (r : Result K σ),
      diffEvolution fuel o env MAX_FLOAT XMIN XMAX population_size epsilon max_gener
        aver_res max_res = some (Except.ok r) →
      r.cost ≤ matMin
        (createInitialPopulation o env XMIN XMAX population_size XMIN.length).2.2 := by
    intro fuel r h
    obtain ⟨hcost, hle, hs, _⟩ := diffEvolution_returns fuel o env MAX_FLOAT XMIN XMAX
      population_size epsilon max_gener aver_res max_res hk (fun _ => True)
      (fun _ _ _ _ _ => trivial) trivial r h
    rw [hcost]
    exact matMin_mono _ _
      (hs.2.2.1.trans (createInitialPopulation_shape o env XMIN XMAX population_size
        XMIN.length).2.1.symm) hle
  refine ⟨?_, ?_, hret, ?_⟩
  · intro st i V h
    rw [replacement_eq, if_neg (not_le.mpr h)]
    exact ⟨rfl, rfl⟩
  · intro fuel st st' hs h
    obtain ⟨hs', _, hle, _, _, _⟩ := generation_returns fuel o MAX_FLOAT XMIN XMAX
      population_size XMIN.length hk (fun _ => True) (fun _ _ _ _ _ => trivial) st st' hs
      trivial h
    exact ⟨hs', hle, matMin_mono _ _ (hs'.2.2.1.trans hs.2.2.1.symm) hle⟩
  · intro hr hlen hdim hpop hb
    obtain ⟨r, N, hN⟩ := diffEvolution_converges o env MAX_FLOAT XMIN XMAX
      population_size epsilon max_gener aver_res max_res hk hr hlen hdim hpop hb
    exact ⟨r, ⟨N, hN⟩, hret N r (hN N le_rfl)⟩

theorem greedy_selection_witness :
    ∃ r, Converges (fun fuel => diffEvolution fuel exampleOracle () 1000 [0] [1] 8
          (1 / 100) 3 0 0) (Except.ok r) ∧
      r.cost ≤ matMin
        (createInitialPopulation exampleOracle () [0] [1] 8 ([0] : List ℚ).length).2.2 :=
  (greedy_selection exampleOracle () 1000 [0] [1] 8 (1 / 100) 3 0 0
    (fun _ _ => rfl)).2.2.2 exampleOracle_returns (by simp) (by simp) (by simp)
    (by
      intro j hj
      have : j = 0 := by simpa using hj
      subst this
      norm_num)

/-! ### Result of a run -/

/-- After a pass of the loop the stored minimum and its row index are those of the
population. -/
theorem generation_min (fuel : Nat) (o : Oracle K σ) (MAX_FLOAT : K) (XMIN XMAX : List K)
    (population_size dim : Nat) (st st1 : State K σ)
    (h : generation fuel o MAX_FLOAT XMIN XMAX population_size dim st =
      some (Except.ok st1)) :
    st1.min_res = matMin st1.P_V ∧ st1.row_index_min = matMinIndex st1.P_V := by
  unfold generation at h
  obtain ⟨st0, _, h2⟩ := (andThen_eq_ok _ _ _).mp h
  by_cases hav : o.averageReturns st0.gener st0.Q_A = true
  · rw [if_pos hav] at h2
    simp only [Option.some.injEq, Except.ok.injEq] at h2
    subst h2
    exact ⟨rfl, rfl⟩
  · rw [if_neg hav] at h2
    cases h2

/-- After at least one pass of the loop the returned minimum and row index are those of the
final population. -/
theorem mainLoop_min (fuel : Nat) (o : Oracle K σ) (MAX_FLOAT : K) (XMIN XMAX : List K)
    (population_size dim : Nat) (epsilon : K) (remaining : Nat) (st st1 : State K σ)
    (h : mainLoop fuel o MAX_FLOAT XMIN XMAX population_size dim epsilon (remaining + 1) st =
      some (Except.ok st1)) :
    st1.min_res = matMin st1.P_V ∧ st1.row_index_min = matMinIndex st1.P_V := by
  induction remaining generalizing st with
  | zero =>
    rw [mainLoop] at h
    obtain ⟨st2, hg, hb⟩ := (andThen_eq_ok _ _ _).mp h
    have hm := generation_min fuel o MAX_FLOAT XMIN XMAX population_size dim st st2 hg
    by_cases ht : terminal epsilon st2
    · rw [if_pos ht] at hb
      cases hb
      exact hm
    · rw [if_neg ht] at hb
      simp only [mainLoop, Option.some.injEq, Except.ok.injEq] at hb
      subst hb
      split
      · exact hm
      · exact hm
  | succ r ih =>
    rw [mainLoop] at h
    obtain ⟨st2, hg, hb⟩ := (andThen_eq_ok _ _ _).mp h
    have hm := generation_min fuel o MAX_FLOAT XMIN XMAX population_size dim st st2 hg
    by_cases ht : terminal epsilon st2
    · rw [if_pos ht] at hb
      cases hb
      exact hm
    · rw [if_neg ht] at hb
      exact ih _ hb

theorem exampleInitialPopulation :
    createInitialPopulation exampleOracle () [0] [1] 3 1 =
      ((), [[1 / 2], [1 / 3], [1 / 4]], [1 / 36, 0, 1 / 144]) := by
  norm_num [createInitialPopulation, initialStep, exampleOracle, List.range_succ,
    List.replicate]

/-- C20: with `max_gener = 0` the loop is not entered and `row_index_min` keeps its
initial value `0`.  For the cost `(x − 1/3)²` and the initial population `1/2, 1/3, 1/4`
with the stored costs `1/36, 0, 1/144` the returned cost is the minimum `0`, but the
returned `X` is row `0`, whose stored cost is `1/36`; the row with the cost `0` is
row `1`. -/
theorem zero_generations_result :
    (diffEvolution 0 exampleOracle () 1000000 [0] [1] 3 (1 / 1000) 0 0 0).map
        (Except.map (fun r => (r.cost, r.X, r.final.P_A, r.final.P_V))) =
      some (Except.ok (0, [1 / 2], [[1 / 2], [1 / 3], [1 / 4]], [1 / 36, 0, 1 / 144])) ∧
      matMin ([1 / 36, 0, 1 / 144] : List ℚ) = 0 ∧
      matMinIndex ([1 / 36, 0, 1 / 144] : List ℚ) = 1 := by
  have hi := exampleInitialPopulation
  refine ⟨?_, by norm_num [matMin], by norm_num [matMinIndex, matMin, List.indexOf_cons]⟩
  unfold diffEvolution
  simp only [List.length_singleton, ne_eq, not_true_eq_false, if_false]
  rw [if_neg (by norm_num), if_neg (by
    rintro ⟨i, hi, h⟩
    have : i = 0 := by omega
    subst this
    norm_num at h)]
  have ha : ∀ row, exampleOracle.argumentReturns row = true := fun _ => rfl
  simp only [mainLoop, andThen, initialState, hi, ha, if_true, Option.map_some', Except.map]
  norm_num [matMin]

/-! ### Invalid evaluations -/

/-- C21: the objective `exampleThrowing` throws on the first individual `(1/2)` of the
initial population and gives the cost `10/9` for the second one `(1/3)`.
`createInitialPopulation` stores the cost `0` for the invalid individual, not `MAX_FLOAT`
(here `1000000`), so the invalid individual is the minimum of the population although a
valid one exists; a run without generations returns it with the cost `0`.  For a trial
vector the same error gives the cost `MAX_FLOAT`. -/
theorem initial_error_cost_zero :
    createInitialPopulation exampleThrowing () [0] [1] 2 1 =
        ((), [[1 / 2], [1 / 3]], [0, 10 / 9]) ∧
      (exampleThrowing.function () [1 / 2]).2.2 = none ∧
      (exampleThrowing.function () [1 / 3]).2.2 = some (10 / 9) ∧
      matMin ([0, 10 / 9] : List ℚ) = 0 ∧ matMinIndex ([0, 10 / 9] : List ℚ) = 0 ∧
      (diffEvolution 0 exampleThrowing () 1000000 [0] [1] 2 (1 / 1000) 0 0 0).map
          (Except.map (fun r => (r.cost, r.X))) = some (Except.ok (0, [1 / 2])) ∧
      trialCost exampleThrowing 1000000 () [1 / 2] = 1000000 := by
  have hi : createInitialPopulation exampleThrowing () [0] [1] 2 1 =
      ((), [[1 / 2], [1 / 3]], [0, 10 / 9]) := by
    norm_num [createInitialPopulation, initialStep, exampleThrowing, List.range_succ,
      List.replicate]
  refine ⟨hi, ?_, ?_, ?_, ?_, ?_, ?_⟩
  · norm_num [exampleThrowing]
  · norm_num [exampleThrowing]
  · norm_num [matMin]
  · norm_num [matMinIndex, matMin]
  · unfold diffEvolution
    simp only [List.length_singleton, ne_eq, not_true_eq_false, if_false]
    rw [if_neg (by norm_num), if_neg (by
      rintro ⟨i, hi, h⟩
      have : i = 0 := by omega
      subst this
      norm_num at h)]
    have ha : ∀ row, exampleThrowing.argumentReturns row = true := fun _ => rfl
    simp only [mainLoop, andThen, initialState, hi, ha, if_true, Option.map_some',
      Except.map]
    norm_num [matMin]
  · norm_num [trialCost, exampleThrowing]

/-! ### Tests at the head of `diffEvolution` -/

theorem drawIndex_returns (rand : Nat → Nat) (population_size : Nat) (taken : List Nat) :
    ∀ (fuel k j k' : Nat), drawIndex rand population_size taken fuel k = some (j, k') →
      j ∉ taken ∧ (0 < population_size → j < population_size) := by
  intro fuel
  induction fuel with
  | zero =>
    intro k j k' h
    simp [drawIndex] at h
  | succ fuel ih =>
    intro k j k' h
    rw [drawIndex] at h
    split_ifs at h with hm
    · exact ih _ _ _ h
    · simp only [Option.some.injEq, Prod.mk.injEq] at h
      rw [← h.1]
      exact ⟨hm, fun hp => Nat.mod_lt _ hp⟩

/-- With at most three individuals the loops of `mutationStrategyDERand1` never exit,
whatever `rand()` returns: four different indices below `population_size` are needed. -/
theorem deRand1_never_exits (rand : Nat → Nat) (population_size i fuel : Nat)
    (h0 : 0 < population_size) (h3 : population_size ≤ 3) (hi : i < population_size) :
    drawDERand1 rand population_size i fuel = none := by
  cases h : drawDERand1 rand population_size i fuel with
  | none => rfl
  | some r =>
    exfalso
    unfold drawDERand1 at h
    obtain ⟨d1, h1, h⟩ := Option.bind_eq_some.mp h
    obtain ⟨d2, h2, h⟩ := Option.bind_eq_some.mp h
    obtain ⟨d3, h3', _⟩ := Option.map_eq_some'.mp h
    obtain ⟨n1, b1⟩ := drawIndex_returns rand population_size _ fuel _ d1.1 d1.2 h1
    obtain ⟨n2, b2⟩ := drawIndex_returns rand population_size _ fuel _ d2.1 d2.2 h2
    obtain ⟨n3, b3⟩ := drawIndex_returns rand population_size _ fuel _ d3.1 d3.2 h3'
    have c1 := b1 h0
    have c2 := b2 h0
    have c3 := b3 h0
    simp only [List.mem_cons, List.mem_singleton, List.not_mem_nil, or_false, not_or] at n1 n2 n3
    omega

end DifferentialEvolution

namespace FAnalyzeProjV4

open HelmertTransformation2D

variable {K : Type} [LinearOrderedField K]

/-! ### Projection loop -/

theorem projectStep_weights (m : Nat) (evaluate : Nat → Outcome K)
    (st : (Nat → Nat → K) × List (Point K)) (i r c : Nat) :
    (projectStep m evaluate st i).1 r c =
      if (evaluate i).isFailure ∧ r = c ∧ (r = i ∨ r = i + m) then 0 else st.1 r c := by
  unfold projectStep
  cases h : evaluate i with
  | ok x y => simp [Outcome.isFailure]
  | failedBeforeX =>
    simp only [Outcome.isFailure, setW, true_and]
    by_cases h1 : r = i + m ∧ c = i + m
    · simp [h1.1, h1.2]
    · by_cases h2 : r = i ∧ c = i
      · simp [h2.1, h2.2]
      · rw [if_neg h1, if_neg h2, if_neg]
        rintro ⟨hrc, hr | hr⟩
        · exact h2 ⟨hr, hrc ▸ hr⟩
        · exact h1 ⟨hr, hrc ▸ hr⟩
  | failedAtY x =>
    simp only [Outcome.isFailure, setW, true_and]
    by_cases h1 : r = i + m ∧ c = i + m
    · simp [h1.1, h1.2]
    · by_cases h2 : r = i ∧ c = i
      · simp [h2.1, h2.2]
      · rw [if_neg h1, if_neg h2, if_neg]
        rintro ⟨hrc, hr | hr⟩
        · exact h2 ⟨hr, hrc ▸ hr⟩
        · exact h1 ⟨hr, hrc ▸ hr⟩

/-- The weights after the first `n` passes of the projection loop. -/
theorem projectLoop_weights (m : Nat) (evaluate : Nat → Outcome K) (W : Nat → Nat → K)
    (n r c : Nat) :
    ((List.range n).foldl (projectStep m evaluate) (W, [])).1 r c =
      if r = c ∧ ∃ i, i < n ∧ (evaluate i).isFailure ∧ (r = i ∨ r = i + m) then 0
      else W r c := by
  induction n with
  | zero => simp
  | succ n ih =>
    rw [List.range_succ, List.foldl_append]
    simp only [List.foldl_cons, List.foldl_nil, projectStep_weights, ih]
    by_cases h1 : (evaluate n).isFailure ∧ r = c ∧ (r = n ∨ r = n + m)
    · rw [if_pos h1, if_pos ⟨h1.2.1, n, by omega, h1.1, h1.2.2⟩]
    · rw [if_neg h1]
      by_cases h2 : r = c ∧ ∃ i, i < n ∧ (evaluate i).isFailure ∧ (r = i ∨ r = i + m)
      · obtain ⟨hrc, i, hi, hf, hr⟩ := h2
        rw [if_pos ⟨hrc, i, hi, hf, hr⟩, if_pos ⟨hrc, i, by omega, hf, hr⟩]
      · rw [if_neg h2, if_neg]
        rintro ⟨hrc, i, hi, hf, hr⟩
        by_cases hin : i = n
        · subst hin
          exact h1 ⟨hf, hrc, hr⟩
        · exact h2 ⟨hrc, i, by omega, hf, hr⟩

theorem operator_W [FloorRing K] (aspect : TProjectionAspect) (nl_test : List (Point K))
    (n_reference : Nat) (proj : Projection K) (R_def : K)
    (evaluate : List K → Nat → Outcome K) (sample_indices : List Nat × List Nat)
    (X V : List K) (W : Nat → Nat → K) (compute_analysis : Bool) :
    (operator aspect nl_test n_reference proj R_def evaluate sample_indices X V W
        compute_analysis).W =
      (projectLoop nl_test.length
        (evaluate (operator aspect nl_test n_reference proj R_def evaluate sample_indices X V W
          compute_analysis).X)
        (weightsBeforeProjection sample_indices n_reference W compute_analysis)).1 := by
  cases compute_analysis <;> rfl

/-- C9: a point whose forward evaluation fails is disabled.  For every point `i < m` whose
evaluation under the sanitized parameters throws, after the call `W(i, i) = 0` and
`W(i + m, i + m) = 0`, so its share `V(i)² W(i, i) + V(i + m)² W(i + m, i + m)` of the cost
vanishes for every `V`; for a point whose evaluation succeeds both weights are the ones
that entered the projection loop. -/
theorem projection_failure_disables_point [FloorRing K] (aspect : TProjectionAspect)
    (nl_test : List (Point K)) (n_reference : Nat) (proj : Projection K) (R_def : K)
    (evaluate : List K → Nat → Outcome K) (sample_indices : List Nat × List Nat)
    (X V : List K) (W : Nat → Nat → K) (compute_analysis : Bool) (i : Nat)
    (hi : i < nl_test.length) :
    ((evaluate (operator aspect nl_test n_reference proj R_def evaluate sample_indices X V W
          compute_analysis).X i).isFailure →
      (operator aspect nl_test n_reference proj R_def evaluate sample_indices X V W
          compute_analysis).W i i = 0 ∧
      (operator aspect nl_test n_reference proj R_def evaluate sample_indices X V W
          compute_analysis).W (i + nl_test.length) (i + nl_test.length) = 0 ∧
      ∀ V' : List K,
        item V' i ^ 2 * (operator aspect nl_test n_reference proj R_def evaluate
            sample_indices X V W compute_analysis).W i i
          + item V' (i + nl_test.length) ^ 2 * (operator aspect nl_test n_reference proj R_def
            evaluate sample_indices X V W compute_analysis).W (i + nl_test.length)
              (i + nl_test.length) = 0) ∧
    (¬ (evaluate (operator aspect nl_test n_reference proj R_def evaluate sample_indices X V W
          compute_analysis).X i).isFailure →
      (operator aspect nl_test n_reference proj R_def evaluate sample_indices X V W
          compute_analysis).W i i
        = weightsBeforeProjection sample_indices n_reference W compute_analysis i i ∧
      (operator aspect nl_test n_reference proj R_def evaluate sample_indices X V W
          compute_analysis).W (i + nl_test.length) (i + nl_test.length)
        = weightsBeforeProjection sample_indices n_reference W compute_analysis
          (i + nl_test.length) (i + nl_test.length)) := by
  have key : ∀ r, (operator aspect nl_test n_reference proj R_def evaluate sample_indices X V W
      compute_analysis).W r r =
      if r = r ∧ ∃ j, j < nl_test.length ∧
        (evaluate (operator aspect nl_test n_reference proj R_def evaluate sample_indices X V W
          compute_analysis).X j).isFailure ∧ (r = j ∨ r = j + nl_test.length) then 0
      else weightsBeforeProjection sample_indices n_reference W compute_analysis r r := by
    intro r
    rw [operator_W]
    exact projectLoop_weights _ _ _ _ r r
  constructor
  · intro hf
    have h1 : (operator aspect nl_test n_reference proj R_def evaluate sample_indices X V W
        compute_analysis).W i i = 0 := by
      rw [key i, if_pos ⟨rfl, i, hi, hf, Or.inl rfl⟩]
    have h2 : (operator aspect nl_test n_reference proj R_def evaluate sample_indices X V W
        compute_analysis).W (i + nl_test.length) (i + nl_test.length) = 0 := by
      rw [key (i + nl_test.length), if_pos ⟨rfl, i, hi, hf, Or.inr rfl⟩]
    exact ⟨h1, h2, fun V' => by rw [h1, h2]; ring⟩
  · intro hf
    constructor
    · rw [key i, if_neg]
      rintro ⟨_, j, hj, hjf, hr | hr⟩
      · exact hf (hr ▸ hjf)
      · omega
    · rw [key (i + nl_test.length), if_neg]
      rintro ⟨_, j, hj, hjf, hr | hr⟩
      · omega
      · have : i = j := by omega
        exact hf (this ▸ hjf)

/-! ### Sanitizer -/

theorem fmod_bounds [FloorRing K] (x y : K) (hy : 0 < y) : -y < fmod x y ∧ fmod x y < y := by
  have hx : x = y * (x / y) := by field_simp
  unfold fmod
  split
  · have h1 := Int.floor_le (x / y)
    have h2 := Int.lt_floor_add_one (x / y)
    constructor
    · nlinarith
    · nlinarith
  · have h1 := Int.le_ceil (x / y)
    have h2 := Int.ceil_lt_add_one (x / y)
    constructor
    · nlinarith
    · nlinarith

theorem item_set (X : List K) (k j : Nat) (v : K) :
    item (X.set k v) j = if k = j ∧ k < X.length then v else item X j :=
  DifferentialEvolution.getD_set X k j v

theorem item_ite_set (c : Prop) [Decidable c] (X : List K) (k j : Nat) (v : K) :
    item (if c then X.set k v else X) j = if c ∧ k = j ∧ k < X.length then v else item X j := by
  by_cases h : c
  · simp [h, item_set]
  · simp [h]

theorem length_ite_set {α : Type} (c : Prop) [Decidable c] (X : List α) (k : Nat) (v : α) :
    (if c then X.set k v else X).length = X.length := by
  split <;> simp

/-- A value brought back by `fmod` when it exceeds the bound lies within the bound. -/
theorem wrapped_bounds [FloorRing K] (x b : K) (hb : 0 < b) :
    -b ≤ (if |x| > b then fmod x b else x) ∧ (if |x| > b then fmod x b else x) ≤ b := by
  split
  · exact ⟨(fmod_bounds x b hb).1.le, (fmod_bounds x b hb).2.le⟩
  · rename_i h
    exact abs_le.mp (not_lt.mp h)

theorem sanitizeNormal_lat0 [FloorRing K] (lat0_min lat0_max : K) (X : List K)
    (hX : X.length = 5) (h : lat0_min ≤ lat0_max) :
    lat0_min ≤ item (sanitizeNormal lat0_min lat0_max X) 2 ∧
      item (sanitizeNormal lat0_min lat0_max X) 2 ≤ lat0_max := by
  simp only [sanitizeNormal, item_ite_set, length_ite_set, hX]
  simp only [Nat.reduceEqDiff, Nat.reduceLT, and_true, and_false, false_and, if_false]
  split_ifs <;> constructor <;> linarith

theorem sanitizeNormal_pole [FloorRing K] (lat0_min lat0_max : K) (X : List K) :
    item (sanitizeNormal lat0_min lat0_max X) 0 = item X 0 ∧
      item (sanitizeNormal lat0_min lat0_max X) 1 = item X 1 := by
  simp [sanitizeNormal, item_ite_set, length_ite_set]

theorem sanitizeTransverse_lat0 [FloorRing K] (lat0_min lat0_max : K) (X : List K)
    (hX : X.length = 5) (h : lat0_min ≤ lat0_max) :
    lat0_min ≤ item (sanitizeTransverse lat0_min lat0_max X) 2 ∧
      item (sanitizeTransverse lat0_min lat0_max X) 2 ≤ lat0_max := by
  simp only [sanitizeTransverse, item_ite_set, length_ite_set, hX]
  simp only [Nat.reduceEqDiff, Nat.reduceLT, and_true, and_false, false_and, if_false]
  split_ifs <;> constructor <;> linarith

theorem sanitizeTransverse_pole [FloorRing K] (lat0_min lat0_max : K) (X : List K)
    (hX : X.length = 5) :
    item (sanitizeTransverse lat0_min lat0_max X) 0 = item X 0 ∧
      -180 ≤ item (sanitizeTransverse lat0_min lat0_max X) 1 ∧
      item (sanitizeTransverse lat0_min lat0_max X) 1 ≤ 180 := by
  have b1 := wrapped_bounds (item X 1) 180 (by norm_num)
  simp only [sanitizeTransverse, item_ite_set, length_ite_set, hX, MAX_LON]
  simp only [Nat.reduceEqDiff, Nat.reduceLT, and_true, and_false, false_and, if_false,
    OfNat.zero_ne_ofNat, OfNat.ofNat_ne_zero, true_and]
  exact b1

theorem item_ite_set_ne (c : Prop) [Decidable c] (X : List K) (k j : Nat) (v : K)
    (h : k ≠ j) : item (if c then X.set k v else X) j = item X j := by
  rw [item_ite_set, if_neg (fun h2 => h h2.2.1)]

theorem item_ite_set_self (c : Prop) [Decidable c] (X : List K) (k : Nat) (v : K)
    (h : k < X.length) : item (if c then X.set k v else X) k = if c then v else item X k := by
  rw [item_ite_set]
  simp [h]

theorem sanitizeOblique_bounds [FloorRing K] (lat0_min lat0_max : K) (X : List K)
    (hX : X.length = 5) :
    (-90 ≤ item (sanitizeOblique lat0_min lat0_max X) 0 ∧
      item (sanitizeOblique lat0_min lat0_max X) 0 ≤ 90) ∧
    (-180 ≤ item (sanitizeOblique lat0_min lat0_max X) 1 ∧
      item (sanitizeOblique lat0_min lat0_max X) 1 ≤ 180) ∧
    (lat0_min ≤ lat0_max → lat0_min ≤ item (sanitizeOblique lat0_min lat0_max X) 2 ∧
      item (sanitizeOblique lat0_min lat0_max X) 2 ≤ lat0_max) := by
  have e0 : (0.5 : K) = 1 / 2 := by norm_num
  have e1 : (90.0 : K) = 90 := by norm_num
  have e2 : (0.0 : K) = 0 := by norm_num
  have e3 : (1.0 : K) = 1 := by norm_num
  unfold sanitizeOblique
  lift_lets
  intro X1 X2 X3 X4 X5 X6 X7 X8
  -- latp and lonp after the periods were subtracted
  have l1 : X1.length = 5 := by rw [length_ite_set, hX]
  have a1 : -90 ≤ item X1 0 ∧ item X1 0 ≤ 90 := by
    rw [item_ite_set_self _ _ _ _ (by omega)]
    exact wrapped_bounds (item X 0) 90 (by norm_num)
  clear_value X1
  have l2 : X2.length = 5 := by rw [length_ite_set, l1]
  have a2 : -90 ≤ item X2 0 ∧ item X2 0 ≤ 90 := by
    rw [item_ite_set_ne _ _ _ _ _ (by decide)]
    exact a1
  have b2 : -180 ≤ item X2 1 ∧ item X2 1 ≤ 180 := by
    rw [item_ite_set_self _ _ _ _ (by omega)]
    exact wrapped_bounds (item X1 1) 180 (by norm_num)
  clear_value X2
  have l3 : X3.length = 5 := by rw [length_ite_set, l2]
  have a3 : -90 ≤ item X3 0 ∧ item X3 0 ≤ 90 := by
    rw [item_ite_set_ne _ _ _ _ _ (by decide)]
    exact a2
  have b3 : -180 ≤ item X3 1 ∧ item X3 1 ≤ 180 := by
    rw [item_ite_set_ne _ _ _ _ _ (by decide)]
    exact b2
  clear_value X3
  -- lat0 inside the interval
  have l4 : X4.length = 5 := by rw [length_ite_set, l3]
  have a4 : -90 ≤ item X4 0 ∧ item X4 0 ≤ 90 := by
    rw [item_ite_set_ne _ _ _ _ _ (by decide)]
    exact a3
  have b4 : -180 ≤ item X4 1 ∧ item X4 1 ≤ 180 := by
    rw [item_ite_set_ne _ _ _ _ _ (by decide)]
    exact b3
  have c4 : lat0_min ≤ lat0_max → lat0_min ≤ item X4 2 ∧ item X4 2 ≤ lat0_max := by
    intro h
    rw [item_ite_set_self _ _ _ _ (by omega), e0]
    split
    · constructor <;> linarith
    · rename_i hc
      exact ⟨not_lt.mp (fun h2 => hc (Or.inl h2)), not_lt.mp (fun h2 => hc (Or.inr h2))⟩
  clear_value X4
  -- lonp set to zero
  have l5 : X5.length = 5 := by rw [length_ite_set, l4]
  have a5 : -90 ≤ item X5 0 ∧ item X5 0 ≤ 90 := by
    rw [item_ite_set_ne _ _ _ _ _ (by decide)]
    exact a4
  have b5 : -180 ≤ item X5 1 ∧ item X5 1 ≤ 180 := by
    rw [item_ite_set_self _ _ _ _ (by omega), e2]
    split
    · constructor <;> norm_num
    · exact b4
  have c5 : item X5 2 = item X4 2 := item_ite_set_ne _ _ _ _ _ (by decide)
  clear_value X5
  -- latp set to 90
  have l6 : X6.length = 5 := by
    show (if _ then _ else _ : List K).length = 5
    split
    · simp [l5]
    · exact l5
  have a6 : -90 ≤ item X6 0 ∧ item X6 0 ≤ 90 := by
    show -90 ≤ item (if _ then _ else _ : List K) 0 ∧ item (if _ then _ else _ : List K) 0 ≤ 90
    split
    · rw [item_set, item_set, e1]
      simp only [l5]
      norm_num
    · exact a5
  have b6 : -180 ≤ item X6 1 ∧ item X6 1 ≤ 180 := by
    show -180 ≤ item (if _ then _ else _ : List K) 1 ∧ item (if _ then _ else _ : List K) 1 ≤ 180
    split
    · rw [item_set, e2]
      simp only [List.length_set, l5]
      norm_num
    · exact b5
  have c6 : item X6 2 = item X5 2 := by
    show item (if _ then _ else _ : List K) 2 = _
    split
    · rw [item_set, item_set]
      simp
    · rfl
  clear_value X6
  have a7 : item X7 0 = item X6 0 := item_ite_set_ne _ _ _ _ _ (by decide)
  have b7 : item X7 1 = item X6 1 := item_ite_set_ne _ _ _ _ _ (by decide)
  have c7 : item X7 2 = item X6 2 := item_ite_set_ne _ _ _ _ _ (by decide)
  clear_value X7
  have a8 : item X8 0 = item X7 0 := by rw [item_set]; simp
  have b8 : item X8 1 = item X7 1 := by rw [item_set]; simp
  have c8 : item X8 2 = item X7 2 := by rw [item_set]; simp
  rw [a8, a7, b8, b7, c8, c7, c6, c5]
  exact ⟨a6, b6, c4⟩

theorem operator_proj [FloorRing K] (aspect : TProjectionAspect) (nl_test : List (Point K))
    (n_reference : Nat) (proj : Projection K) (R_def : K)
    (evaluate : List K → Nat → Outcome K) (sample_indices : List Nat × List Nat)
    (X V : List K) (W : Nat → Nat → K) (compute_analysis : Bool) :
    (operator aspect nl_test n_reference proj R_def evaluate sample_indices X V W
        compute_analysis).proj =
      setProperties proj R_def
        (sanitize aspect proj.lat0_interval.min_val proj.lat0_interval.max_val X) := rfl

/-! ### Evaluation on the example data -/

theorem exampleEvaluate_projectLoop :
    projectLoop 4 exampleEvaluate unitWeights =
      (setW (setW unitWeights 0 0 0) 4 4 0, [⟨0, 0⟩, ⟨1, 0⟩, ⟨0, 2⟩, ⟨2, 5⟩]) := by
  norm_num [projectLoop, projectStep, exampleEvaluate, List.range_succ]

theorem exampleOperator :
    operator TProjectionAspect.NormalAspect exampleTest 4 exampleProjection 1
        (fun _ => exampleEvaluate) ([], []) [90, 0, 0, 0, 0] (List.replicate 8 0) unitWeights
        false =
      { X := sanitize TProjectionAspect.NormalAspect (-90) 90 [90, 0, 0, 0, 0]
        W := setW (setW unitWeights 0 0 0) 4 4 0
        proj := setProperties exampleProjection 1
          (sanitize TProjectionAspect.NormalAspect (-90) 90 [90, 0, 0, 0, 0])
        nl_projected_temp := [⟨0, 0⟩, ⟨1, 0⟩, ⟨0, 2⟩, ⟨2, 5⟩]
        residuals := Except.ok (computeResiduals exampleTest [⟨0, 0⟩, ⟨1, 0⟩, ⟨0, 2⟩, ⟨2, 5⟩]
          (setW (setW unitWeights 0 0 0) 4 4 0) (List.replicate 8 0)) } := by
  have hK : getTransformKey exampleTest [(⟨0, 0⟩ : Point ℚ), ⟨1, 0⟩, ⟨0, 2⟩, ⟨2, 5⟩]
      = Except.ok (specKey exampleTest [⟨0, 0⟩, ⟨1, 0⟩, ⟨0, 2⟩, ⟨2, 5⟩]
          (List.replicate exampleTest.length 1) exampleTest.length) :=
    getTransformKey_of_not_coincide _ _ (by simp [exampleTest]) (by simp [exampleTest])
      (fun h => by
        have := h 0 1 (by simp [exampleTest]) (by simp [exampleTest])
        simp [pt] at this)
  simp only [operator, Bool.false_eq_true, if_false]
  rw [show exampleTest.length = 4 from rfl, exampleEvaluate_projectLoop]
  simp only [hK]
  rfl

/-- C8: on the example data (point `0` fails, the other three points keep the weight `1`)
the functor forms `V` with `(q1, q2) = (49/59, −5/59)`, while the weighted
`getTransformKey` for the same observed points, projected points and weights `W(i, i)`
yields `(c1, c2) = (10/11, −2/11)`: the sums of the functor run over the first
`n_points = 3` indices and miss the last enabled point. -/
theorem ratios_on_example :
    ((operator TProjectionAspect.NormalAspect exampleTest 4 exampleProjection 1
        (fun _ => exampleEvaluate) ([], []) [90, 0, 0, 0, 0] (List.replicate 8 0) unitWeights
        false).residuals.map (fun r => (r.q1, r.q2)) = Except.ok (49 / 59, -5 / 59)) ∧
      (getTransformKeyW exampleTest
        (operator TProjectionAspect.NormalAspect exampleTest 4 exampleProjection 1
          (fun _ => exampleEvaluate) ([], []) [90, 0, 0, 0, 0] (List.replicate 8 0) unitWeights
          false).nl_projected_temp
        ((List.range 4).map (fun i =>
          (operator TProjectionAspect.NormalAspect exampleTest 4 exampleProjection 1
            (fun _ => exampleEvaluate) ([], []) [90, 0, 0, 0, 0] (List.replicate 8 0) unitWeights
            false).W i i))).map (fun key => (key.c1, key.c2)) = Except.ok (10 / 11, -2 / 11) := by
  rw [exampleOperator]
  constructor
  · norm_num [computeResiduals, massStep, scaleStep, residualStep, List.range_succ, setW,
      unitWeights, pt, exampleTest, Except.map]
  · norm_num [getTransformKeyW, List.range_succ, sumsStep, coeffsStep, pt, wt, exampleTest,
      setW, unitWeights, Except.map]

theorem projection_failure_disables_point_witness :
    (operator TProjectionAspect.NormalAspect exampleTest 4 exampleProjection 1
        (fun _ => exampleEvaluate) ([], []) [90, 0, 0, 0, 0] (List.replicate 8 0) unitWeights
        false).W 0 0 = 0 ∧
      (operator TProjectionAspect.NormalAspect exampleTest 4 exampleProjection 1
        (fun _ => exampleEvaluate) ([], []) [90, 0, 0, 0, 0] (List.replicate 8 0) unitWeights
        false).W (0 + exampleTest.length) (0 + exampleTest.length) = 0 ∧
      ∀ V' : List ℚ,
        item V' 0 ^ 2 * (operator TProjectionAspect.NormalAspect exampleTest 4
            exampleProjection 1 (fun _ => exampleEvaluate) ([], []) [90, 0, 0, 0, 0]
            (List.replicate 8 0) unitWeights false).W 0 0
          + item V' (0 + exampleTest.length) ^ 2 * (operator TProjectionAspect.NormalAspect
            exampleTest 4 exampleProjection 1 (fun _ => exampleEvaluate) ([], [])
            [90, 0, 0, 0, 0] (List.replicate 8 0) unitWeights false).W
              (0 + exampleTest.length) (0 + exampleTest.length) = 0 :=
  (projection_failure_disables_point TProjectionAspect.NormalAspect exampleTest 4
    exampleProjection 1 (fun _ => exampleEvaluate) ([], []) [90, 0, 0, 0, 0]
    (List.replicate 8 0) unitWeights false 0 (by simp [exampleTest])).1 rfl

/-! ### Contract of the sanitizer -/

/-- C10, as the code has it: for a parameter vector with five items and
`lat0_min ≤ lat0_max` the `lat0` written to the projection lies in the declared
`lat0`-interval in every aspect; the written `latp` lies in `[−90, 90]` in the oblique
aspect and the written `lonp` in `[−180, 180]` in the transverse and the oblique aspect.
The declared `latp`- and `lonp`-intervals are not read: `latp`, `lonp` of the normal aspect
and `latp` of the transverse aspect are written as they were passed. -/
theorem sanitizer_intervals [FloorRing K] (aspect : TProjectionAspect)
    (nl_test : List (Point K)) (n_reference : Nat) (proj : Projection K) (R_def : K)
    (evaluate : List K → Nat → Outcome K) (sample_indices : List Nat × List Nat)
    (X V : List K) (W : Nat → Nat → K) (compute_analysis : Bool) (hX : X.length = 5)
    (h0 : proj.lat0_interval.min_val ≤ proj.lat0_interval.max_val) :
    (proj.lat0_interval.min_val ≤ (operator aspect nl_test n_reference proj R_def evaluate
        sample_indices X V W compute_analysis).proj.lat0 ∧
      (operator aspect nl_test n_reference proj R_def evaluate sample_indices X V W
        compute_analysis).proj.lat0 ≤ proj.lat0_interval.max_val) ∧
    (aspect = TProjectionAspect.ObliqueAspect →
      -90 ≤ (operator aspect nl_test n_reference proj R_def evaluate sample_indices X V W
        compute_analysis).proj.latp ∧
      (operator aspect nl_test n_reference proj R_def evaluate sample_indices X V W
        compute_analysis).proj.latp ≤ 90) ∧
    (aspect ≠ TProjectionAspect.NormalAspect →
      -180 ≤ (operator aspect nl_test n_reference proj R_def evaluate sample_indices X V W
        compute_analysis).proj.lonp ∧
      (operator aspect nl_test n_reference proj R_def evaluate sample_indices X V W
        compute_analysis).proj.lonp ≤ 180) ∧
    (aspect = TProjectionAspect.NormalAspect →
      (operator aspect nl_test n_reference proj R_def evaluate sample_indices X V W
        compute_analysis).proj.latp = item X 0 ∧
      (operator aspect nl_test n_reference proj R_def evaluate sample_indices X V W
        compute_analysis).proj.lonp = item X 1) ∧
    (aspect = TProjectionAspect.TransverseAspect →
      (operator aspect nl_test n_reference proj R_def evaluate sample_indices X V W
        compute_analysis).proj.latp = item X 0) := by
  rw [operator_proj]
  simp only [setProperties]
  cases aspect with
  | NormalAspect =>
    exact ⟨sanitizeNormal_lat0 _ _ X hX h0, (fun h => by cases h), (fun h => absurd rfl h),
      (fun _ => sanitizeNormal_pole _ _ X), (fun h => by cases h)⟩
  | TransverseAspect =>
    exact ⟨sanitizeTransverse_lat0 _ _ X hX h0, (fun h => by cases h),
      (fun _ => (sanitizeTransverse_pole _ _ X hX).2), (fun h => by cases h),
      (fun _ => (sanitizeTransverse_pole _ _ X hX).1)⟩
  | ObliqueAspect =>
    exact ⟨(sanitizeOblique_bounds _ _ X hX).2.2 h0,
      (fun _ => (sanitizeOblique_bounds _ _ X hX).1),
      (fun _ => (sanitizeOblique_bounds _ _ X hX).2.1), (fun h => by cases h),
      (fun h => by cases h)⟩

theorem sanitizer_intervals_witness :
    exampleProjection.lat0_interval.min_val ≤
        (operator TProjectionAspect.ObliqueAspect exampleTest 4 exampleProjection 1
          (fun _ => exampleEvaluate) ([], []) [100, 200, 300, 400, 5] (List.replicate 8 0)
          unitWeights false).proj.lat0 ∧
      (operator TProjectionAspect.ObliqueAspect exampleTest 4 exampleProjection 1
          (fun _ => exampleEvaluate) ([], []) [100, 200, 300, 400, 5] (List.replicate 8 0)
          unitWeights false).proj.lat0 ≤ exampleProjection.lat0_interval.max_val :=
  (sanitizer_intervals TProjectionAspect.ObliqueAspect exampleTest 4 exampleProjection 1
    (fun _ => exampleEvaluate) ([], []) [100, 200, 300, 400, 5] (List.replicate 8 0)
    unitWeights false (by simp) (by norm_num [exampleProjection])).1

/-- C10, as stated, fails: in the normal aspect the parameters `X = (1000, 0, 0, 0, 0)` are
written with `latp = 1000`, outside the declared `latp`-interval `[−90, 90]`. -/
theorem sanitizer_normal_latp_outside :
    (operator TProjectionAspect.NormalAspect exampleTest 4 exampleProjection 1
        (fun _ => exampleEvaluate) ([], []) [1000, 0, 0, 0, 0] (List.replicate 8 0)
        unitWeights false).proj.latp = 1000 ∧
      ¬ (exampleProjection.latp_interval.min_val ≤
          (operator TProjectionAspect.NormalAspect exampleTest 4 exampleProjection 1
            (fun _ => exampleEvaluate) ([], []) [1000, 0, 0, 0, 0] (List.replicate 8 0)
            unitWeights false).proj.latp ∧
        (operator TProjectionAspect.NormalAspect exampleTest 4 exampleProjection 1
            (fun _ => exampleEvaluate) ([], []) [1000, 0, 0, 0, 0] (List.replicate 8 0)
            unitWeights false).proj.latp ≤ exampleProjection.latp_interval.max_val) := by
  have h : (operator TProjectionAspect.NormalAspect exampleTest 4 exampleProjection 1
      (fun _ => exampleEvaluate) ([], []) [1000, 0, 0, 0, 0] (List.replicate 8 0)
      unitWeights false).proj.latp = 1000 := by
    rw [operator_proj]
    show item (sanitizeNormal (K := ℚ) (-90) 90 [1000, 0, 0, 0, 0]) 0 = 1000
    rw [(sanitizeNormal_pole (K := ℚ) _ _ [1000, 0, 0, 0, 0]).1]
    rfl
  rw [h]
  exact ⟨rfl, by norm_num [exampleProjection]⟩

/-! ### Pole written to the projection -/

theorem sanitizeTransverse_latp [FloorRing K] (lat0_min lat0_max : K) (X : List K) :
    item (sanitizeTransverse lat0_min lat0_max X) 0 = item X 0 := by
  simp [sanitizeTransverse, item_ite_set, length_ite_set]

/-- C11, as the code has it: the sanitizer does not touch the pole of the normal aspect and
the `latp` of the transverse aspect.  For every `X` the pole written to the projection is
`(latp, lonp) = (X0, X1)` as passed in when the aspect is normal, and has `latp = X0` as
passed in when the aspect is transverse. -/
theorem pole_written_as_passed [FloorRing K] (aspect : TProjectionAspect)
    (nl_test : List (Point K)) (n_reference : Nat) (proj : Projection K) (R_def : K)
    (evaluate : List K → Nat → Outcome K) (sample_indices : List Nat × List Nat)
    (X V : List K) (W : Nat → Nat → K) (compute_analysis : Bool) :
    (aspect = TProjectionAspect.NormalAspect →
      (operator aspect nl_test n_reference proj R_def evaluate sample_indices X V W
        compute_analysis).proj.latp = item X 0 ∧
      (operator aspect nl_test n_reference proj R_def evaluate sample_indices X V W
        compute_analysis).proj.lonp = item X 1) ∧
    (aspect = TProjectionAspect.TransverseAspect →
      (operator aspect nl_test n_reference proj R_def evaluate sample_indices X V W
        compute_analysis).proj.latp = item X 0) := by
  rw [operator_proj]
  simp only [setProperties]
  constructor
  · intro h
    subst h
    exact sanitizeNormal_pole _ _ X
  · intro h
    subst h
    exact sanitizeTransverse_latp _ _ X

theorem pole_written_as_passed_witness :
    (operator TProjectionAspect.NormalAspect exampleTest 4 exampleProjection 1
        (fun _ => exampleEvaluate) ([], []) [45, 10, 0, 0, 0] (List.replicate 8 0)
        unitWeights false).proj.latp = item [45, 10, 0, 0, 0] 0 ∧
      (operator TProjectionAspect.NormalAspect exampleTest 4 exampleProjection 1
        (fun _ => exampleEvaluate) ([], []) [45, 10, 0, 0, 0] (List.replicate 8 0)
        unitWeights false).proj.lonp = item [45, 10, 0, 0, 0] 1 :=
  (pole_written_as_passed TProjectionAspect.NormalAspect exampleTest 4 exampleProjection 1
    (fun _ => exampleEvaluate) ([], []) [45, 10, 0, 0, 0] (List.replicate 8 0)
    unitWeights false).1 rfl

/-- C11, as stated, fails: in the normal aspect `X = (45, 10, 0, 0, 0)` is written with the
pole `(45, 10)`, not `(90, 0)`, and in the transverse aspect with `latp = 45`, not `0`. -/
theorem pole_not_forced :
    ((operator TProjectionAspect.NormalAspect exampleTest 4 exampleProjection 1
        (fun _ => exampleEvaluate) ([], []) [45, 10, 0, 0, 0] (List.replicate 8 0)
        unitWeights false).proj.latp ≠ 90 ∨
      (operator TProjectionAspect.NormalAspect exampleTest 4 exampleProjection 1
        (fun _ => exampleEvaluate) ([], []) [45, 10, 0, 0, 0] (List.replicate 8 0)
        unitWeights false).proj.lonp ≠ 0) ∧
    (operator TProjectionAspect.TransverseAspect exampleTest 4 exampleProjection 1
        (fun _ => exampleEvaluate) ([], []) [45, 10, 0, 0, 0] (List.replicate 8 0)
        unitWeights false).proj.latp ≠ 0 := by
  constructor
  · left
    rw [operator_proj]
    show item (sanitizeNormal (K := ℚ) (-90) 90 [45, 10, 0, 0, 0]) 0 ≠ 90
    rw [(sanitizeNormal_pole (K := ℚ) (-90) 90 [45, 10, 0, 0, 0]).1]
    norm_num [item]
  · rw [operator_proj]
    show item (sanitizeTransverse (K := ℚ) (-90) 90 [45, 10, 0, 0, 0]) 0 ≠ 0
    rw [sanitizeTransverse_latp (K := ℚ) (-90) 90 [45, 10, 0, 0, 0]]
    norm_num [item]

/-! ### The sanitized `lon0` and `lat0` -/

theorem fmod_eq_of_floor [FloorRing K] (x y : K) (n : ℤ) (h0 : 0 ≤ x / y)
    (h1 : (n : K) ≤ x / y) (h2 : x / y < n + 1) : fmod x y = x - y * n := by
  unfold fmod
  rw [if_pos h0, Int.floor_eq_iff.mpr ⟨h1, h2⟩]

/-- The value of `lon0` after the branch of the normal aspect. -/
theorem sanitizeNormal_lon0 [FloorRing K] (lat0_min lat0_max : K) (X : List K)
    (hX : X.length = 5) :
    item (sanitizeNormal lat0_min lat0_max X) 3 =
      if |item X 3| > 180 then fmod (item X 3) 180 else item X 3 := by
  simp only [sanitizeNormal, item_ite_set, length_ite_set, hX, MAX_LON]
  simp only [Nat.reduceEqDiff, Nat.reduceLT, and_true, and_false, false_and, if_false]

/-- The value of `lon0` after the branch of the transverse aspect: the remainder is taken
of `X(1, 0)`, the `lonp` after its own period was subtracted. -/
theorem sanitizeTransverse_lon0 [FloorRing K] (lat0_min lat0_max : K) (X : List K)
    (hX : X.length = 5) :
    item (sanitizeTransverse lat0_min lat0_max X) 3 =
      if |item X 3| > 180 then
        fmod (if |item X 1| > 180 then fmod (item X 1) 180 else item X 1) 180
      else item X 3 := by
  simp only [sanitizeTransverse, item_ite_set, length_ite_set, hX, MAX_LON]
  simp only [Nat.reduceEqDiff, Nat.reduceLT, and_true, and_false, false_and, if_false]

/-- C24: in the transverse aspect the statement "Set lon0" reads
`X(3, 0) = fmod(X(1, 0), 180)`.  For `lon0 = 200` the written `lon0` is `10` when
`lonp = 10` and `30` when `lonp = 30`, whereas `fmod(200, 180) = 20`: the sanitized `lon0`
depends on `lonp` and not on the input `lon0`. -/
theorem transverse_lon0_from_lonp :
    (operator TProjectionAspect.TransverseAspect exampleTest 4 exampleProjection 1
        (fun _ => exampleEvaluate) ([], []) [0, 10, 0, 200, 0] (List.replicate 8 0)
        unitWeights false).proj.lon0 = 10 ∧
      (operator TProjectionAspect.TransverseAspect exampleTest 4 exampleProjection 1
        (fun _ => exampleEvaluate) ([], []) [0, 30, 0, 200, 0] (List.replicate 8 0)
        unitWeights false).proj.lon0 = 30 ∧
      fmod (200 : ℚ) 180 = 20 := by
  have f10 : fmod (10 : ℚ) 180 = 10 := by
    rw [fmod_eq_of_floor 10 180 0 (by norm_num) (by norm_num) (by norm_num)]
    norm_num
  have f30 : fmod (30 : ℚ) 180 = 30 := by
    rw [fmod_eq_of_floor 30 180 0 (by norm_num) (by norm_num) (by norm_num)]
    norm_num
  have f200 : fmod (200 : ℚ) 180 = 20 := by
    rw [fmod_eq_of_floor 200 180 1 (by norm_num) (by norm_num) (by norm_num)]
    norm_num
  refine ⟨?_, ?_, f200⟩
  · rw [operator_proj]
    show item (sanitizeTransverse (K := ℚ) (-90) 90 [0, 10, 0, 200, 0]) 3 = 10
    rw [sanitizeTransverse_lon0 _ _ _ (by simp)]
    norm_num [item, f10]
  · rw [operator_proj]
    show item (sanitizeTransverse (K := ℚ) (-90) 90 [0, 30, 0, 200, 0]) 3 = 30
    rw [sanitizeTransverse_lon0 _ _ _ (by simp)]
    norm_num [item, f30]

/-- The value of `lat0` after the branch of the normal aspect. -/
theorem sanitizeNormal_lat0_eq [FloorRing K] (lat0_min lat0_max : K) (X : List K)
    (hX : X.length = 5) (h : lat0_min ≤ lat0_max) :
    item (sanitizeNormal lat0_min lat0_max X) 2 =
      min lat0_max (max lat0_min (if |item X 2| > 90 then fmod (item X 2) 90 else item X 2)) := by
  simp only [sanitizeNormal, item_ite_set, length_ite_set, hX, MAX_LAT]
  simp only [Nat.reduceEqDiff, Nat.reduceLT, and_true, and_false, false_and, if_false]
  generalize (if |item X 2| > 90 then fmod (item X 2) 90 else item X 2) = v
  by_cases h1 : v < lat0_min
  · rw [if_pos h1, if_neg (by linarith), max_eq_left h1.le, min_eq_right h]
  · rw [if_neg h1, max_eq_right (not_lt.mp h1)]
    by_cases h2 : v > lat0_max
    · rw [if_pos h2, min_eq_left h2.le]
    · rw [if_neg h2, min_eq_right (not_lt.mp h2)]

/-- The value of `lat0` after the branch of the transverse aspect. -/
theorem sanitizeTransverse_lat0_eq [FloorRing K] (lat0_min lat0_max : K) (X : List K)
    (hX : X.length = 5) (h : lat0_min ≤ lat0_max) :
    item (sanitizeTransverse lat0_min lat0_max X) 2 =
      min lat0_max (max lat0_min (if |item X 2| > 90 then fmod (item X 2) 90 else item X 2)) := by
  simp only [sanitizeTransverse, item_ite_set, length_ite_set, hX, MAX_LAT]
  simp only [Nat.reduceEqDiff, Nat.reduceLT, and_true, and_false, false_and, if_false,
    OfNat.one_ne_ofNat]
  generalize (if |item X 2| > 90 then fmod (item X 2) 90 else item X 2) = v
  by_cases h1 : v < lat0_min
  · rw [if_pos h1, if_neg (by linarith), max_eq_left h1.le, min_eq_right h]
  · rw [if_neg h1, max_eq_right (not_lt.mp h1)]
    by_cases h2 : v > lat0_max
    · rw [if_pos h2, min_eq_left h2.le]
    · rw [if_neg h2, min_eq_right (not_lt.mp h2)]

/-- The value of `lat0` after the branch of the oblique aspect: the period is subtracted
first, then a value outside the interval is replaced by the midpoint. -/
theorem sanitizeOblique_lat0_eq [FloorRing K] (lat0_min lat0_max : K) (X : List K)
    (hX : X.length = 5) :
    item (sanitizeOblique lat0_min lat0_max X) 2 =
      if (if |item X 2| > 90 then fmod (item X 2) 90 else item X 2) < lat0_min ∨
          (if |item X 2| > 90 then fmod (item X 2) 90 else item X 2) > lat0_max
      then (lat0_min + lat0_max) / 2
      else (if |item X 2| > 90 then fmod (item X 2) 90 else item X 2) := by
  have e0 : (0.5 : K) = 1 / 2 := by norm_num
  unfold sanitizeOblique
  lift_lets
  intro X1 X2 X3 X4 X5 X6 X7 X8
  have l1 : X1.length = 5 := by rw [length_ite_set, hX]
  have c1 : item X1 2 = item X 2 := item_ite_set_ne _ _ _ _ _ (by decide)
  clear_value X1
  have l2 : X2.length = 5 := by rw [length_ite_set, l1]
  have c2 : item X2 2 = item X1 2 := item_ite_set_ne _ _ _ _ _ (by decide)
  clear_value X2
  have l3 : X3.length = 5 := by rw [length_ite_set, l2]
  have c3 : item X3 2 = if |item X2 2| > 90 then fmod (item X2 2) 90 else item X2 2 := by
    rw [item_ite_set_self _ _ _ _ (by omega)]
    rfl
  clear_value X3
  have l4 : X4.length = 5 := by rw [length_ite_set, l3]
  have c4 : item X4 2 = if item X3 2 < lat0_min ∨ item X3 2 > lat0_max
      then (lat0_min + lat0_max) / 2 else item X3 2 := by
    rw [item_ite_set_self _ _ _ _ (by omega), e0]
    split <;> ring
  clear_value X4
  have l5 : X5.length = 5 := by rw [length_ite_set, l4]
  have c5 : item X5 2 = item X4 2 := item_ite_set_ne _ _ _ _ _ (by decide)
  clear_value X5
  have c6 : item X6 2 = item X5 2 := by
    show item (if _ then _ else _ : List K) 2 = _
    split
    · rw [item_set, item_set]
      simp
    · rfl
  clear_value X6
  have c7 : item X7 2 = item X6 2 := item_ite_set_ne _ _ _ _ _ (by decide)
  clear_value X7
  have c8 : item X8 2 = item X7 2 := by rw [item_set]; simp
  rw [c8, c7, c6, c5, c4, c3, c2, c1]

/-- C25, as the code has it: for every aspect and every `X` with five items, if
`lat0_min ≤ lat0_max` and the interval lies within `[-90, 90]`, the `lat0` written to the
projection lies in `[lat0_min, lat0_max]`, and an input `lat0` inside the interval is left
unchanged.  In the oblique aspect an input `lat0` outside the interval with `|lat0| ≤ 90`
becomes the midpoint; for `|lat0| > 90` the period is subtracted first, and `fmod(lat0, 90)`
is kept when it lies in the interval and replaced by the midpoint otherwise. -/
theorem lat0_sanitized [FloorRing K] (aspect : TProjectionAspect)
    (nl_test : List (Point K)) (n_reference : Nat) (proj : Projection K) (R_def : K)
    (evaluate : List K → Nat → Outcome K) (sample_indices : List Nat × List Nat)
    (X V : List K) (W : Nat → Nat → K) (compute_analysis : Bool) (hX : X.length = 5)
    (h0 : proj.lat0_interval.min_val ≤ proj.lat0_interval.max_val)
    (hlo : -90 ≤ proj.lat0_interval.min_val) (hhi : proj.lat0_interval.max_val ≤ 90) :
    (proj.lat0_interval.min_val ≤ (operator aspect nl_test n_reference proj R_def evaluate
        sample_indices X V W compute_analysis).proj.lat0 ∧
      (operator aspect nl_test n_reference proj R_def evaluate sample_indices X V W
        compute_analysis).proj.lat0 ≤ proj.lat0_interval.max_val) ∧
    (proj.lat0_interval.min_val ≤ item X 2 → item X 2 ≤ proj.lat0_interval.max_val →
      (operator aspect nl_test n_reference proj R_def evaluate sample_indices X V W
        compute_analysis).proj.lat0 = item X 2) ∧
    (aspect = TProjectionAspect.ObliqueAspect → |item X 2| ≤ 90 →
      (item X 2 < proj.lat0_interval.min_val ∨ item X 2 > proj.lat0_interval.max_val) →
      (operator aspect nl_test n_reference proj R_def evaluate sample_indices X V W
        compute_analysis).proj.lat0 =
          (proj.lat0_interval.min_val + proj.lat0_interval.max_val) / 2) ∧
    (aspect = TProjectionAspect.ObliqueAspect → |item X 2| > 90 →
      (operator aspect nl_test n_reference proj R_def evaluate sample_indices X V W
        compute_analysis).proj.lat0 =
          if fmod (item X 2) 90 < proj.lat0_interval.min_val ∨
              fmod (item X 2) 90 > proj.lat0_interval.max_val
          then (proj.lat0_interval.min_val + proj.lat0_interval.max_val) / 2
          else fmod (item X 2) 90) := by
  rw [operator_proj]
  simp only [setProperties]
  generalize proj.lat0_interval.min_val = a at *
  generalize proj.lat0_interval.max_val = b at *
  have hin : a ≤ item X 2 → item X 2 ≤ b →
      (if |item X 2| > 90 then fmod (item X 2) 90 else item X 2) = item X 2 := by
    intro h1 h2
    rw [if_neg (not_lt.mpr (abs_le.mpr ⟨by linarith, by linarith⟩))]
  cases aspect
  · simp only [sanitize, sanitizeNormal_lat0_eq a b X hX h0]
    refine ⟨⟨le_min h0 (le_max_left _ _), min_le_left _ _⟩, fun h1 h2 => ?_,
      (fun h => by cases h), (fun h => by cases h)⟩
    rw [hin h1 h2, max_eq_right h1, min_eq_right h2]
  · simp only [sanitize, sanitizeTransverse_lat0_eq a b X hX h0]
    refine ⟨⟨le_min h0 (le_max_left _ _), min_le_left _ _⟩, fun h1 h2 => ?_,
      (fun h => by cases h), (fun h => by cases h)⟩
    rw [hin h1 h2, max_eq_right h1, min_eq_right h2]
  · simp only [sanitize, sanitizeOblique_lat0_eq a b X hX]
    refine ⟨?_, fun h1 h2 => ?_, fun _ h1 h2 => ?_, fun _ h1 => ?_⟩
    · generalize (if |item X 2| > 90 then fmod (item X 2) 90 else item X 2) = v
      by_cases hc : v < a ∨ v > b
      · rw [if_pos hc]
        constructor <;> linarith
      · rw [if_neg hc]
        exact ⟨not_lt.mp (fun h2 => hc (Or.inl h2)), not_lt.mp (fun h2 => hc (Or.inr h2))⟩
    · rw [hin h1 h2, if_neg]
      rintro (h | h)
      · exact absurd h1 (not_le.mpr h)
      · exact absurd h2 (not_le.mpr h)
    · rw [if_neg (not_lt.mpr h1), if_pos h2]
    · rw [if_pos h1]

theorem lat0_sanitized_witness :
    (operator TProjectionAspect.ObliqueAspect exampleTest 4 exampleNarrow 1
        (fun _ => exampleEvaluate) ([], []) [0, 0, 85, 0, 0] (List.replicate 8 0)
        unitWeights false).proj.lat0 = (0 + 80) / 2 :=
  (lat0_sanitized TProjectionAspect.ObliqueAspect exampleTest 4 exampleNarrow 1
    (fun _ => exampleEvaluate) ([], []) [0, 0, 85, 0, 0] (List.replicate 8 0)
    unitWeights false (by simp) (by norm_num [exampleNarrow]) (by norm_num [exampleNarrow])
    (by norm_num [exampleNarrow])).2.2.1 rfl (by norm_num [item])
    (Or.inr (by norm_num [item, exampleNarrow]))

/-- C25, as stated, fails: in the oblique aspect with the interval `[0, 80]` the input
`lat0 = 100` lies outside the interval, but the written `lat0` is `fmod(100, 90) = 10`,
not the midpoint `40`. -/
theorem oblique_lat0_period_first :
    (operator TProjectionAspect.ObliqueAspect exampleTest 4 exampleNarrow 1
        (fun _ => exampleEvaluate) ([], []) [0, 0, 100, 0, 0] (List.replicate 8 0)
        unitWeights false).proj.lat0 = 10 ∧
      item ([0, 0, 100, 0, 0] : List ℚ) 2 > exampleNarrow.lat0_interval.max_val ∧
      (0.5 : ℚ) * (exampleNarrow.lat0_interval.min_val + exampleNarrow.lat0_interval.max_val)
        = 40 := by
  have f100 : fmod (100 : ℚ) 90 = 10 := by
    rw [fmod_eq_of_floor 100 90 1 (by norm_num) (by norm_num) (by norm_num)]
    norm_num
  refine ⟨?_, by norm_num [item, exampleNarrow], by norm_num [exampleNarrow]⟩
  rw [operator_proj]
  show item (sanitizeOblique (K := ℚ) 0 80 [0, 0, 100, 0, 0]) 2 = 10
  rw [sanitizeOblique_lat0_eq _ _ _ (by simp)]
  norm_num [item, f100]

/-! ### Weights after the analysis of the sample -/

theorem getD_lt_of_pairwise (l : List Nat) (h : l.Pairwise (· < ·)) (a b : Nat) (hab : a < b)
    (hb : b < l.length) : l.getD a 0 < l.getD b 0 := by
  have ha : a < l.length := lt_trans hab hb
  rw [List.getD_eq_getElem _ _ ha, List.getD_eq_getElem _ _ hb]
  exact List.pairwise_iff_getElem.mp h a b ha hb hab

/-- Strictly increasing lists with valid entries give strictly increasing points
`ns[kb[j]]`. -/
theorem kBest_strictMono (ns kb : List Nat) (hns : ns.Pairwise (· < ·))
    (hkb : kb.Pairwise (· < ·)) (hkv : ∀ k, k ∈ kb → k < ns.length) (j1 j2 : Nat)
    (h12 : j1 < j2) (h2 : j2 < kb.length) :
    ns.getD (kb.getD j1 0) 0 < ns.getD (kb.getD j2 0) 0 := by
  apply getD_lt_of_pairwise ns hns _ _ (getD_lt_of_pairwise kb hkb j1 j2 h12 h2)
  rw [List.getD_eq_getElem _ _ h2]
  exact hkv _ (List.getElem_mem h2)

theorem setW_setW_diag {K : Type} (W : Nat → Nat → K) (i n k : Nat) (v : K) (hi : i < n) (hk : k ≠ i) :
    (k < n → setW (setW W i i v) (i + n) (i + n) v k k = W k k) ∧
      setW (setW W i i v) (i + n) (i + n) v (k + n) (k + n) = W (k + n) (k + n) := by
  constructor
  · intro hkn
    simp only [setW]
    rw [if_neg (by omega), if_neg (by omega)]
  · simp only [setW]
    rw [if_neg (by omega), if_neg (by omega)]

theorem setW_setW_self {K : Type} (W : Nat → Nat → K) (i n : Nat) (v : K) (hi : i < n) :
    setW (setW W i i v) (i + n) (i + n) v i i = v ∧
      setW (setW W i i v) (i + n) (i + n) v (i + n) (i + n) = v := by
  have h : i ≠ i + n := by omega
  simp [setW, h]

/-- Invariant of the loop "Change weights in W matrix" after the passes `0, ..., i − 1`. -/
theorem weightLoop_invariant (ns kb : List Nat) (n : Nat) (W : Nat → Nat → K)
    (hm : 0 < kb.length)
    (hmono : ∀ j1 j2, j1 < j2 → j2 < kb.length →
      ns.getD (kb.getD j1 0) 0 < ns.getD (kb.getD j2 0) 0)
    (i : Nat) (hi : i ≤ n) :
    ∃ st : WeightLoop K,
      (List.range i).foldl (weightStep ns kb n)
        { W := W, index_point := (ns.getD (kb.getD 0 0) 0 : Nat), index_k_best_points := 1 } = st ∧
      1 ≤ st.index_k_best_points ∧ st.index_k_best_points ≤ kb.length ∧
      st.index_point = ((ns.getD (kb.getD (st.index_k_best_points - 1) 0) 0 : Nat) : Int) ∧
      (∀ j, j < st.index_k_best_points - 1 → ns.getD (kb.getD j 0) 0 < i) ∧
      (i ≤ ns.getD (kb.getD (st.index_k_best_points - 1) 0) 0 ∨
        st.index_k_best_points = kb.length) ∧
      (∀ k, k < i → kBestPoint ns kb k → st.W k k = 1 ∧ st.W (k + n) (k + n) = 1) ∧
      (∀ k, k < i → ¬ kBestPoint ns kb k → st.W k k = 0 ∧ st.W (k + n) (k + n) = 0) := by
  induction i with
  | zero =>
    refine ⟨_, rfl, le_refl _, hm, rfl, ?_, Or.inl (Nat.zero_le _), ?_, ?_⟩
    · intro j hj
      simp at hj
    · intro k hk
      omega
    · intro k hk
      omega
  | succ i ih =>
    obtain ⟨st, hst, h1, h2, h3, h4, h5, h6, h7⟩ := ih (Nat.le_of_succ_le hi)
    have hin : i < n := hi
    rw [List.range_succ, List.foldl_append, hst]
    simp only [List.foldl_cons, List.foldl_nil]
    have e1 : (1.0 : K) = 1 := by norm_num
    have e0 : (0.0 : K) = 0 := by norm_num
    by_cases hc : (i : Int) = st.index_point
    · have hip : i = ns.getD (kb.getD (st.index_k_best_points - 1) 0) 0 := by
        rw [h3] at hc
        exact_mod_cast hc
      have hbest : kBestPoint ns kb i := ⟨st.index_k_best_points - 1, by omega, hip.symm⟩
      have hW : ∀ k, k < i + 1 →
          (kBestPoint ns kb k →
            setW (setW st.W i i 1) (i + n) (i + n) 1 k k = 1 ∧
              setW (setW st.W i i 1) (i + n) (i + n) 1 (k + n) (k + n) = 1) ∧
          (¬ kBestPoint ns kb k →
            setW (setW st.W i i 1) (i + n) (i + n) 1 k k = 0 ∧
              setW (setW st.W i i 1) (i + n) (i + n) 1 (k + n) (k + n) = 0) := by
        intro k hk
        by_cases hki : k = i
        · subst hki
          exact ⟨fun _ => setW_setW_self st.W k n 1 hin, fun h => absurd hbest h⟩
        · have hs := setW_setW_diag st.W i n k 1 hin hki
          rw [hs.1 (by omega), hs.2]
          exact ⟨h6 k (by omega), h7 k (by omega)⟩
      by_cases hlt : st.index_k_best_points < kb.length
      · have hstep : weightStep ns kb n st i =
            { W := setW (setW st.W i i 1) (i + n) (i + n) 1
              index_point := (ns.getD (kb.getD st.index_k_best_points 0) 0 : Nat)
              index_k_best_points := st.index_k_best_points + 1 } := by
          simp only [weightStep, if_pos hc, if_pos hlt, e1]
        refine ⟨_, hstep, ?_, ?_, ?_, ?_, ?_, ?_, ?_⟩
        · show 1 ≤ st.index_k_best_points + 1
          omega
        · show st.index_k_best_points + 1 ≤ kb.length
          omega
        · show ((ns.getD (kb.getD st.index_k_best_points 0) 0 : Nat) : Int) = _
          simp
        · intro j hj
          have hj2 : j < st.index_k_best_points := by
            have : j < st.index_k_best_points + 1 - 1 := hj
            omega
          by_cases hjp : j < st.index_k_best_points - 1
          · exact Nat.lt_succ_of_lt (h4 j hjp)
          · have : j = st.index_k_best_points - 1 := by omega
            rw [this, ← hip]
            exact Nat.lt_succ_self i
        · left
          show i + 1 ≤ ns.getD (kb.getD (st.index_k_best_points + 1 - 1) 0) 0
          have := hmono (st.index_k_best_points - 1) (st.index_k_best_points) (by omega) hlt
          rw [← hip] at this
          simpa using this
        · exact fun k hk => (hW k hk).1
        · exact fun k hk => (hW k hk).2
      · have hstep : weightStep ns kb n st i =
            { st with W := setW (setW st.W i i 1) (i + n) (i + n) 1 } := by
          simp only [weightStep, if_pos hc, if_neg hlt, e1]
        refine ⟨_, hstep, h1, h2, h3, ?_, ?_, ?_, ?_⟩
        · intro j hj
          exact Nat.lt_succ_of_lt (h4 j hj)
        · right
          show st.index_k_best_points = kb.length
          omega
        · exact fun k hk => (hW k hk).1
        · exact fun k hk => (hW k hk).2
    · have hip : i ≠ ns.getD (kb.getD (st.index_k_best_points - 1) 0) 0 := by
        intro h
        apply hc
        rw [h3]
        exact_mod_cast h
      have hnot : ¬ kBestPoint ns kb i := by
        rintro ⟨j, hj, hji⟩
        rcases Nat.lt_trichotomy j (st.index_k_best_points - 1) with hlt | heq | hgt
        · have := h4 j hlt
          omega
        · rw [heq] at hji
          exact hip hji.symm
        · rcases h5 with h5 | h5
          · have := hmono _ _ hgt hj
            omega
          · omega
      have hstep : weightStep ns kb n st i =
          { st with W := setW (setW st.W i i 0) (i + n) (i + n) 0 } := by
        simp only [weightStep, if_neg hc, e0]
      refine ⟨_, hstep, h1, h2, h3, ?_, ?_, ?_, ?_⟩
      · intro j hj
        exact Nat.lt_succ_of_lt (h4 j hj)
      · rcases h5 with h5 | h5
        · left
          show i + 1 ≤ ns.getD (kb.getD (st.index_k_best_points - 1) 0) 0
          omega
        · right
          exact h5
      · intro k hk hb
        have hki : k ≠ i := fun h => hnot (h ▸ hb)
        have hs := setW_setW_diag st.W i n k 0 hin hki
        show setW (setW st.W i i 0) (i + n) (i + n) 0 k k = 1 ∧
          setW (setW st.W i i 0) (i + n) (i + n) 0 (k + n) (k + n) = 1
        rw [hs.1 (by omega), hs.2]
        exact h6 k (by omega) hb
      · intro k hk hb
        show setW (setW st.W i i 0) (i + n) (i + n) 0 k k = 0 ∧
          setW (setW st.W i i 0) (i + n) (i + n) 0 (k + n) (k + n) = 0
        by_cases hki : k = i
        · subst hki
          exact setW_setW_self st.W k n 0 hin
        · have hs := setW_setW_diag st.W i n k 0 hin hki
          rw [hs.1 (by omega), hs.2]
          exact h7 k (by omega) hb

/-- C29: the update of the weights with `compute_analysis = true`.  If the list of k-best
points is not empty and the lists `ns` of non singular points and `kb` of k-best points are
strictly increasing with valid entries (`kb[j] < ns.size()`, `ns[k] < n`), then after the
update, for every point `i < n`, `W(i, i) = W(i + n, i + n) = 1` if `i = ns[kb[j]]` for
some `j`, and `W(i, i) = W(i + n, i + n) = 0` otherwise.  With an empty list of k-best
points `W` is left as it is. -/
theorem updateWeights_spec (ns kb : List Nat) (n : Nat) (W : Nat → Nat → K)
    (hns : ns.Pairwise (· < ·)) (hkb : kb.Pairwise (· < ·))
    (hkv : ∀ k, k ∈ kb → k < ns.length) (_hnv : ∀ p, p ∈ ns → p < n) :
    (kb ≠ [] → ∀ i, i < n →
      (kBestPoint ns kb i →
        updateWeights ns kb n W i i = 1 ∧ updateWeights ns kb n W (i + n) (i + n) = 1) ∧
      (¬ kBestPoint ns kb i →
        updateWeights ns kb n W i i = 0 ∧ updateWeights ns kb n W (i + n) (i + n) = 0)) ∧
    (kb = [] → updateWeights ns kb n W = W) := by
  constructor
  · intro hne i hi
    have hm : 0 < kb.length := List.length_pos.mpr hne
    obtain ⟨st, hst, _, _, _, _, _, h6, h7⟩ := weightLoop_invariant ns kb n W hm
      (kBest_strictMono ns kb hns hkb hkv) n (le_refl n)
    simp only [updateWeights, if_pos hm, hst]
    exact ⟨h6 i hi, h7 i hi⟩
  · intro h
    subst h
    simp [updateWeights]

theorem updateWeights_spec_witness :
    updateWeights [0, 2, 3] [0, 2] 4 unitWeights 3 3 = 1 ∧
      updateWeights [0, 2, 3] [0, 2] 4 unitWeights (3 + 4) (3 + 4) = 1 :=
  ((updateWeights_spec [0, 2, 3] [0, 2] 4 unitWeights (by simp) (by simp) (by simp)
    (by simp)).1 (by simp) 3 (by norm_num)).1 ⟨1, by simp, by simp⟩

end FAnalyzeProjV4

namespace CartAnalysis

open HelmertTransformation2D (Point)
open FAnalyzeProjV4 (Projection)

variable {K : Type} [LinearOrderedField K]

/-! ### Singular points -/

theorem map_getD_range {α : Type} (l : List α) (d : α) :
    (List.range l.length).map (fun i => l.getD i d) = l := by
  apply List.ext_getElem
  · simp
  · intro i h1 h2
    simp [List.getD_eq_getElem?_getD, List.getElem?_eq_getElem h2]

theorem geo_map (F : List Nat) (f : Nat → Point3DGeographic K) (j : Nat) (hj : j < F.length) :
    geo (F.map f) j = f (F.get ⟨j, hj⟩) := by
  simp [geo, List.getD_eq_getElem?_getD, List.getElem?_eq_getElem hj]

/-- The loop of `removeSingularPoints` appends, in the order of the source, the planar
points, the geographic points and the index pairs of the copied indices. -/
theorem removeSingularPoints_fold (nl_source : List (Point K))
    (pl_source : List (Point3DGeographic K)) (cart_pole : Point3DGeographic K)
    (d : Destination K) (n : Nat) :
    (List.range n).foldl (removeStep nl_source pl_source cart_pole) d =
      { nl_destination := d.nl_destination ++
          ((List.range n).filter (fun i => isCopied cart_pole (geo pl_source i))).map
            (node nl_source)
        pl_destination := d.pl_destination ++
          ((List.range n).filter (fun i => isCopied cart_pole (geo pl_source i))).map
            (geo pl_source)
        non_singular_point_pairs := d.non_singular_point_pairs ++
          ((List.range n).filter (fun i => isCopied cart_pole (geo pl_source i))).map
            (fun (i : Nat) => ((i : K) + 1, i)) } := by
  induction n with
  | zero => simp
  | succ n ih =>
    rw [List.range_succ, List.foldl_append, ih]
    simp only [List.foldl_cons, List.foldl_nil, removeStep, List.filter_append]
    by_cases h : isCopied cart_pole (geo pl_source n)
    · have e : (1.0 : K) = 1 := by norm_num
      simp [h, e]
    · simp [h]

theorem removeSingularPoints_eq (nl_source : List (Point K))
    (pl_source : List (Point3DGeographic K)) (cart_pole : Point3DGeographic K) :
    removeSingularPoints nl_source pl_source cart_pole ⟨[], [], []⟩ =
      { nl_destination :=
          ((List.range nl_source.length).filter
            (fun i => isCopied cart_pole (geo pl_source i))).map (node nl_source)
        pl_destination :=
          ((List.range nl_source.length).filter
            (fun i => isCopied cart_pole (geo pl_source i))).map (geo pl_source)
        non_singular_point_pairs :=
          ((List.range nl_source.length).filter
            (fun i => isCopied cart_pole (geo pl_source i))).map (fun (i : Nat) => ((i : K) + 1, i)) } := by
  rw [removeSingularPoints, removeSingularPoints_fold]
  simp

/-- Inside the ranges of the longitude the test of the loop copies exactly the points that
are not singular, unless `lonp = 0` and the point lies on the meridian `180`. -/
theorem isCopied_iff_not_isSingular (cart_pole p : Point3DGeographic K)
    (h3 : -180 < p.lon) (h4 : p.lon ≤ 180) (h5 : cart_pole.lon ≠ 0 ∨ p.lon ≠ 180) :
    isCopied cart_pole p ↔ ¬ isSingular cart_pole p := by
  have e : (180.0 : K) = 180 := by norm_num
  unfold isCopied isSingular differs
  rw [e]
  constructor
  · rintro ⟨hne, hc⟩ (hs | hs)
    · exact hne hs
    · rcases abs_eq (by norm_num : (0 : K) ≤ 180) |>.mp hs with h | h
      · rcases hc with ⟨hp, hl⟩ | ⟨hp, hl⟩
        · rcases h5 with h5 | h5
          · exact h5 (by linarith)
          · exact h5 (by linarith)
        · exact hl (by linarith)
      · rcases hc with ⟨hp, hl⟩ | ⟨hp, hl⟩
        · exact hl (by linarith)
        · linarith
  · intro hs
    push_neg at hs
    refine ⟨hs.1, ?_⟩
    by_cases hp : cart_pole.lon ≥ 0
    · left
      refine ⟨hp, fun h => hs.2 ?_⟩
      rw [h]
      rw [show cart_pole.lon - 180 - cart_pole.lon = -180 by ring]
      simp
    · right
      refine ⟨not_le.mp hp, fun h => hs.2 ?_⟩
      rw [h]
      rw [show cart_pole.lon + 180 - cart_pole.lon = 180 by ring]
      simp

/-- C12: at the pole `(50, 0)` the point `(10, 180)` is singular, its longitude differing
from `lonp` by `180`, but the loop compares with `lonp − 180 = −180` only and copies the
point together with its planar point and its index pair. -/
theorem antipodal_point_copied :
    removeSingularPoints (K := ℚ) [⟨0, 0⟩] [⟨10, 180⟩] ⟨50, 0⟩ ⟨[], [], []⟩ =
        ⟨[⟨0, 0⟩], [⟨10, 180⟩], [(1, 0)]⟩ ∧
      isSingular (K := ℚ) ⟨50, 0⟩ ⟨10, 180⟩ := by
  constructor
  · rw [removeSingularPoints_eq]
    norm_num [List.range_succ, List.filter, isCopied, differs, geo, node]
  · right
    norm_num

/-- C14: the outputs of `removeSingularPoints` are parallel.  There are source indices
`i_0 < i_1 < ... < i_(k-1)` below `nl_source.size()` such that the planar points, the
geographic points and the pairs `(i_j + 1, i_j)` of the output are those of the indices
`i_j`, in this order; so the three lists have the same length `k`. -/
theorem removeSingularPoints_parallel (nl_source : List (Point K))
    (pl_source : List (Point3DGeographic K)) (cart_pole : Point3DGeographic K)
    (_h : nl_source.length ≤ pl_source.length) :
    ∃ idx : List Nat, idx.Pairwise (· < ·) ∧ (∀ i, i ∈ idx → i < nl_source.length) ∧
      (removeSingularPoints nl_source pl_source cart_pole ⟨[], [], []⟩).nl_destination
        = idx.map (node nl_source) ∧
      (removeSingularPoints nl_source pl_source cart_pole ⟨[], [], []⟩).pl_destination
        = idx.map (geo pl_source) ∧
      (removeSingularPoints nl_source pl_source cart_pole ⟨[], [], []⟩).non_singular_point_pairs
        = idx.map (fun (i : Nat) => ((i : K) + 1, i)) ∧
      (removeSingularPoints nl_source pl_source cart_pole ⟨[], [], []⟩).nl_destination.length
        = idx.length ∧
      (removeSingularPoints nl_source pl_source cart_pole ⟨[], [], []⟩).pl_destination.length
        = idx.length ∧
      (removeSingularPoints nl_source pl_source cart_pole
        ⟨[], [], []⟩).non_singular_point_pairs.length = idx.length := by
  refine ⟨(List.range nl_source.length).filter (fun i => isCopied cart_pole (geo pl_source i)),
    ?_, ?_, ?_⟩
  · exact List.Pairwise.filter _ (List.pairwise_lt_range _)
  · intro i hi
    exact List.mem_range.mp (List.mem_filter.mp hi).1
  · rw [removeSingularPoints_eq]
    simp

theorem removeSingularPoints_parallel_witness :
    ∃ idx : List Nat, idx.Pairwise (· < ·) ∧
      (∀ i, i ∈ idx → i < ([⟨0, 0⟩, ⟨1, 1⟩] : List (Point ℚ)).length) ∧
      (removeSingularPoints (K := ℚ) [⟨0, 0⟩, ⟨1, 1⟩] [⟨50, 0⟩, ⟨10, 20⟩] ⟨50, 0⟩
        ⟨[], [], []⟩).nl_destination = idx.map (node [⟨0, 0⟩, ⟨1, 1⟩]) ∧
      (removeSingularPoints (K := ℚ) [⟨0, 0⟩, ⟨1, 1⟩] [⟨50, 0⟩, ⟨10, 20⟩] ⟨50, 0⟩
        ⟨[], [], []⟩).pl_destination = idx.map (geo [⟨50, 0⟩, ⟨10, 20⟩]) ∧
      (removeSingularPoints (K := ℚ) [⟨0, 0⟩, ⟨1, 1⟩] [⟨50, 0⟩, ⟨10, 20⟩] ⟨50, 0⟩
        ⟨[], [], []⟩).non_singular_point_pairs = idx.map (fun (i : Nat) => ((i : ℚ) + 1, i)) :=
  (removeSingularPoints_parallel [⟨0, 0⟩, ⟨1, 1⟩] [⟨50, 0⟩, ⟨10, 20⟩] ⟨50, 0⟩ (by simp)).imp
    (fun _ h => ⟨h.1, h.2.1, h.2.2.1, h.2.2.2.1, h.2.2.2.2.1⟩)

/-- C13: `removeSingularPoints` is idempotent.  Called on its own output lists with the
same pole it returns these lists again, and its index pairs are `(j + 1, j)` for
`j = 0, ..., k − 1`. -/
theorem removeSingularPoints_idempotent (nl_source : List (Point K))
    (pl_source : List (Point3DGeographic K)) (cart_pole : Point3DGeographic K)
    (_h : pl_source.length = nl_source.length) :
    removeSingularPoints
        (removeSingularPoints nl_source pl_source cart_pole ⟨[], [], []⟩).nl_destination
        (removeSingularPoints nl_source pl_source cart_pole ⟨[], [], []⟩).pl_destination
        cart_pole ⟨[], [], []⟩ =
      { nl_destination :=
          (removeSingularPoints nl_source pl_source cart_pole ⟨[], [], []⟩).nl_destination
        pl_destination :=
          (removeSingularPoints nl_source pl_source cart_pole ⟨[], [], []⟩).pl_destination
        non_singular_point_pairs :=
          (List.range (removeSingularPoints nl_source pl_source cart_pole
            ⟨[], [], []⟩).nl_destination.length).map (fun (j : Nat) => ((j : K) + 1, j)) } := by
  rw [removeSingularPoints_eq nl_source pl_source cart_pole]
  simp only
  rw [removeSingularPoints_eq]
  have hall : (List.range (((List.range nl_source.length).filter
        (fun i => isCopied cart_pole (geo pl_source i))).map (node nl_source)).length).filter
      (fun j => isCopied cart_pole (geo (((List.range nl_source.length).filter
        (fun i => isCopied cart_pole (geo pl_source i))).map (geo pl_source)) j))
      = List.range (((List.range nl_source.length).filter
        (fun i => isCopied cart_pole (geo pl_source i))).map (node nl_source)).length := by
    rw [List.filter_eq_self]
    intro j hj
    have hj2 := List.mem_range.mp hj
    simp only [List.length_map] at hj2
    have hmem := List.getElem_mem (l := (List.range nl_source.length).filter
        (fun i => isCopied cart_pole (geo pl_source i))) hj2
    have hc := (List.mem_filter.mp hmem).2
    have hg := geo_map ((List.range nl_source.length).filter
        (fun i => isCopied cart_pole (geo pl_source i))) (geo pl_source) j hj2
    rw [hg]
    exact hc
  rw [hall]
  congr 1
  · have := map_getD_range (((List.range nl_source.length).filter
        (fun i => isCopied cart_pole (geo pl_source i))).map (node nl_source)) ⟨0, 0⟩
    exact this
  · have := map_getD_range (((List.range nl_source.length).filter
        (fun i => isCopied cart_pole (geo pl_source i))).map (geo pl_source)) ⟨0, 0⟩
    simp only [List.length_map] at this ⊢
    exact this

theorem removeSingularPoints_idempotent_witness :
    removeSingularPoints (K := ℚ)
        (removeSingularPoints [⟨0, 0⟩, ⟨1, 1⟩] [⟨50, 0⟩, ⟨10, 20⟩] ⟨50, 0⟩
          ⟨[], [], []⟩).nl_destination
        (removeSingularPoints [⟨0, 0⟩, ⟨1, 1⟩] [⟨50, 0⟩, ⟨10, 20⟩] ⟨50, 0⟩
          ⟨[], [], []⟩).pl_destination
        ⟨50, 0⟩ ⟨[], [], []⟩ =
      { nl_destination :=
          (removeSingularPoints [⟨0, 0⟩, ⟨1, 1⟩] [⟨50, 0⟩, ⟨10, 20⟩] ⟨50, 0⟩
            ⟨[], [], []⟩).nl_destination
        pl_destination :=
          (removeSingularPoints [⟨0, 0⟩, ⟨1, 1⟩] [⟨50, 0⟩, ⟨10, 20⟩] ⟨50, 0⟩
            ⟨[], [], []⟩).pl_destination
        non_singular_point_pairs :=
          (List.range (removeSingularPoints (K := ℚ) [⟨0, 0⟩, ⟨1, 1⟩] [⟨50, 0⟩, ⟨10, 20⟩]
            ⟨50, 0⟩ ⟨[], [], []⟩).nl_destination.length).map
              (fun (j : Nat) => ((j : ℚ) + 1, j)) } :=
  removeSingularPoints_idempotent [⟨0, 0⟩, ⟨1, 1⟩] [⟨50, 0⟩, ⟨10, 20⟩] ⟨50, 0⟩ (by simp)

/-! ### Positions of sorted samples -/

theorem positionStep_only (c : Criterion) (ARGUMENT_ROUND_ERROR : K) (sl : List (Sample K))
    (i : Nat) :
    positionStep c.only ARGUMENT_ROUND_ERROR sl i =
      updateAt sl i (fun prev cur => c.setPosition cur
        (newPosition ARGUMENT_ROUND_ERROR (c.ratio prev) (c.ratio cur) (c.position prev)
          (c.position cur))) := by
  cases c <;> rfl

theorem setPosition_position {K : Type} (c : Criterion) (s : Sample K) :
    c.setPosition s (c.position s) = s := by
  cases c <;> rfl

theorem position_setPosition {K : Type} (c : Criterion) (s : Sample K) (p : Int) :
    c.position (c.setPosition s p) = p := by
  cases c <;> rfl

theorem ratio_setPosition {K : Type} (c : Criterion) (s : Sample K) (p : Int) :
    c.ratio (c.setPosition s p) = c.ratio s := by
  cases c <;> rfl

theorem changes_succ (c : Criterion) (ARGUMENT_ROUND_ERROR : K) (sl : List (Sample K))
    (k : Nat) (hk : k + 1 < sl.length) :
    changes c ARGUMENT_ROUND_ERROR sl (k + 1) = changes c ARGUMENT_ROUND_ERROR sl k +
      (if |c.ratio (sl.get ⟨k + 1, hk⟩) - c.ratio (sl.get ⟨k, Nat.lt_of_succ_lt hk⟩)| >
        ARGUMENT_ROUND_ERROR then 1 else 0) := by
  unfold changes
  rw [List.range_succ, List.filter_append, List.length_append]
  congr 1
  have e1 : sl[k]? = some (sl.get ⟨k, Nat.lt_of_succ_lt hk⟩) := List.getElem?_eq_getElem _
  have e2 : sl[k + 1]? = some (sl.get ⟨k + 1, hk⟩) := List.getElem?_eq_getElem _
  simp only [List.filter_cons, List.filter_nil, e1, e2]
  simp only [List.get_eq_getElem, decide_eq_true_eq]
  split_ifs <;> simp

/-- Invariant of the loop of `setPositionForSortedSamples` for a single criterion on samples
with positions `1`: after the passes `i = 1, ..., k` the samples `0, ..., k` carry the
position `1 + changes`, the other ones are untouched. -/
theorem positions_fold (c : Criterion) (ARGUMENT_ROUND_ERROR : K) (sl : List (Sample K))
    (h1 : ∀ s, s ∈ sl → c.position s = 1) (k : Nat) (hk : k + 1 ≤ sl.length) :
    ((List.range k).foldl
        (fun sl j => positionStep c.only ARGUMENT_ROUND_ERROR sl (j + 1)) sl).length =
        sl.length ∧
      ∀ i (hi : i < sl.length),
        ((List.range k).foldl
          (fun sl j => positionStep c.only ARGUMENT_ROUND_ERROR sl (j + 1)) sl)[i]? =
          some (if i ≤ k then
            c.setPosition (sl.get ⟨i, hi⟩) (1 + (changes c ARGUMENT_ROUND_ERROR sl i : Int))
          else sl.get ⟨i, hi⟩) := by
  induction k with
  | zero =>
    refine ⟨rfl, fun i hi => ?_⟩
    simp only [List.range_zero, List.foldl_nil]
    rw [List.getElem?_eq_getElem hi]
    by_cases h0 : i ≤ 0
    · have : i = 0 := Nat.le_zero.mp h0
      subst this
      have hp := h1 _ (List.getElem_mem hi)
      have hc : changes c ARGUMENT_ROUND_ERROR sl 0 = 0 := by simp [changes]
      simp only [le_refl, if_true, hc, List.get_eq_getElem]
      have e : c.setPosition sl[0] (1 + ((0 : ℕ) : ℤ)) = sl[0] := by
        have := setPosition_position c sl[0]
        rw [hp] at this
        simpa using this
      rw [e]
    · simp [h0]
  | succ k ih =>
    obtain ⟨hlen, hget⟩ := ih (Nat.le_of_succ_le hk)
    rw [List.range_succ, List.foldl_append]
    simp only [List.foldl_cons, List.foldl_nil]
    generalize (List.range k).foldl
      (fun sl j => positionStep c.only ARGUMENT_ROUND_ERROR sl (j + 1)) sl = L at hlen hget
    have hk0 : k < sl.length := by omega
    have hk1 : k + 1 < sl.length := by omega
    have hprev := hget k hk0
    have hcur := hget (k + 1) hk1
    simp only [le_refl, if_true] at hprev
    simp only [show ¬ (k + 1 ≤ k) by omega, if_false] at hcur
    rw [positionStep_only]
    unfold updateAt
    simp only [Nat.add_sub_cancel, hprev, hcur]
    refine ⟨by simp [hlen], fun i hi => ?_⟩
    rw [List.getElem?_set]
    by_cases hi1 : k + 1 = i
    · subst hi1
      have hpc := h1 _ (List.getElem_mem hk1)
      simp only [if_true, hlen, hk1, le_refl, List.get_eq_getElem] at *
      congr 2
      rw [position_setPosition, ratio_setPosition, hpc, changes_succ c _ sl k hk1]
      unfold newPosition
      have hpos : (0 : Int) < 1 + (changes c ARGUMENT_ROUND_ERROR sl k : Int) := by positivity
      by_cases hj : |c.ratio sl[k + 1] - c.ratio sl[k]| > ARGUMENT_ROUND_ERROR
      · simp only [List.get_eq_getElem, hj, if_true, not_lt.mpr hpos.le, if_false, hpos]
        push_cast
        ring
      · simp only [List.get_eq_getElem, hj, if_false]
        push_cast
        ring
    · simp only [hi1, if_false]
      rw [hget i hi]
      have : i ≤ k + 1 ↔ i ≤ k := by omega
      simp only [this]

/-- The positions written by `setPositionForSortedSamples` for a single criterion: sample
`i` is the source sample with the position `1 + changes`. -/
theorem setPositionForSortedSamples_only (c : Criterion) (ARGUMENT_ROUND_ERROR : K)
    (sl : List (Sample K)) (h1 : ∀ s, s ∈ sl → c.position s = 1) :
    (setPositionForSortedSamples c.only ARGUMENT_ROUND_ERROR sl).length = sl.length ∧
      ∀ i (hi : i < sl.length),
        (setPositionForSortedSamples c.only ARGUMENT_ROUND_ERROR sl)[i]? =
          some (c.setPosition (sl.get ⟨i, hi⟩)
            (1 + (changes c ARGUMENT_ROUND_ERROR sl i : Int))) := by
  unfold setPositionForSortedSamples
  by_cases hn : sl.length = 0
  · refine ⟨by simp [hn], fun i hi => ?_⟩
    omega
  · obtain ⟨hlen, hget⟩ := positions_fold c ARGUMENT_ROUND_ERROR sl h1 (sl.length - 1) (by omega)
    refine ⟨hlen, fun i hi => ?_⟩
    rw [hget i hi, if_pos (by omega)]

theorem changes_of_jumps (c : Criterion) (ARGUMENT_ROUND_ERROR : K) (sl : List (Sample K))
    (hjump : ∀ i (hi : i + 1 < sl.length),
      ARGUMENT_ROUND_ERROR <
        c.ratio (sl.get ⟨i + 1, hi⟩) - c.ratio (sl.get ⟨i, Nat.lt_of_succ_lt hi⟩))
    (i : Nat) (hi : i < sl.length) : changes c ARGUMENT_ROUND_ERROR sl i = i := by
  induction i with
  | zero => simp [changes]
  | succ k ih =>
    rw [changes_succ c _ sl k hi, ih (Nat.lt_of_succ_lt hi)]
    have := lt_of_lt_of_le (hjump k hi) (le_abs_self _)
    rw [if_pos this]

/-- The list of positions after `setPositionForSortedSamples` for a single criterion. -/
theorem positions_eq_changes (c : Criterion) (ARGUMENT_ROUND_ERROR : K)
    (sl : List (Sample K)) (h1 : ∀ s, s ∈ sl → c.position s = 1) :
    (setPositionForSortedSamples c.only ARGUMENT_ROUND_ERROR sl).map c.position =
      (List.range sl.length).map
        (fun (i : Nat) => 1 + (changes c ARGUMENT_ROUND_ERROR sl i : Int)) := by
  obtain ⟨hlen, hget⟩ := setPositionForSortedSamples_only c ARGUMENT_ROUND_ERROR sl h1
  apply List.ext_getElem?
  intro i
  by_cases hi : i < sl.length
  · rw [List.getElem?_map, hget i hi, List.getElem?_map, List.getElem?_range hi]
    simp only [Option.map_some', position_setPosition]
  · rw [List.getElem?_eq_none (by simp [hlen]; omega), List.getElem?_eq_none (by simp; omega)]

theorem exampleSample_position (c : Criterion) (l : List ℚ) :
    ∀ s, s ∈ l.map exampleSample → c.position s = 1 := by
  intro s hs
  obtain ⟨v, _, rfl⟩ := List.mem_map.mp hs
  cases c <;> rfl

/-- C15: ranking without ties.  For a list of samples with the positions of the criterion
initialised to `1`, in which the value of every sample exceeds the value of its predecessor
by more than `ARGUMENT_ROUND_ERROR`, `setPositionForSortedSamples` for that criterion
assigns the positions `1, 2, ..., n` in the order of the list. -/
theorem positions_without_ties (c : Criterion) (ARGUMENT_ROUND_ERROR : K)
    (sl : List (Sample K)) (h1 : ∀ s, s ∈ sl → c.position s = 1)
    (hjump : ∀ i (hi : i + 1 < sl.length),
      ARGUMENT_ROUND_ERROR <
        c.ratio (sl.get ⟨i + 1, hi⟩) - c.ratio (sl.get ⟨i, Nat.lt_of_succ_lt hi⟩)) :
    (setPositionForSortedSamples c.only ARGUMENT_ROUND_ERROR sl).map c.position =
      (List.range sl.length).map (fun (i : Nat) => (i : Int) + 1) := by
  obtain ⟨hlen, hget⟩ := setPositionForSortedSamples_only c ARGUMENT_ROUND_ERROR sl h1
  apply List.ext_getElem?
  intro i
  by_cases hi : i < sl.length
  · rw [List.getElem?_map, hget i hi, List.getElem?_map, List.getElem?_range hi]
    simp only [Option.map_some', position_setPosition,
      changes_of_jumps c ARGUMENT_ROUND_ERROR sl hjump i hi]
    rw [add_comm]
  · rw [List.getElem?_eq_none (by simp [hlen]; omega), List.getElem?_eq_none (by simp; omega)]

theorem positions_without_ties_witness :
    (setPositionForSortedSamples (Criterion.only Criterion.cnd) (1 / 1000 : ℚ)
        [exampleSample 0, exampleSample 1, exampleSample 3]).map
        (Criterion.position Criterion.cnd) =
      (List.range 3).map (fun (i : Nat) => (i : Int) + 1) :=
  positions_without_ties Criterion.cnd (1 / 1000 : ℚ)
    [exampleSample 0, exampleSample 1, exampleSample 3]
    (exampleSample_position Criterion.cnd [0, 1, 3])
    (by
      intro i hi
      simp only [List.length_cons, List.length_nil] at hi
      have : i = 0 ∨ i = 1 := by omega
      rcases this with h | h <;> subst h <;>
        norm_num [exampleSample, Criterion.ratio])

/-- C16, as stated, fails: for the values `0 = 0 < 1` the loop writes the positions
`1, 1, 2`, whereas two samples are strictly smaller than the third one, which would have
the rank `3`. -/
theorem tie_group_ranks_dense :
    (setPositionForSortedSamples (Criterion.only Criterion.cnd) (1 / 1000 : ℚ)
        [exampleSample 0, exampleSample 0, exampleSample 1]).map
        (Criterion.position Criterion.cnd) = [1, 1, 2] ∧
      (1 : Int) + smallerCount Criterion.cnd
        [exampleSample 0, exampleSample 0, exampleSample 1] (exampleSample 1) = 3 := by
  constructor
  · have h := positions_eq_changes Criterion.cnd (1 / 1000 : ℚ)
      [exampleSample 0, exampleSample 0, exampleSample 1]
      (exampleSample_position Criterion.cnd [0, 0, 1])
    have c0 : changes Criterion.cnd (1 / 1000 : ℚ)
        [exampleSample 0, exampleSample 0, exampleSample 1] 0 = 0 := by simp [changes]
    have c1 : changes Criterion.cnd (1 / 1000 : ℚ)
        [exampleSample 0, exampleSample 0, exampleSample 1] (0 + 1) = 0 := by
      rw [changes_succ _ _ _ 0 (by simp), c0]
      norm_num [exampleSample, Criterion.ratio]
    have c2 : changes Criterion.cnd (1 / 1000 : ℚ)
        [exampleSample 0, exampleSample 0, exampleSample 1] (0 + 1 + 1) = 1 := by
      rw [changes_succ _ _ _ (0 + 1) (by simp), c1]
      norm_num [exampleSample, Criterion.ratio]
    rw [h]
    simp only [List.length_cons, List.length_nil, List.range_succ, List.range_zero,
      List.nil_append, List.cons_append, List.map_cons, List.map_nil, c0, c1, c2]
    norm_num
  · simp [smallerCount, Criterion.ratio, exampleSample]

/-- C16, as the code has it: for a list of samples with the positions of the criterion
initialised to `1`, the first sample keeps the position `1`; a sample whose value differs
from the value of its predecessor by at most `ARGUMENT_ROUND_ERROR` receives the position
of the predecessor, and every other sample the position of the predecessor plus `1`.  No
position is skipped after a group of equal values. -/
theorem positions_with_ties (c : Criterion) (ARGUMENT_ROUND_ERROR : K)
    (sl : List (Sample K)) (h1 : ∀ s, s ∈ sl → c.position s = 1) :
    ((setPositionForSortedSamples c.only ARGUMENT_ROUND_ERROR sl).map c.position).length =
        sl.length ∧
      (0 < sl.length →
        ((setPositionForSortedSamples c.only ARGUMENT_ROUND_ERROR sl).map c.position)[0]? =
          some 1) ∧
      ∀ i (hi : i + 1 < sl.length),
        ((setPositionForSortedSamples c.only ARGUMENT_ROUND_ERROR sl).map c.position)[i + 1]? =
          (((setPositionForSortedSamples c.only ARGUMENT_ROUND_ERROR sl).map
            c.position)[i]?).map (fun p =>
              if |c.ratio (sl.get ⟨i + 1, hi⟩) - c.ratio (sl.get ⟨i, Nat.lt_of_succ_lt hi⟩)| >
                ARGUMENT_ROUND_ERROR then p + 1 else p) := by
  obtain ⟨hlen, hget⟩ := setPositionForSortedSamples_only c ARGUMENT_ROUND_ERROR sl h1
  refine ⟨by simp [hlen], fun h0 => ?_, fun i hi => ?_⟩
  · rw [List.getElem?_map, hget 0 h0]
    simp [position_setPosition, changes]
  · rw [List.getElem?_map, hget (i + 1) hi, List.getElem?_map, hget i (Nat.lt_of_succ_lt hi)]
    simp only [Option.map_some', position_setPosition, changes_succ c _ sl i hi]
    split_ifs
    · simp
      ring
    · simp

theorem positions_with_ties_witness :
    ((setPositionForSortedSamples (Criterion.only Criterion.helt) (1 / 1000 : ℚ)
        [exampleSample 0, exampleSample 0, exampleSample 1]).map
        (Criterion.position Criterion.helt)).length = 3 :=
  (positions_with_ties Criterion.helt (1 / 1000 : ℚ)
    [exampleSample 0, exampleSample 0, exampleSample 1]
    (exampleSample_position Criterion.helt [0, 0, 1])).1

/-! ### Properties of the projection around a run of the optimizer -/

/-- C17: the projection `exampleStored` has `lat0 = 10` and `lon0 = 20`.  After a run whose
optimizer writes `lat0 = 55` and `lon0 = 77`, the statements `setLat0 ( lat0 )`,
`setLat0 ( lon0 )` leave `lat0 = 20` and `lon0 = 77`: neither property has the value from
before the run.  Even when the optimizer writes nothing, `lat0` becomes `20`. -/
theorem lat0_lon0_not_restored :
    exampleStored.lat0 = 10 ∧ exampleStored.lon0 = 20 ∧
      (optimizerRunSim (fun (p : Projection ℚ) => { p with lat0 := 55, lon0 := 77 }) exampleStored).lat0 = 20 ∧
      (optimizerRunSim (fun (p : Projection ℚ) => { p with lat0 := 55, lon0 := 77 }) exampleStored).lon0 = 77 ∧
      (optimizerRunDE (fun (p : Projection ℚ) => { p with lat0 := 55, lon0 := 77 }) exampleStored).lat0 = 20 ∧
      (optimizerRunDE (fun (p : Projection ℚ) => { p with lat0 := 55, lon0 := 77 }) exampleStored).lon0 = 77 ∧
      (optimizerRunSim (fun (p : Projection ℚ) => p) exampleStored).lat0 = 20 ∧
      (optimizerRunDE (fun (p : Projection ℚ) => p) exampleStored).lat0 = 20 := by
  refine ⟨rfl, rfl, rfl, rfl, rfl, rfl, rfl, rfl⟩

/-- What a run of the optimizer leaves in the projection: the pole (and `dx`, `dy`) from
before the run, `lat0` set to the stored `lon0`, and `lon0` as the optimizer left it. -/
theorem optimizerRunSim_eq {K : Type} (optimizer : Projection K → Projection K) (proj : Projection K) :
    optimizerRunSim optimizer proj =
      { optimizer proj with
        latp := proj.latp, lonp := proj.lonp, lat0 := proj.lon0, dx := proj.dx, dy := proj.dy } :=
  rfl

/-! ### Samples added by the drivers -/

/-- C18: one projection with a single pole position whose analysis creates a sample
(`created_samples = 1`): the counter of the projection becomes `1`, but nothing is added
to the list, because `push_back` is guarded by the counter of the projection, which is
still `0` at that time.  With a second position that the heuristic rejects
(`created_samples = 0`), the rejected sample is the one that is added. -/
theorem created_sample_not_added :
    projectionGS (fun _ => OneSample.returned 1 (exampleSample 5)) 1 ⟨[], 0, 0⟩ =
        ⟨[], 1, 1⟩ ∧
      projectionGS (fun i => if i = 0 then OneSample.returned 1 (exampleSample 5)
          else OneSample.returned 0 (exampleSample 7)) 2 ⟨[], 0, 0⟩ =
        ⟨[exampleSample 7], 1, 2⟩ := by
  constructor <;> simp [projectionGS, positionStepGS, List.range_succ]

/-- C19: one analyzed projection whose analysis creates a sample.  The simplex driver (and
the drivers with the same statements) does not add the sample: with an empty list the flag
is set on `sl [sl.size() - 1]` outside the list, with a list holding a sample of another
projection that sample is flagged.  The grid search driver adds the sample and flags it. -/
theorem analyzed_sample_not_added :
    analyzedProjections (analyzedStepSim (fun _ => OneSample.returned 1 (exampleSample 5))) 1
        [] = Except.error Failure.ElementOutsideList ∧
      analyzedProjections (analyzedStepSim (fun _ => OneSample.returned 1 (exampleSample 5))) 1
        [exampleSample 9] =
        Except.ok ([{ exampleSample 9 with analyzed_projection_sample := true }], 1) ∧
      analyzedProjections (analyzedStepGS (fun _ => OneSample.returned 1 (exampleSample 5))) 1
        [] = Except.ok ([{ exampleSample 5 with analyzed_projection_sample := true }], 1) := by
  refine ⟨rfl, rfl, rfl⟩

/-! ### Projected points after two failed attempts -/

/-- C26: a point with the transformed latitude `10` (not a pole) whose evaluation of `x`
throws an `ErrorMath` at the first attempt and again at the second attempt with the moved
coordinates.  The second handler moves the point once more, the loop ends, and a projected
point with the initial values `x = 0`, `y = 0` is added; when only the equation of `y`
throws, the point `(x, 0)` is added.  The list of projected points has as many points as
the input, so the test of the sizes does not throw the sample.  Only at the latitude `90`
the error is thrown again and no point is added. -/
theorem second_failure_point_added :
    projectedPoint (K := ℚ) (fun _ => Evaluation.errorMath) (fun _ => Evaluation.value 5)
        (1 / 10000) 10 20 = some ⟨0, 0⟩ ∧
      projectedPoint (K := ℚ) (fun _ => Evaluation.value 7) (fun _ => Evaluation.errorMath)
        (1 / 10000) 10 20 = some ⟨7, 0⟩ ∧
      projectedPoints (K := ℚ) (fun _ => Evaluation.errorMath) (fun _ => Evaluation.value 5)
        (1 / 10000) (fun _ => some (10, 20)) 1 = [⟨0, 0⟩] ∧
      projectedPoint (K := ℚ) (fun _ => Evaluation.errorMath) (fun _ => Evaluation.value 5)
        (1 / 10000) 90 20 = none := by
  refine ⟨?_, ?_, ?_, ?_⟩ <;>
    norm_num [projectedPoints, projectedPoint, attemptStep, moveOrThrow, FAnalyzeProjV4.MAX_LAT,
      List.range_succ, Except.bind]

/-! ### Rotation test -/

theorem toShort_nonneg [FloorRing K] (x : K) (hx : 0 ≤ x) : toShort x = ⌊x⌋ := by
  simp [toShort, hx]

/-- The window of the rotation test for `REM_DIV_ROT_ANGLE = 2`. -/
theorem tooRotated_two_window [FloorRing K] (rot_angle : K) (h1 : -180 ≤ rot_angle)
    (h2 : rot_angle ≤ 180) :
    tooRotated 2 rot_angle ↔
      ¬ (|rot_angle| < 7 ∨ (84 ≤ |rot_angle| ∧ |rot_angle| < 97) ∨ 174 ≤ |rot_angle|) := by
  have e : (3.0 : K) * 2 = 6 := by norm_num
  have e6 : (6.0 : K) * 2 = 12 := by norm_num
  have habs : |rot_angle| ≤ 180 := abs_le.mpr ⟨h1, h2⟩
  have h0 : 0 ≤ |rot_angle| := abs_nonneg _
  unfold tooRotated
  generalize |rot_angle| = r at *
  rw [e, e6, toShort_nonneg _ (by linarith)]
  have hn1 : (6 : ℤ) ≤ ⌊r + 6⌋ := Int.le_floor.mpr (by push_cast; linarith)
  have hn2 : ⌊r + 6⌋ ≤ 186 := by
    have : ⌊r + 6⌋ < 187 := Int.floor_lt.mpr (by push_cast; linarith)
    omega
  have k1 : r < 7 ↔ ⌊r + 6⌋ < 13 := by
    rw [Int.floor_lt]
    push_cast
    constructor <;> intro h <;> linarith
  have k2 : 84 ≤ r ↔ (90 : ℤ) ≤ ⌊r + 6⌋ := by
    rw [Int.le_floor]
    push_cast
    constructor <;> intro h <;> linarith
  have k3 : r < 97 ↔ ⌊r + 6⌋ < 103 := by
    rw [Int.floor_lt]
    push_cast
    constructor <;> intro h <;> linarith
  have k4 : 174 ≤ r ↔ (180 : ℤ) ≤ ⌊r + 6⌋ := by
    rw [Int.le_floor]
    push_cast
    constructor <;> intro h <;> linarith
  rw [k1, k2, k3, k4]
  have hc : ((⌊r + 6⌋.tmod 90 : ℤ) : K) > 12 ↔ ⌊r + 6⌋.tmod 90 > 12 := by
    constructor
    · intro h
      exact_mod_cast h
    · intro h
      exact_mod_cast h
  rw [hc]
  generalize ⌊r + 6⌋ = m at *
  have : m.tmod 90 = m % 90 := Int.tmod_eq_emod (by omega) (by norm_num)
  rw [this]
  omega

/-- C27, as the code has it: with `REM_DIV_ROT_ANGLE = 2`, for every rotation in
`[-180, 180]` the test `( short ) ( |rot| + 6 ) % 90 > 12` rejects the sample if and only if
`|rot|` lies in `[7, 84)` or in `[97, 174)`: a rotation is accepted when `|rot|` is at most
`6` degrees below or less than `7` degrees above a multiple of `90`. -/
theorem rotation_test_window [FloorRing K] (rot_angle : K) (h1 : -180 ≤ rot_angle)
    (h2 : rot_angle ≤ 180) :
    tooRotated 2 rot_angle ↔
      ¬ (|rot_angle| < 7 ∨ (84 ≤ |rot_angle| ∧ |rot_angle| < 97) ∨ 174 ≤ |rot_angle|) :=
  tooRotated_two_window rot_angle h1 h2

theorem rotation_test_window_witness : tooRotated (2 : ℚ) 45 :=
  (rotation_test_window (45 : ℚ) (by norm_num) (by norm_num)).mpr (by norm_num)

/-- C27, as stated, fails: the rotation `3` deviates from `0` by more than `2` degrees,
`min(3 mod 90, 90 − 3 mod 90) = 3 > 2`, but the test does not reject it. -/
theorem rotation_three_accepted :
    ¬ tooRotated (2 : ℚ) 3 ∧ rotationDeviation (3 : ℚ) > 2 := by
  constructor
  · rw [tooRotated_two_window 3 (by norm_num) (by norm_num)]
    norm_num
  · have f3 : FAnalyzeProjV4.fmod (|3| : ℚ) 90 = 3 := by
      unfold FAnalyzeProjV4.fmod
      have hf : ⌊(|3| : ℚ) / 90⌋ = 0 := Int.floor_eq_iff.mpr ⟨by norm_num, by norm_num⟩
      rw [if_pos (by norm_num), hf]
      norm_num
    rw [rotationDeviation, f3]
    norm_num

/-! ### Criteria enabled together -/

/-- Outside these types, with the Helmert criterion and the criterion of the turning function
of the graticule both enabled, the block of the latter is the `else if` branch of the
former and is not executed: for two samples with the values `0 < 1` the positions of the
turning function stay `1, 1`, whereas a call with only that criterion enabled assigns
`1, 2`.  The positions of the Helmert criterion are `1, 2`.  No caller passes such a
type. -/
theorem gn_tf_skipped_with_helt :
    (setPositionForSortedSamples ⟨false, false, true, true, false⟩ (1 / 1000 : ℚ)
        [exampleSample 0, exampleSample 1]).map (Criterion.position Criterion.gn_tf) = [1, 1] ∧
      (setPositionForSortedSamples (Criterion.only Criterion.gn_tf) (1 / 1000 : ℚ)
        [exampleSample 0, exampleSample 1]).map (Criterion.position Criterion.gn_tf) = [1, 2] ∧
      (setPositionForSortedSamples ⟨false, false, true, true, false⟩ (1 / 1000 : ℚ)
        [exampleSample 0, exampleSample 1]).map (Criterion.position Criterion.helt) =
          [1, 2] := by
  refine ⟨?_, ?_, ?_⟩ <;>
    norm_num [setPositionForSortedSamples, positionStep, updateAt, newPosition, exampleSample,
      Criterion.only, Criterion.position, List.range_succ]

end CartAnalysis
